import Mathlib

/-!
# Meteors.js: the near-Earth-object pipeline and the card carousel

A shallow embedding of `src/Meteors.js` (`getMeteors`, `visualsFor`,
`startSlide`, `prev`, `next`, the controls of `render`) together with the part
of the JavaScript semantics these functions rely on: property access, optional
chaining, truthiness (`||`), `Number(...)`, number arithmetic, `Object.keys`,
`Array.prototype.concat`, the stable `Array.prototype.sort` and `slice`; and
of the position poller of `src/IssLocation.js` and `src/IssInfo.js`
(`componentDidMount`, `componentWillUnmount`, `getIssLocation`) as a step
function on events.

Modelling conventions.

* A JavaScript number is `JSNum`, an IEEE 754 binary64 value: `NaN`, the two
  infinities, and the finite values as a sign and a whole number of units of
  `2 ^ -1074`.  Every operation rounds its exact result to the nearest value
  with 53 significant binary digits, ties to even, and overflows to an
  infinity.  `Number(string)` and the decimal literals round in the same way.
* `Array.prototype.sort` is stable.  On a list for which the comparator is a
  consistent comparator in the sense of ECMAScript the result is the stable
  sorted arrangement; on any other list the standard leaves the order to the
  engine, which is a parameter `Engine` of the pipeline.
* `setState` does not change `this.state` at once.  The handlers `prev`,
  `next` and `startSlide` on a `Screen` are calls handled as an event of their
  own, with the update applied before the next event; `Batched` is the screen
  inside one batch of React, where several calls read the same committed
  state.
* A value is a JSON value or `undefined`.  An object lists its own
  properties in the order in which `Object.keys` enumerates them.  The keys
  read by the program are no names of `Object.prototype`, so a property that
  is not an own property reads as `undefined`.
* A string is a sequence of Unicode scalar values.
* An exception is the `error` case of `Except JSError`.
-/

namespace Meteors

/-! ## Numbers -/

/-- A JavaScript number, that is an IEEE 754 binary64 value. A finite value is
a sign and a magnitude counted in units of `2 ^ -1074`, the smallest positive
value: every finite binary64 value is a whole number of these units below
`2 ^ 2098`. `fin false 0` is `+0` and `fin true 0` is `-0`. -/
inductive JSNum where
  | nan
  | posInf
  | negInf
  | fin (sign : Bool) (n : Nat)
  deriving DecidableEq

namespace JSNum

/-- The number of units in 1. -/
@[irreducible] def scale : Nat := 2 ^ 1074

/-- The first magnitude that is too large for a finite value, `2 ^ 1024` in
units. -/
@[irreducible] def limit : Nat := 2 ^ 2098

/-- The number of binary digits of `n`, given at least that much fuel. -/
def bitLen : Nat → Nat → Nat
  | 0, _ => 0
  | fuel + 1, n => if n = 0 then 0 else bitLen fuel (n / 2) + 1

/-- The position of the leading binary digit of `n`. -/
def log2 (n : Nat) : Nat := bitLen n n - 1

/-- The magnitude with at most 53 significant binary digits that is nearest to
`N / D` units, the even significand in a tie (round to nearest, ties to
even). Below `2 ^ 53` units the values are one unit apart, which covers the
subnormal range. -/
def roundMag (N D : Nat) : Nat :=
  let f := N / D
  let e := if f < 2 ^ 53 then 0 else log2 f - 52
  let u := D * 2 ^ e
  let m := N / u
  let r := N % u
  let m1 := if 2 * r < u then m else if u < 2 * r then m + 1 else if m % 2 = 0 then m else m + 1
  m1 * 2 ^ e

/-- The infinity with the given sign bit. -/
def inf (sign : Bool) : JSNum := if sign then negInf else posInf

/-- The zero with the given sign bit. -/
def zero (sign : Bool) : JSNum := fin sign 0

/-- The binary64 value of `N / D` units with the given sign: the rounded
magnitude, or the infinity when that is too large. -/
def round (sign : Bool) (N D : Nat) : JSNum :=
  if roundMag N D < limit then fin sign (roundMag N D) else inf sign

/-- The value of the numeric literal `k`. -/
def ofNat (k : Nat) : JSNum := round false (k * scale) 1

/-- The value of the decimal `m × 10 ^ e` with the given sign, correctly
rounded. -/
def ofDec (sign : Bool) (m : Nat) (e : Int) : JSNum :=
  if 0 ≤ e then round sign (m * 10 ^ e.toNat * scale) 1
  else round sign (m * scale) (10 ^ (-e).toNat)

/-- The sign bit. -/
def isNeg : JSNum → Bool
  | negInf => true
  | fin sign _ => sign
  | _ => false

/-- Whether the number is `+0` or `-0`. -/
def isZero : JSNum → Bool
  | fin _ n => decide (n = 0)
  | _ => false

/-- Whether the number is `+Infinity` or `-Infinity`. -/
def isInf : JSNum → Bool
  | posInf => true
  | negInf => true
  | _ => false

/-- Whether the number is neither `NaN` nor infinite. -/
def isFinite : JSNum → Bool
  | fin _ _ => true
  | _ => false

/-- The signed count of units of a finite value. -/
def signed (sign : Bool) (n : Nat) : Int := if sign then -(n : Int) else (n : Int)

/-- Unary minus. -/
def neg : JSNum → JSNum
  | nan => nan
  | posInf => negInf
  | negInf => posInf
  | fin sign n => fin (!sign) n

/-- The sum `a + b`: exact on the units, then rounded; the sum of two equal
magnitudes of opposite sign is `+0`. -/
def add : JSNum → JSNum → JSNum
  | nan, _ => nan
  | _, nan => nan
  | posInf, negInf => nan
  | negInf, posInf => nan
  | posInf, _ => posInf
  | _, posInf => posInf
  | negInf, _ => negInf
  | _, negInf => negInf
  | fin s1 n1, fin s2 n2 =>
    if s1 = s2 then round s1 (n1 + n2) 1
    else if n2 < n1 then round s1 (n1 - n2) 1
    else if n1 < n2 then round s2 (n2 - n1) 1
    else fin false 0

/-- The difference `a - b`. -/
def sub (a b : JSNum) : JSNum := add a (neg b)

/-- The product `a * b`, rounded. -/
def mul : JSNum → JSNum → JSNum
  | nan, _ => nan
  | _, nan => nan
  | fin s1 n1, fin s2 n2 => round (xor s1 s2) (n1 * n2) scale
  | a, b => if a.isZero || b.isZero then nan else inf (xor a.isNeg b.isNeg)

/-- The quotient `a / b`, rounded. -/
def div : JSNum → JSNum → JSNum
  | nan, _ => nan
  | _, nan => nan
  | fin s1 n1, fin s2 n2 =>
    if n2 = 0 then (if n1 = 0 then nan else inf (xor s1 s2))
    else round (xor s1 s2) (n1 * scale) n2
  | fin s1 _, b => zero (xor s1 b.isNeg)
  | a, fin s2 _ => inf (xor a.isNeg s2)
  | _, _ => nan

/-- The comparison `a < b`. -/
def lt : JSNum → JSNum → Bool
  | nan, _ => false
  | _, nan => false
  | posInf, _ => false
  | _, negInf => false
  | _, posInf => true
  | negInf, _ => true
  | fin s1 n1, fin s2 n2 => decide (signed s1 n1 < signed s2 n2)

/-- The comparison `a <= b`. -/
def le (a b : JSNum) : Bool :=
  if a = nan ∨ b = nan then false else !(lt b a)

/-- The comparison `a >= b`. -/
def ge (a b : JSNum) : Bool := le b a

/-- The comparison `a > b`. -/
def gt (a b : JSNum) : Bool := lt b a

/-- The strict equality `a === b` of two numbers. -/
def eq (a b : JSNum) : Bool := le a b && le b a

end JSNum

/-! ## `Number(string)` -/

/-- The characters `StringToNumber` strips: white space and line terminators. -/
def isWhiteSpace (c : Char) : Bool :=
  c.toNat ∈ [0x9, 0xA, 0xB, 0xC, 0xD, 0x20, 0xA0, 0x1680, 0x2000, 0x2001, 0x2002,
    0x2003, 0x2004, 0x2005, 0x2006, 0x2007, 0x2008, 0x2009, 0x200A, 0x2028,
    0x2029, 0x202F, 0x205F, 0x3000, 0xFEFF]

/-- Strip white space from both ends. -/
def trimWhite (cs : List Char) : List Char :=
  ((cs.dropWhile isWhiteSpace).reverse.dropWhile isWhiteSpace).reverse

/-- The value of a digit in the given base, if it is one. -/
def digitVal (base : Nat) (c : Char) : Option Nat :=
  let v :=
    if c.isDigit then c.toNat - 48
    else if 97 ≤ c.toNat ∧ c.toNat ≤ 102 then c.toNat - 87
    else if 65 ≤ c.toNat ∧ c.toNat ≤ 70 then c.toNat - 55
    else base
  if v < base then some v else none

/-- The value of a digit sequence read most significant digit first, given
the value of the digits read so far. -/
def digitsFrom (base : Nat) : Nat → List Char → Option Nat
  | acc, [] => some acc
  | acc, c :: cs =>
    match digitVal base c with
    | some v => digitsFrom base (acc * base + v) cs
    | none => none

/-- The value of a non-empty digit sequence. -/
def natOfDigits (base : Nat) (cs : List Char) : Option Nat :=
  if cs.isEmpty then none else digitsFrom base 0 cs

/-- A numeric literal as read from a string. -/
inductive NumLit where
  | notNumeric
  | infinity (sign : Bool)
  | lit (sign : Bool) (mantissa : Nat) (exponent : Int)
  deriving DecidableEq

/-- The exponent part of a decimal literal: empty, or `e` or `E`, an optional
sign and digits. -/
def parseExponent : List Char → Option Int
  | [] => some 0
  | c :: rest =>
    if c = 'e' ∨ c = 'E' then
      match rest with
      | '+' :: ds => (natOfDigits 10 ds).map Int.ofNat
      | '-' :: ds => (natOfDigits 10 ds).map (fun n => - Int.ofNat n)
      | ds => (natOfDigits 10 ds).map Int.ofNat
    else none

/-- An unsigned decimal literal `digits [. digits] [exponent]` or
`. digits [exponent]`, as mantissa and power of ten. -/
def parseUnsignedDecimal (cs : List Char) : Option (Nat × Int) :=
  let ip := cs.takeWhile Char.isDigit
  let r1 := cs.dropWhile Char.isDigit
  let fp := match r1 with
    | '.' :: t => t.takeWhile Char.isDigit
    | _ => []
  let r2 := match r1 with
    | '.' :: t => t.dropWhile Char.isDigit
    | _ => r1
  match natOfDigits 10 (ip ++ fp), parseExponent r2 with
  | some m, some e => some (m, e - Int.ofNat fp.length)
  | _, _ => none

/-- A signed decimal literal or signed `Infinity`. -/
def parseSigned (sign : Bool) (body : List Char) : NumLit :=
  if body = "Infinity".toList then NumLit.infinity sign
  else match parseUnsignedDecimal body with
    | some (m, e) => NumLit.lit sign m e
    | none => NumLit.notNumeric

/-- A literal in base 16, 8 or 2 (the part after the prefix). -/
def parseRadix (base : Nat) (ds : List Char) : NumLit :=
  match natOfDigits base ds with
  | some n => NumLit.lit false n 0
  | none => NumLit.notNumeric

/-- The grammar `StringNumericLiteral` of `StringToNumber`. -/
def parseNumLit (s : String) : NumLit :=
  match trimWhite s.toList with
  | [] => NumLit.lit false 0 0
  | '0' :: 'x' :: ds => parseRadix 16 ds
  | '0' :: 'X' :: ds => parseRadix 16 ds
  | '0' :: 'o' :: ds => parseRadix 8 ds
  | '0' :: 'O' :: ds => parseRadix 8 ds
  | '0' :: 'b' :: ds => parseRadix 2 ds
  | '0' :: 'B' :: ds => parseRadix 2 ds
  | '+' :: body => parseSigned false body
  | '-' :: body => parseSigned true body
  | body => parseSigned false body

/-- The number a literal denotes: the binary64 value nearest to it. -/
def JSNum.ofLit : NumLit → JSNum
  | NumLit.notNumeric => JSNum.nan
  | NumLit.infinity sign => JSNum.inf sign
  | NumLit.lit sign m e => JSNum.ofDec sign m e

/-- The conversion `Number(s)` of a string. -/
def stringToNumber (s : String) : JSNum := JSNum.ofLit (parseNumLit s)

/-! ## Values -/

/-- A JSON value, or `undefined`. The properties of an object are listed in
the order of `Object.keys`. -/
inductive JSValue where
  | undefined
  | null
  | bool (b : Bool)
  | num (n : JSNum)
  | str (s : String)
  | arr (xs : List JSValue)
  | obj (ps : List (String × JSValue))

/-- The exceptions the program can raise on JSON data. -/
inductive JSError where
  | typeError
  deriving DecidableEq

namespace JSValue

/-- Truthiness, as tested by `||`. -/
def truthy : JSValue → Bool
  | undefined => false
  | null => false
  | bool b => b
  | num n => !(n.isZero || decide (n = JSNum.nan))
  | str s => !(s.toList.isEmpty)
  | _ => true

/-- The expression `a || b`. -/
def orElse (a b : JSValue) : JSValue := if a.truthy then a else b

/-- Whether the value is `undefined` or `null`. -/
def isNullish : JSValue → Bool
  | undefined => true
  | null => true
  | _ => false

/-- The index a property key denotes, when it is a canonical array index:
decimal digits without a leading zero, below `2^32 - 1`. -/
def arrayIndex (k : String) : Option Nat :=
  match k.toList with
  | [] => none
  | c :: cs =>
    if c = '0' ∧ !cs.isEmpty then none
    else match natOfDigits 10 (c :: cs) with
      | some n => if n < 4294967295 then some n else none
      | none => none

/-- The own property `k` of a value that is not nullish (`undefined` when there
is none). A string has its characters and `length`, an array its elements and
`length`, an object its listed properties. -/
def getOwn : JSValue → String → JSValue
  | obj ps, k => (ps.lookup k).getD undefined
  | arr xs, k =>
    match arrayIndex k with
    | some i => xs.getD i undefined
    | none => if k = "length" then num (JSNum.ofNat xs.length) else undefined
  | str s, k =>
    match arrayIndex k with
    | some i =>
      match s.toList.get? i with
      | some c => str (String.singleton c)
      | none => undefined
    | none => if k = "length" then num (JSNum.ofNat s.length) else undefined
  | _, _ => undefined

/-- The property access `v.k` or `v[k]`: a TypeError on `undefined` and `null`. -/
def getProp (v : JSValue) (k : String) : Except JSError JSValue :=
  if v.isNullish then Except.error JSError.typeError else Except.ok (getOwn v k)

/-- The optional access `v?.k` or `v?.[k]`. -/
def optGet (v : JSValue) (k : String) : JSValue :=
  if v.isNullish then undefined else getOwn v k

/-- The property list after the assignment of `x` to the key `k` (a key that
is no array index): an existing property keeps its place, a new one is added
last. -/
def setOwn : List (String × JSValue) → String → JSValue → List (String × JSValue)
  | [], k, x => [(k, x)]
  | (k0, v) :: ps, k, x =>
    if k0 = k then (k0, x) :: ps else (k0, v) :: setOwn ps k x

/-- The assignment `v.k = x` in strict mode (module code), returning the
updated value: a TypeError on `undefined`, `null` and the primitives. A named
property of an array is not represented: the array is returned as it is (no
array reaches the assignment in `getMeteors`, whose line 75 raises on it). -/
def setProp : JSValue → String → JSValue → Except JSError JSValue
  | obj ps, k, x => Except.ok (obj (setOwn ps k x))
  | arr xs, _, _ => Except.ok (arr xs)
  | _, _, _ => Except.error JSError.typeError

/-- Whether no own property is named `toString`. -/
def keepsToString (ps : List (String × JSValue)) : Bool :=
  (ps.lookup "toString").isNone

mutual
/-- Whether `ToString` of the value returns: it throws a TypeError on an
object whose own property `toString` hides `Object.prototype.toString` (a
JSON value is never callable), also inside an array. -/
def stringifies : JSValue → Bool
  | obj ps => keepsToString ps
  | arr xs => stringifiesAll xs
  | _ => true
/-- Whether `ToString` returns on every element. -/
def stringifiesAll : List JSValue → Bool
  | [] => true
  | x :: xs => stringifies x && stringifiesAll xs
end

mutual
/-- The number denoted by the text of an array element inside `join`, which
writes `undefined` and `null` as the empty string. The text of a number
reads back as that number, with `-0` written `0`. -/
def elementNumber : JSValue → JSNum
  | undefined => JSNum.fin false 0
  | null => JSNum.fin false 0
  | bool _ => JSNum.nan
  | num n => if n.isZero then JSNum.fin false 0 else n
  | str s => stringToNumber s
  | arr xs => joinedNumber xs
  | obj _ => JSNum.nan
/-- The number denoted by `xs.join(",")`: with two or more elements the text
contains a comma and is not numeric. -/
def joinedNumber : List JSValue → JSNum
  | [] => JSNum.fin false 0
  | [x] => elementNumber x
  | _ :: _ :: _ => JSNum.nan
end

/-- The conversion `Number(v)`. An array converts through `join`, an object
through `Object.prototype.toString`, whose text is not numeric. -/
def toNumber : JSValue → Except JSError JSNum
  | undefined => Except.ok JSNum.nan
  | null => Except.ok (JSNum.fin false 0)
  | bool b => Except.ok (if b then JSNum.ofNat 1 else JSNum.fin false 0)
  | num n => Except.ok n
  | str s => Except.ok (stringToNumber s)
  | arr xs =>
    if stringifiesAll xs then Except.ok (joinedNumber xs)
    else Except.error JSError.typeError
  | obj ps =>
    if keepsToString ps then Except.ok JSNum.nan
    else Except.error JSError.typeError

/-- The decimal text of an array index. -/
def indexKey (i : Nat) : String := String.mk (Nat.toDigits 10 i)

/-- The result of `Object.keys(v)`: the indices of an array or a string, the
listed keys of an object, nothing for a number or a boolean. -/
def keys : JSValue → Except JSError (List String)
  | undefined => Except.error JSError.typeError
  | null => Except.error JSError.typeError
  | obj ps => Except.ok (ps.map Prod.fst)
  | arr xs => Except.ok ((List.range xs.length).map indexKey)
  | str s => Except.ok ((List.range s.length).map indexKey)
  | _ => Except.ok []

mutual
/-- Equality of values is decidable. -/
def decEq : (a b : JSValue) → Decidable (a = b)
  | undefined, undefined => isTrue rfl
  | undefined, null => isFalse (fun e => JSValue.noConfusion e)
  | undefined, bool _ => isFalse (fun e => JSValue.noConfusion e)
  | undefined, num _ => isFalse (fun e => JSValue.noConfusion e)
  | undefined, str _ => isFalse (fun e => JSValue.noConfusion e)
  | undefined, arr _ => isFalse (fun e => JSValue.noConfusion e)
  | undefined, obj _ => isFalse (fun e => JSValue.noConfusion e)
  | null, undefined => isFalse (fun e => JSValue.noConfusion e)
  | null, null => isTrue rfl
  | null, bool _ => isFalse (fun e => JSValue.noConfusion e)
  | null, num _ => isFalse (fun e => JSValue.noConfusion e)
  | null, str _ => isFalse (fun e => JSValue.noConfusion e)
  | null, arr _ => isFalse (fun e => JSValue.noConfusion e)
  | null, obj _ => isFalse (fun e => JSValue.noConfusion e)
  | bool _, undefined => isFalse (fun e => JSValue.noConfusion e)
  | bool _, null => isFalse (fun e => JSValue.noConfusion e)
  | bool x, bool y =>
    if h : x = y then isTrue (congrArg bool h)
    else isFalse (fun e => h (bool.inj e))
  | bool _, num _ => isFalse (fun e => JSValue.noConfusion e)
  | bool _, str _ => isFalse (fun e => JSValue.noConfusion e)
  | bool _, arr _ => isFalse (fun e => JSValue.noConfusion e)
  | bool _, obj _ => isFalse (fun e => JSValue.noConfusion e)
  | num _, undefined => isFalse (fun e => JSValue.noConfusion e)
  | num _, null => isFalse (fun e => JSValue.noConfusion e)
  | num _, bool _ => isFalse (fun e => JSValue.noConfusion e)
  | num x, num y =>
    if h : x = y then isTrue (congrArg num h)
    else isFalse (fun e => h (num.inj e))
  | num _, str _ => isFalse (fun e => JSValue.noConfusion e)
  | num _, arr _ => isFalse (fun e => JSValue.noConfusion e)
  | num _, obj _ => isFalse (fun e => JSValue.noConfusion e)
  | str _, undefined => isFalse (fun e => JSValue.noConfusion e)
  | str _, null => isFalse (fun e => JSValue.noConfusion e)
  | str _, bool _ => isFalse (fun e => JSValue.noConfusion e)
  | str _, num _ => isFalse (fun e => JSValue.noConfusion e)
  | str x, str y =>
    if h : x = y then isTrue (congrArg str h)
    else isFalse (fun e => h (str.inj e))
  | str _, arr _ => isFalse (fun e => JSValue.noConfusion e)
  | str _, obj _ => isFalse (fun e => JSValue.noConfusion e)
  | arr _, undefined => isFalse (fun e => JSValue.noConfusion e)
  | arr _, null => isFalse (fun e => JSValue.noConfusion e)
  | arr _, bool _ => isFalse (fun e => JSValue.noConfusion e)
  | arr _, num _ => isFalse (fun e => JSValue.noConfusion e)
  | arr _, str _ => isFalse (fun e => JSValue.noConfusion e)
  | arr xs, arr ys =>
    match decEqList xs ys with
    | isTrue h => isTrue (congrArg arr h)
    | isFalse h => isFalse (fun e => h (arr.inj e))
  | arr _, obj _ => isFalse (fun e => JSValue.noConfusion e)
  | obj _, undefined => isFalse (fun e => JSValue.noConfusion e)
  | obj _, null => isFalse (fun e => JSValue.noConfusion e)
  | obj _, bool _ => isFalse (fun e => JSValue.noConfusion e)
  | obj _, num _ => isFalse (fun e => JSValue.noConfusion e)
  | obj _, str _ => isFalse (fun e => JSValue.noConfusion e)
  | obj _, arr _ => isFalse (fun e => JSValue.noConfusion e)
  | obj ps, obj qs =>
    match decEqProps ps qs with
    | isTrue h => isTrue (congrArg obj h)
    | isFalse h => isFalse (fun e => h (obj.inj e))
/-- Equality of lists of values is decidable. -/
def decEqList : (xs ys : List JSValue) → Decidable (xs = ys)
  | [], [] => isTrue rfl
  | [], _ :: _ => isFalse (fun e => List.noConfusion e)
  | _ :: _, [] => isFalse (fun e => List.noConfusion e)
  | x :: xs, y :: ys =>
    match decEq x y, decEqList xs ys with
    | isTrue h1, isTrue h2 => isTrue (congrArg₂ List.cons h1 h2)
    | isFalse h1, _ => isFalse (fun e => h1 (List.cons.inj e).1)
    | _, isFalse h2 => isFalse (fun e => h2 (List.cons.inj e).2)
/-- Equality of property lists is decidable. -/
def decEqProps : (ps qs : List (String × JSValue)) → Decidable (ps = qs)
  | [], [] => isTrue rfl
  | [], _ :: _ => isFalse (fun e => List.noConfusion e)
  | _ :: _, [] => isFalse (fun e => List.noConfusion e)
  | (k, x) :: ps, (l, y) :: qs =>
    if hk : k = l then
      match decEq x y, decEqProps ps qs with
      | isTrue h1, isTrue h2 =>
        isTrue (congrArg₂ List.cons (congrArg₂ Prod.mk hk h1) h2)
      | isFalse h1, _ => isFalse (fun e => h1 (Prod.mk.inj (List.cons.inj e).1).2)
      | _, isFalse h2 => isFalse (fun e => h2 (List.cons.inj e).2)
    else isFalse (fun e => hk (Prod.mk.inj (List.cons.inj e).1).1)
end

instance : DecidableEq JSValue := decEq

end JSValue

open JSValue

instance {ε α : Type} [DecidableEq ε] [DecidableEq α] : DecidableEq (Except ε α)
  | Except.ok a, Except.ok b =>
    if h : a = b then isTrue (congrArg Except.ok h) else isFalse (fun e => h (Except.ok.inj e))
  | Except.error a, Except.error b =>
    if h : a = b then isTrue (congrArg Except.error h)
    else isFalse (fun e => h (Except.error.inj e))
  | Except.ok _, Except.error _ => isFalse (fun e => Except.noConfusion e)
  | Except.error _, Except.ok _ => isFalse (fun e => Except.noConfusion e)

/-! ## `getMeteors` -/

/-- The call `[].concat.apply([], byDay)`: an argument that is an array is
spread, any other is appended as it is. -/
def concatApply : List JSValue → List JSValue
  | [] => []
  | arr xs :: rest => xs ++ concatApply rest
  | v :: rest => v :: concatApply rest

/-- Lines 64-68: the groups of `res.data.near_earth_objects || {}` in the
order of `Object.keys`, flattened. -/
def flattenMeteors (data : JSValue) : Except JSError (List JSValue) := do
  let neo ← getProp data "near_earth_objects"
  let obj := neo.orElse (JSValue.obj [])
  let ks ← keys obj
  let byDay := ks.map (fun d => getOwn obj d)
  pure (concatApply byDay)

/-- The expression `m.close_approach_data?.[0]?.miss_distance?.kilometers`. -/
def missDistance (m : JSValue) : Except JSError JSValue := do
  let cad ← getProp m "close_approach_data"
  pure (optGet (optGet (optGet cad "0") "miss_distance") "kilometers")

/-- Lines 75-76: the values `minD` and `maxD` read from
`m.estimated_diameter.kilometers`. -/
def diameterFields (m : JSValue) : Except JSError (JSValue × JSValue) := do
  let ed ← getProp m "estimated_diameter"
  let km ← getProp ed "kilometers"
  let minD ← getProp km "estimated_diameter_min"
  let maxD ← getProp km "estimated_diameter_max"
  pure (minD, maxD)

/-- Lines 75-80: the value assigned to `m.threat_score`. -/
def threatScore (m : JSValue) : Except JSError JSNum := do
  let d ← diameterFields m
  let a ← toNumber d.1
  let b ← toNumber d.2
  let diameter := (a.add b).div (JSNum.ofNat 2)
  let kmv ← missDistance m
  let miss ← toNumber (kmv.orElse (num (JSNum.ofNat 1)))
  pure ((diameter.div miss).mul (JSNum.ofNat 1000000000))

/-- The body of the `forEach` callback: the item with `threat_score` set. -/
def addThreatScore (m : JSValue) : Except JSError JSValue := do
  let s ← threatScore m
  setProp m "threat_score" (num s)

/-- The loop `meteors.forEach(...)` of lines 74-81: the first exception ends it. -/
def scoreAll : List JSValue → Except JSError (List JSValue)
  | [] => pure []
  | m :: ms => do
    let m1 ← addThreatScore m
    let rest ← scoreAll ms
    pure (m1 :: rest)

/-- The operand `Number(a.close_approach_data?.[0]?.miss_distance?.kilometers
|| Infinity)` of the comparator. -/
def sortKey (m : JSValue) : Except JSError JSNum := do
  let kmv ← missDistance m
  toNumber (kmv.orElse (num JSNum.posInf))

/-- The comparator of lines 84-88: `am - bm`. -/
def compareMiss (a b : JSValue) : Except JSError JSNum := do
  let am ← sortKey a
  let bm ← sortKey b
  pure (am.sub bm)

/-- Whether `SortCompare` places `x` after `y` on the comparator result `v`:
`v > 0`; a `NaN` counts as `+0`. -/
def placesAfter (v : JSNum) : Bool := JSNum.gt v (JSNum.fin false 0)

/-- Stable insertion of `a`, which preceded the elements of the sorted list
in the input: `a` goes behind exactly the elements the comparator places it
after. -/
def insertSorted (cmp : JSValue → JSValue → Except JSError JSNum) (a : JSValue) :
    List JSValue → Except JSError (List JSValue)
  | [] => pure [a]
  | b :: rest => do
    let v ← cmp a b
    if placesAfter v then do
      let tail ← insertSorted cmp a rest
      pure (b :: tail)
    else pure (a :: b :: rest)

/-- The stable sorted arrangement of a list, built by insertion from the last
element on. An exception of the comparator ends it. -/
def insertionSort (cmp : JSValue → JSValue → Except JSError JSNum) :
    List JSValue → Except JSError (List JSValue)
  | [] => pure []
  | a :: rest => do
    let sorted ← insertionSort cmp rest
    insertSorted cmp a sorted

/-- The sign that `SortCompare` takes from the comparator result `v`: negative,
zero or positive; a `NaN` counts as `+0`. -/
def compareSign (v : JSNum) : Int :=
  if JSNum.lt v (JSNum.fin false 0) then -1
  else if JSNum.gt v (JSNum.fin false 0) then 1
  else 0

/-- The sign of the comparison of `a` with `b`, when the comparator returns. -/
def signOf (cmp : JSValue → JSValue → Except JSError JSNum) (a b : JSValue) : Option Int :=
  match cmp a b with
  | Except.ok v => some (compareSign v)
  | Except.error _ => none

/-- Whether the comparison is a consistent comparator for the elements of the
list, as ECMAScript defines it: every comparison returns, `a = a`, `a = b`
gives `b = a`, and each of `=`, `<` and `>` is transitive. -/
def consistentOn (cmp : JSValue → JSValue → Except JSError JSNum) (l : List JSValue) : Bool :=
  l.all fun a => l.all fun b => l.all fun c =>
    (signOf cmp a a == some 0) &&
    (signOf cmp a b).isSome &&
    (!(signOf cmp a b == some 0) || signOf cmp b a == some 0) &&
    (!(signOf cmp a b == some 0 && signOf cmp b c == some 0) || signOf cmp a c == some 0) &&
    (!(signOf cmp a b == some (-1) && signOf cmp b c == some (-1)) ||
      signOf cmp a c == some (-1)) &&
    (!(signOf cmp a b == some 1 && signOf cmp b c == some 1) || signOf cmp a c == some 1)

/-- What the engine does with a list whose sort order the standard leaves to
the implementation: it returns the elements in some order. -/
structure Engine where
  order : List JSValue → List JSValue
  perm : ∀ l, (order l).Perm l

/-- An engine that leaves such a list as it is. -/
def Engine.keep : Engine :=
  { order := fun l => l, perm := fun l => List.Perm.refl l }

/-- The call `Array.prototype.sort(cmp)`, which ECMAScript requires to be
stable. When the comparison is a consistent comparator for the elements, the
result is the stable sorted arrangement, which is then the only one
(`sortByKey_unique`), whatever algorithm the engine runs. When it is not (for
`compareMiss`: some operand is `NaN` next to operands that differ), the
standard leaves the order to the engine `E`. An exception of the comparator
ends the sort. -/
def sortWith (E : Engine) (cmp : JSValue → JSValue → Except JSError JSNum)
    (l : List JSValue) : Except JSError (List JSValue) := do
  let sorted ← insertionSort cmp l
  if consistentOn cmp l then pure sorted else pure (E.order l)

/-- The list after line 81: flattened and scored. -/
def getMeteorsScored (data : JSValue) : Except JSError (List JSValue) := do
  let flat ← flattenMeteors data
  scoreAll flat

/-- The list after line 88: flattened, scored and sorted. -/
def getMeteorsSorted (E : Engine) (data : JSValue) : Except JSError (List JSValue) := do
  let scored ← getMeteorsScored data
  sortWith E compareMiss scored

/-- The body of the `try` block from the response data `res.data` on: the value
`meteors.slice(0, 5)` passed to `setState`. -/
def getMeteorsBody (E : Engine) (data : JSValue) : Except JSError (List JSValue) := do
  let sorted ← getMeteorsSorted E data
  pure (sorted.take 5)

/-! ## The screen state and the carousel -/

/-- The component state of `MeteorScreen`. -/
structure State where
  meteors : List JSValue
  index : Int
  loading : Bool
  animating : Bool
  nextIndex : Option Int

/-- The state of lines 37-43. -/
def initialState : State :=
  { meteors := [], index := 0, loading := true, animating := false, nextIndex := none }

/-- The function `getMeteors` on the response data, run by the engine `E`:
`setState` with the ranked list, or in the `catch` branch with `loading`
alone. -/
def getMeteors (E : Engine) (data : JSValue) (s : State) : State :=
  match getMeteorsBody E data with
  | Except.ok ms => { s with meteors := ms, loading := false }
  | Except.error _ => { s with loading := false }

/-- The screen: its state and the animations started by `startSlide` whose
completion callback has not run yet, each with the `nextIndex` its callback
captured. -/
structure Screen where
  state : State
  running : List Int

/-- The callback of `Animated.parallel(...).start` for the target `nextIndex`
(line 124). -/
def finishSlide (nextIndex : Int) (s : State) : State :=
  { s with index := nextIndex, animating := false, nextIndex := none }

/-- The function `startSlide` called in an event of its own: nothing while
`this.state.animating` is set, else `setState` with `animating` and
`nextIndex`, whose update is applied and whose callback starts the animation
when the handler has returned, before the next event (`startSlide_eq_flush`).
The direction `dir` only positions the animated views. -/
def startSlide (_dir : Int) (nextIndex : Int) (c : Screen) : Screen :=
  if c.state.animating then c
  else
    { state := { c.state with animating := true, nextIndex := some nextIndex },
      running := c.running ++ [nextIndex] }

/-- The arrow handler `prev`, called in an event of its own. -/
def prev (c : Screen) : Screen :=
  if c.state.index = 0 then c
  else startSlide (-1) (c.state.index - 1) c

/-- The arrow handler `next`, called in an event of its own. -/
def next (c : Screen) : Screen :=
  if c.state.index = (c.state.meteors.length : Int) - 1 then c
  else startSlide 1 (c.state.index + 1) c

/-- The end of the oldest running animation: its callback runs. -/
def complete (c : Screen) : Screen :=
  match c.running with
  | [] => c
  | t :: rest => { state := finishSlide t c.state, running := rest }

/-- A press of an arrow. -/
inductive Press where
  | prev
  | next

/-- The handler of a press. -/
def press : Press → Screen → Screen
  | Press.prev => prev
  | Press.next => next

/-- A sequence of presses, each handled as an event of its own, in order. -/
def pressAll : List Press → Screen → Screen
  | [], c => c
  | p :: ps, c => pressAll ps (press p c)

/-- The screen inside one batch of React: `setState` queues its update and
`this.state` stays the committed state `screen.state` until the batch ends.
`pending` lists the targets of the calls
`setState({ animating: true, nextIndex }, callback)` that are queued. -/
structure Batched where
  screen : Screen
  pending : List Int

/-- The function `startSlide` inside a batch (lines 111-113): the guard reads
the committed `this.state.animating`, and `setState` queues the update with
its callback. -/
def Batched.startSlide (_dir : Int) (nextIndex : Int) (b : Batched) : Batched :=
  if b.screen.state.animating then b
  else { b with pending := b.pending ++ [nextIndex] }

/-- The arrow handler `prev` inside a batch. -/
def Batched.prev (b : Batched) : Batched :=
  if b.screen.state.index = 0 then b
  else Batched.startSlide (-1) (b.screen.state.index - 1) b

/-- The arrow handler `next` inside a batch. -/
def Batched.next (b : Batched) : Batched :=
  if b.screen.state.index = (b.screen.state.meteors.length : Int) - 1 then b
  else Batched.startSlide 1 (b.screen.state.index + 1) b

/-- The handler of a press inside a batch. -/
def Batched.press : Press → Batched → Batched
  | Press.prev => Batched.prev
  | Press.next => Batched.next

/-- A sequence of calls of the handlers inside one batch, in order. -/
def Batched.pressAll : List Press → Batched → Batched
  | [], b => b
  | p :: ps, b => Batched.pressAll ps (Batched.press p b)

/-- The end of a batch: the queued updates are applied in order, then each
callback starts its animation, which captured its own `nextIndex`. -/
def Batched.flush (b : Batched) : Screen :=
  b.pending.foldl
    (fun c t =>
      { state := { c.state with animating := true, nextIndex := some t },
        running := c.running ++ [t] })
    b.screen

/-- The calls of the handlers made inside one batch that starts from the
committed screen `c`, up to the end of the batch. -/
def pressBatch (ps : List Press) (c : Screen) : Screen :=
  Batched.flush (Batched.pressAll ps { screen := c, pending := [] })

/-- A sequence of batches, in order. -/
def pressBatches : List (List Press) → Screen → Screen
  | [], c => c
  | ps :: rest, c => pressBatches rest (pressBatch ps c)

/-! ## Notions used to state the properties -/

/-- The operand of the comparator for an item, `NaN` when its evaluation
raises. -/
def rankKey (m : JSValue) : JSNum :=
  match sortKey m with
  | Except.ok n => n
  | Except.error _ => JSNum.nan

/-- The miss distance of an item in kilometres as a number,
`Number(m.close_approach_data?.[0]?.miss_distance?.kilometers)`: `NaN` when
there is none, when it is no number, or when its evaluation raises. -/
def missKm (m : JSValue) : JSNum :=
  match missDistance m with
  | Except.ok v =>
    match toNumber v with
    | Except.ok n => n
    | Except.error _ => JSNum.nan
  | Except.error _ => JSNum.nan

/-- The value of `m.threat_score`, `NaN` when it is no number. -/
def scoreOf (m : JSValue) : JSNum :=
  match getOwn m "threat_score" with
  | num n => n
  | _ => JSNum.nan

/-- Stable insertion by a key: `a` goes behind the elements whose key is
smaller. -/
def insertByKey (key : JSValue → JSNum) (a : JSValue) : List JSValue → List JSValue
  | [] => [a]
  | b :: rest =>
    if placesAfter ((key a).sub (key b)) then b :: insertByKey key a rest
    else a :: b :: rest

/-- The stable arrangement of a list by a key. -/
def sortByKey (key : JSValue → JSNum) : List JSValue → List JSValue
  | [] => []
  | a :: rest => insertByKey key a (sortByKey key rest)

/-- An item whose two diameter fields are JSON numbers, which are finite. -/
def NumericDiameters (m : JSValue) : Prop :=
  ∃ a b : JSNum, diameterFields m = Except.ok (num a, num b) ∧
    a.isFinite = true ∧ b.isFinite = true

/-- An item whose miss distance is present (not falsy, as lines 79 and 85 test
it: not `undefined`, `null`, `false`, the empty string, a zero or `NaN`) and
reads as a number: `Number(...)` of it is not `NaN`. -/
def ParsableMiss (m : JSValue) : Prop :=
  ∃ (v : JSValue) (d : JSNum), missDistance m = Except.ok v ∧ v.truthy = true ∧
    toNumber v = Except.ok d ∧ d ≠ JSNum.nan

/-- A catalog item as the feed sends it. -/
def item (name : String) (minD maxD km : JSValue) : JSValue :=
  obj [("name", str name),
    ("estimated_diameter", obj [("kilometers",
      obj [("estimated_diameter_min", minD), ("estimated_diameter_max", maxD)])]),
    ("close_approach_data", arr [obj [("miss_distance", obj [("kilometers", km)])]])]

/-- The same item after the loop of lines 74-81. -/
def scoredItem (name : String) (minD maxD km : JSValue) (score : JSNum) : JSValue :=
  obj [("name", str name),
    ("estimated_diameter", obj [("kilometers",
      obj [("estimated_diameter_min", minD), ("estimated_diameter_max", maxD)])]),
    ("close_approach_data", arr [obj [("miss_distance", obj [("kilometers", km)])]]),
    ("threat_score", num score)]

/-- A response with one date group. -/
def feed (items : List JSValue) : JSValue :=
  obj [("near_earth_objects", obj [("2025-01-01", arr items)])]

/-- The catalog of the example: `A` at "1000" km, `B` at "500" km. -/
def exampleCatalog : JSValue :=
  feed [item "A" (num (JSNum.ofDec false 1 (-1))) (num (JSNum.ofDec false 3 (-1))) (str "1000"),
    item "B" (num (JSNum.ofDec false 1 (-1))) (num (JSNum.ofDec false 3 (-1))) (str "500")]

/-- An item whose miss distance is absent or empty: the expression of line 85
is falsy, so the comparator uses `Infinity`. -/
def LacksMiss (m : JSValue) : Prop :=
  ∃ v, missDistance m = Except.ok v ∧ v.truthy = false

/-- An item whose miss distance is a finite number. -/
def HasFiniteMiss (m : JSValue) : Prop :=
  ∃ v, missDistance m = Except.ok v ∧ v.truthy = true ∧ (missKm m).isFinite = true

/-- A catalog whose first item has a miss distance that is no number. -/
def unparsableFirst : JSValue :=
  feed [item "X" (num (JSNum.ofDec false 1 (-1))) (num (JSNum.ofDec false 3 (-1))) (str "abc"),
    item "Y" (num (JSNum.ofDec false 1 (-1))) (num (JSNum.ofDec false 3 (-1))) (str "500")]

/-- An item with a miss distance below one kilometre. -/
def nearItem : JSValue :=
  item "C" (num (JSNum.ofDec false 1 (-1))) (num (JSNum.ofDec false 3 (-1))) (str "0.5")

/-- An item without `close_approach_data`. -/
def bareItem (minD maxD : JSValue) : JSValue :=
  obj [("name", str "D"),
    ("estimated_diameter", obj [("kilometers",
      obj [("estimated_diameter_min", minD), ("estimated_diameter_max", maxD)])])]

/-- An item with the given `close_approach_data`. -/
def itemWithApproach (cad : JSValue) : JSValue :=
  obj [("name", str "H"),
    ("estimated_diameter", obj [("kilometers",
      obj [("estimated_diameter_min", num (JSNum.ofDec false 1 (-1))),
        ("estimated_diameter_max", num (JSNum.ofDec false 3 (-1)))])]),
    ("close_approach_data", cad)]

/-- An item whose `kilometers` object has no diameter fields. -/
def noDiameterItem : JSValue :=
  obj [("name", str "E"),
    ("estimated_diameter", obj [("kilometers", obj [])]),
    ("close_approach_data", arr [obj [("miss_distance", obj [("kilometers", str "1000")])]])]

/-- An item without `estimated_diameter`. -/
def noEstimateItem : JSValue :=
  obj [("name", str "F"),
    ("close_approach_data", arr [obj [("miss_distance", obj [("kilometers", str "1000")])]])]

/-- An item with a negative miss distance. -/
def negativeMissItem : JSValue :=
  item "G" (num (JSNum.ofDec false 1 (-1))) (num (JSNum.ofDec false 3 (-1))) (str "-1000")

/-- A catalog with a well-formed item and an item without diameter fields. -/
def missingDiameterCatalog : JSValue :=
  feed [item "B" (num (JSNum.ofDec false 1 (-1))) (num (JSNum.ofDec false 3 (-1))) (str "500"),
    noDiameterItem]

/-- A catalog with a well-formed item and an item without `estimated_diameter`. -/
def missingEstimateCatalog : JSValue :=
  feed [item "B" (num (JSNum.ofDec false 1 (-1))) (num (JSNum.ofDec false 3 (-1))) (str "500"),
    noEstimateItem]

/-- A response whose `near_earth_objects` is an array of items. -/
def arrayResponse : JSValue :=
  obj [("near_earth_objects",
    arr [item "A" (num (JSNum.ofDec false 1 (-1))) (num (JSNum.ofDec false 3 (-1))) (str "1000")])]

/-- A catalog whose first item has no miss distance. -/
def mixedCatalog : JSValue :=
  feed [bareItem (num (JSNum.ofDec false 1 (-1))) (num (JSNum.ofDec false 3 (-1))),
    item "B" (num (JSNum.ofDec false 1 (-1))) (num (JSNum.ofDec false 3 (-1))) (str "500")]

/-- A response whose `near_earth_objects` is a string. -/
def stringResponse : JSValue :=
  obj [("near_earth_objects", str "none")]

/-- A magnitude with at most 53 significant binary digits: what the rounding
returns. -/
def JSNum.Representable (n : Nat) : Prop :=
  n < 2 ^ 53 ∨ ∃ m e, n = m * 2 ^ e ∧ 2 ^ 52 ≤ m ∧ m < 2 ^ 53

/-- A number that is a binary64 value: `NaN`, an infinity, or a finite value
whose magnitude is representable and below the limit. The operations return
such numbers. -/
def JSNum.Canonical : JSNum → Prop
  | JSNum.fin _ n => JSNum.Representable n ∧ n < JSNum.limit
  | _ => True

/-- An item with diameters of 1e308 km and the miss distance "Infinity". -/
def hugeItem : JSValue :=
  item "I" (num (JSNum.ofDec false 1 308)) (num (JSNum.ofDec false 1 308)) (str "Infinity")

/-- An item with diameters 0.1 and 0.2 at "3" km. -/
def thirdItem : JSValue :=
  item "K" (num (JSNum.ofDec false 1 (-1))) (num (JSNum.ofDec false 2 (-1))) (str "3")

/-- An item whose miss distance is parsable as the claim reads it: the
expression of line 85 evaluates and `Number(...)` of it is not `NaN`. -/
def NumberMiss (m : JSValue) : Prop :=
  ∃ (v : JSValue) (d : JSNum), missDistance m = Except.ok v ∧
    toNumber v = Except.ok d ∧ d ≠ JSNum.nan

/-- Whether the standard fixes the sort order of the catalog: the comparator
is consistent on its scored items. -/
def orderFixed (data : JSValue) : Bool :=
  match getMeteorsScored data with
  | Except.ok scored => consistentOn compareMiss scored
  | Except.error _ => true

/-- A catalog whose first item has the number 0 as miss distance. -/
def zeroFirstCatalog : JSValue :=
  feed [item "A" (num (JSNum.ofDec false 1 (-1))) (num (JSNum.ofDec false 3 (-1)))
      (num (JSNum.fin false 0)),
    item "B" (num (JSNum.ofDec false 1 (-1))) (num (JSNum.ofDec false 3 (-1))) (str "500")]

/-- A catalog whose first item has no miss distance and whose second item
has one that is too large for a finite number. -/
def hugeMissCatalog : JSValue :=
  feed [bareItem (num (JSNum.ofDec false 1 (-1))) (num (JSNum.ofDec false 3 (-1))),
    item "P" (num (JSNum.ofDec false 1 (-1))) (num (JSNum.ofDec false 3 (-1))) (str "1e400")]

/-- A catalog of four items, the third with a miss distance that is no
number. -/
def unparsableThird : JSValue :=
  feed [item "P" (num (JSNum.ofDec false 1 (-1))) (num (JSNum.ofDec false 3 (-1))) (str "300"),
    item "Q" (num (JSNum.ofDec false 1 (-1))) (num (JSNum.ofDec false 3 (-1))) (str "200"),
    item "X" (num (JSNum.ofDec false 1 (-1))) (num (JSNum.ofDec false 3 (-1))) (str "abc"),
    item "R" (num (JSNum.ofDec false 1 (-1))) (num (JSNum.ofDec false 3 (-1))) (str "100")]

/-- Two items whose miss distances are written differently and are the same
number, between a farther and a nearer item. -/
def tieCatalog : JSValue :=
  feed [item "S" (num (JSNum.ofDec false 1 (-1))) (num (JSNum.ofDec false 3 (-1)))
      (str "64503632.622439080"),
    item "T" (num (JSNum.ofDec false 1 (-1))) (num (JSNum.ofDec false 3 (-1)))
      (str "64503632.622439079")]

/-- The items of a catalog of seven, in two date groups. -/
def sevenItems : List JSValue :=
  [item "M1" (num (JSNum.ofDec false 1 (-1))) (num (JSNum.ofDec false 3 (-1))) (str "700"),
    item "M2" (num (JSNum.ofDec false 1 (-1))) (num (JSNum.ofDec false 3 (-1))) (str "300"),
    bareItem (num (JSNum.ofDec false 1 (-1))) (num (JSNum.ofDec false 3 (-1))),
    item "M4" (num (JSNum.ofDec false 1 (-1))) (num (JSNum.ofDec false 3 (-1))) (str "600"),
    item "M5" (num (JSNum.ofDec false 1 (-1))) (num (JSNum.ofDec false 3 (-1))) (str "100"),
    item "M6" (num (JSNum.ofDec false 1 (-1))) (num (JSNum.ofDec false 3 (-1))) (str "300"),
    item "M7" (num (JSNum.ofDec false 1 (-1))) (num (JSNum.ofDec false 3 (-1))) (str "200")]

/-- A catalog of seven items in two date groups. -/
def sevenCatalog : JSValue :=
  obj [("near_earth_objects",
    obj [("2025-01-01", arr (sevenItems.take 4)), ("2025-01-02", arr (sevenItems.drop 4))])]

/-- A screen that shows the first of the two cards of the example. -/
def firstCard : Screen :=
  { state := getMeteors Engine.keep exampleCatalog initialState, running := [] }

/-- A screen that shows the last of the two cards of the example. -/
def lastCard : Screen :=
  { state := { getMeteors Engine.keep exampleCatalog initialState with index := 1 },
    running := [] }

/-- A screen in the middle of the slide from the first card to the second. -/
def slidingCard : Screen := next firstCard

/-! ## The divisor, the card visuals and the rendered controls -/

/-- Line 79: the value `miss`, `Number(... || 1)`, by which line 80 divides. -/
def missDivisor (m : JSValue) : Except JSError JSNum := do
  let kmv ← missDistance m
  toNumber (kmv.orElse (num (JSNum.ofNat 1)))

/-- An item whose miss distance is the string "0". -/
def zeroMissItem : JSValue :=
  item "Z" (num (JSNum.ofDec false 1 (-1))) (num (JSNum.ofDec false 3 (-1))) (str "0")

/-- An item whose miss distance is the number 0. -/
def zeroNumberItem : JSValue :=
  item "N" (num (JSNum.ofDec false 1 (-1))) (num (JSNum.ofDec false 3 (-1))) (num (JSNum.fin false 0))

/-- The palette of lines 29-33: the three background assets. -/
def BG_IMAGES : List String :=
  ["../assets/meteor_bg1.png", "../assets/meteor_bg2.png", "../assets/meteor_bg3.png"]

/-- The result of `visualsFor`: `bg_img` is `none` when the index expression
selects no entry. -/
structure Visuals where
  bg_img : Option String
  speed : String
  size : Nat
  deriving DecidableEq

/-- The function `visualsFor` of lines 101-108. The remainder `%` takes the
sign of `idx`; a negative position selects no entry. -/
def visualsFor (meteor : JSValue) (idx : Int) : Except JSError Visuals := do
  let r := Int.tmod idx (BG_IMAGES.length : Int)
  let bg_img := if 0 ≤ r then BG_IMAGES.get? r.toNat else none
  let speed := "../assets/meteor_speed3.gif"
  let ts ← getProp meteor "threat_score"
  let n ← toNumber ts
  let size := if JSNum.le n (JSNum.ofNat 30) then 100 else if JSNum.le n (JSNum.ofNat 75) then 150 else 200
  pure { bg_img := bg_img, speed := speed, size := size }

/-- One event of the carousel: a call of a handler or the end of the oldest
running animation. -/
inductive CarouselStep where
  | prev
  | next
  | complete

/-- The effect of one event. -/
def carouselStep : CarouselStep → Screen → Screen
  | CarouselStep.prev => prev
  | CarouselStep.next => next
  | CarouselStep.complete => complete

/-- A sequence of events, in order. -/
def carouselRun : List CarouselStep → Screen → Screen
  | [], c => c
  | e :: es, c => carouselRun es (carouselStep e c)

/-- What `render` shows (lines 198-255): the loading text, the no-data text,
or the cards with the two arrows, each with its `disabled` flag. -/
inductive View where
  | loading
  | noData
  | cards (prevDisabled nextDisabled : Bool)
  deriving DecidableEq

/-- The method `render`, as far as the controls go. -/
def render (s : State) : View :=
  if s.loading then View.loading
  else if s.meteors.length = 0 then View.noData
  else View.cards (decide (s.index = 0) || s.animating)
    (decide (s.index = (s.meteors.length : Int) - 1) || s.animating)

/-- A press on the screen where an arrow would be: it reaches the handler
when the arrow is rendered and not disabled. -/
def tap (p : Press) (c : Screen) : Screen :=
  match render c.state, p with
  | View.cards prevDisabled _, Press.prev => if prevDisabled then c else prev c
  | View.cards _ nextDisabled, Press.next => if nextDisabled then c else next c
  | _, _ => c

/-- One event of the rendered screen: a press, or the end of the oldest
running animation. -/
inductive ScreenEvent where
  | tap (p : Press)
  | complete

/-- The effect of one event of the rendered screen. -/
def screenStep : ScreenEvent → Screen → Screen
  | ScreenEvent.tap p => tap p
  | ScreenEvent.complete => complete

/-- A sequence of events of the rendered screen, in order. -/
def screenRun : List ScreenEvent → Screen → Screen
  | [], c => c
  | e :: es, c => screenRun es (screenStep e c)

/-- The screen over an empty list in the state of lines 37-43 once loading
has ended. -/
def emptyScreen : Screen :=
  { state := { initialState with loading := false }, running := [] }

/-! ## The position poller (`IssLocation.js`, `IssInfo.js`) -/

/-- The two screens that poll the position of the station. -/
inductive PollerScreen where
  | issLocation
  | issInfo
  deriving DecidableEq

/-- The life of a component instance. -/
inductive Phase where
  | created
  | mounted
  | unmounted
  deriving DecidableEq

/-- The poller: the stored location `this.state.location`, the life phase,
whether the interval of `setInterval` is active, whether `this.intervalId`
holds its id, the number of requests in flight, and a record of what the code
did: the number of calls of `axios.get`, the arguments of the calls
`setState({ location: ... })`, the number of alerts. -/
structure Poller where
  location : JSValue
  phase : Phase
  interval : Bool
  storedId : Bool
  inFlight : Nat
  issued : Nat
  published : List JSValue
  alerts : Nat

/-- The poller after the constructor: `location` is `{}`. -/
def newPoller : Poller :=
  { location := obj [], phase := Phase.created, interval := false, storedId := false,
    inFlight := 0, issued := 0, published := [], alerts := 0 }

/-- The call `axios.get(...)` of `getIssLocation`: one more request in flight. -/
def getIssLocation (p : Poller) : Poller :=
  { p with issued := p.issued + 1, inFlight := p.inFlight + 1 }

/-- The `then` handler, `this.setState({ location: response.data })`. The
handler makes the call in every phase. What the call does on an unmounted
component is the business of React: `late` tells whether React still applies
it. -/
def onFetchSuccess (late : Bool) (data : JSValue) (p : Poller) : Poller :=
  { p with
    published := p.published ++ [data],
    location := if p.phase = Phase.mounted ∨ late = true then data else p.location }

/-- The `catch` handler: an alert and a log line. -/
def onFetchFailure (p : Poller) : Poller :=
  { p with alerts := p.alerts + 1 }

/-- The method `componentDidMount`: one fetch at once, then the interval;
`IssLocation.js` keeps the id of the interval, `IssInfo.js` does not. -/
def componentDidMount (scr : PollerScreen) (p : Poller) : Poller :=
  { getIssLocation p with
    interval := true,
    storedId := decide (scr = PollerScreen.issLocation),
    phase := Phase.mounted }

/-- The method `componentWillUnmount`: `IssLocation.js` clears the interval
whose id it kept (lines 52-55); `IssInfo.js` has no such method. -/
def componentWillUnmount (scr : PollerScreen) (p : Poller) : Poller :=
  match scr with
  | PollerScreen.issLocation =>
    if p.storedId then { p with interval := false, phase := Phase.unmounted }
    else { p with phase := Phase.unmounted }
  | PollerScreen.issInfo => { p with phase := Phase.unmounted }

/-- The events of the poller. -/
inductive PollEvent where
  | mount
  | tick
  | success (data : JSValue)
  | failure
  | unmount

/-- The step of the poller. An event that cannot happen leaves the poller as
it is: an instance mounts once and unmounts once, the timer fires while its
interval is active, a response needs a request in flight. -/
def pollStep (scr : PollerScreen) (late : Bool) : PollEvent → Poller → Poller
  | PollEvent.mount, p =>
    if p.phase = Phase.created then componentDidMount scr p else p
  | PollEvent.tick, p =>
    if p.interval then getIssLocation p else p
  | PollEvent.success data, p =>
    if 0 < p.inFlight then onFetchSuccess late data { p with inFlight := p.inFlight - 1 }
    else p
  | PollEvent.failure, p =>
    if 0 < p.inFlight then onFetchFailure { p with inFlight := p.inFlight - 1 } else p
  | PollEvent.unmount, p =>
    if p.phase = Phase.mounted then componentWillUnmount scr p else p

/-- A sequence of events, in order. -/
def pollRun (scr : PollerScreen) (late : Bool) : List PollEvent → Poller → Poller
  | [], p => p
  | e :: es, p => pollRun scr late es (pollStep scr late e p)

/-- A response of the position service. -/
def samplePosition : JSValue :=
  obj [("latitude", num (JSNum.ofNat 10)), ("longitude", num (JSNum.ofNat 20)),
    ("altitude", num (JSNum.ofNat 420)), ("velocity", num (JSNum.ofNat 27600))]

/-! # Properties -/

/-! ## Exceptions -/

@[simp] theorem ok_bind {α β : Type} (x : α) (f : α → Except JSError β) :
    (Except.ok x >>= f) = f x := rfl

@[simp] theorem error_bind {α β : Type} (e : JSError) (f : α → Except JSError β) :
    ((Except.error e : Except JSError α) >>= f) = Except.error e := rfl

@[simp] theorem pure_eq_ok {α : Type} (x : α) : (pure x : Except JSError α) = Except.ok x := rfl

theorem error_eq (e : JSError) : e = JSError.typeError := by cases e; rfl

theorem bind_eq_ok {α β : Type} {x : Except JSError α} {f : α → Except JSError β} {b : β} :
    (x >>= f) = Except.ok b ↔ ∃ a, x = Except.ok a ∧ f a = Except.ok b := by
  cases x <;> simp

/-! ## Property access -/

theorem getProp_eq_ok {v : JSValue} {k : String} {w : JSValue} :
    getProp v k = Except.ok w ↔ v.isNullish = false ∧ getOwn v k = w := by
  unfold getProp
  cases h : v.isNullish <;> simp

theorem getOwn_of_nullish {v : JSValue} (h : v.isNullish = true) (k : String) :
    getOwn v k = undefined := by
  cases v <;> simp [isNullish] at h <;> rfl

theorem optGet_eq (v : JSValue) (k : String) : optGet v k = getOwn v k := by
  unfold optGet
  cases h : v.isNullish
  · simp
  · simp [getOwn_of_nullish h]

theorem lookup_setOwn_ne (ps : List (String × JSValue)) {k k1 : String} (x : JSValue)
    (h : k ≠ k1) : (setOwn ps k x).lookup k1 = ps.lookup k1 := by
  induction ps with
  | nil =>
    have h1 : (k1 == k) = false := by simpa using fun e => h e.symm
    simp [setOwn, List.lookup, h1]
  | cons p ps ih =>
    obtain ⟨k0, v⟩ := p
    unfold setOwn
    by_cases h0 : k0 = k
    · subst h0
      have h1 : (k1 == k0) = false := by simpa using fun e => h e.symm
      simp [List.lookup, h1]
    · simp only [h0, if_false]
      cases h2 : (k1 == k0) <;> simp [List.lookup, h2, ih]

theorem lookup_setOwn_self (ps : List (String × JSValue)) (k : String) (x : JSValue) :
    (setOwn ps k x).lookup k = some x := by
  induction ps with
  | nil => simp [setOwn, List.lookup]
  | cons p ps ih =>
    obtain ⟨k0, v⟩ := p
    unfold setOwn
    by_cases h0 : k0 = k
    · subst h0
      simp [List.lookup]
    · have h1 : (k == k0) = false := by simpa using fun e => h0 e.symm
      simp [h0, List.lookup, h1, ih]

theorem getOwn_setOwn_ne (ps : List (String × JSValue)) {k k1 : String} (x : JSValue)
    (h : k ≠ k1) : getOwn (obj (setOwn ps k x)) k1 = getOwn (obj ps) k1 := by
  simp [getOwn, lookup_setOwn_ne ps x h]

theorem getOwn_setOwn_self (ps : List (String × JSValue)) (k : String) (x : JSValue) :
    getOwn (obj (setOwn ps k x)) k = x := by
  simp [getOwn, lookup_setOwn_self]

/-- A value with an own property that is not nullish under a name that is no
index and not `length` is an object. -/
theorem isObj_of_getOwn {v : JSValue} {k : String} (hk : arrayIndex k = none)
    (hl : k ≠ "length") (h : (getOwn v k).isNullish = false) : ∃ ps, v = obj ps := by
  cases v with
  | obj ps => exact ⟨ps, rfl⟩
  | arr xs => simp [getOwn, hk, hl, isNullish] at h
  | str s => simp [getOwn, hk, hl, isNullish] at h
  | undefined => simp [getOwn, isNullish] at h
  | null => simp [getOwn, isNullish] at h
  | bool b => simp [getOwn, isNullish] at h
  | num n => simp [getOwn, isNullish] at h

theorem diameterFields_eq_ok {m : JSValue} {p : JSValue × JSValue} :
    diameterFields m = Except.ok p ↔
      ∃ km, (getOwn (getOwn m "estimated_diameter") "kilometers") = km ∧
        m.isNullish = false ∧ (getOwn m "estimated_diameter").isNullish = false ∧
        km.isNullish = false ∧
        p = (getOwn km "estimated_diameter_min", getOwn km "estimated_diameter_max") := by
  unfold diameterFields
  simp only [bind_eq_ok, getProp_eq_ok, pure_eq_ok, Except.ok.injEq]
  constructor
  · rintro ⟨ed, ⟨h1, rfl⟩, km, ⟨h2, rfl⟩, a, ⟨h3, rfl⟩, b, ⟨_, rfl⟩, rfl⟩
    exact ⟨_, rfl, h1, h2, h3, rfl⟩
  · rintro ⟨km, rfl, h1, h2, h3, rfl⟩
    exact ⟨_, ⟨h1, rfl⟩, _, ⟨h2, rfl⟩, _, ⟨h3, rfl⟩, _, ⟨h3, rfl⟩, rfl⟩

theorem isObj_of_diameterFields {m : JSValue} {p : JSValue × JSValue}
    (h : diameterFields m = Except.ok p) : ∃ ps, m = obj ps := by
  obtain ⟨km, -, -, h2, -, -⟩ := diameterFields_eq_ok.mp h
  exact isObj_of_getOwn (by decide) (by decide) h2

/-! ## Scoring -/

theorem missDistance_obj (ps : List (String × JSValue)) :
    missDistance (obj ps) = Except.ok (getOwn (getOwn (getOwn
      (getOwn (obj ps) "close_approach_data") "0") "miss_distance") "kilometers") := by
  simp [missDistance, getProp, isNullish, optGet_eq]

theorem missDistance_setOwn (ps : List (String × JSValue)) (x : JSValue) :
    missDistance (obj (setOwn ps "threat_score" x)) = missDistance (obj ps) := by
  rw [missDistance_obj, missDistance_obj, getOwn_setOwn_ne ps x (by decide)]

theorem diameterFields_setOwn (ps : List (String × JSValue)) (x : JSValue) :
    diameterFields (obj (setOwn ps "threat_score" x)) = diameterFields (obj ps) := by
  simp [diameterFields, getProp, isNullish, getOwn_setOwn_ne ps x (by decide : "threat_score" ≠ "estimated_diameter")]

theorem threatScore_eq_ok {m : JSValue} {s : JSNum} :
    threatScore m = Except.ok s ↔
      ∃ minD maxD a b kmv d, diameterFields m = Except.ok (minD, maxD) ∧
        toNumber minD = Except.ok a ∧ toNumber maxD = Except.ok b ∧
        missDistance m = Except.ok kmv ∧
        toNumber (kmv.orElse (num (JSNum.ofNat 1))) = Except.ok d ∧
        s = (((a.add b).div (JSNum.ofNat 2)).div d).mul (JSNum.ofNat 1000000000) := by
  unfold threatScore
  simp only [bind_eq_ok, pure_eq_ok, Except.ok.injEq]
  constructor
  · rintro ⟨⟨minD, maxD⟩, h1, a, h2, b, h3, kmv, h4, d, h5, rfl⟩
    exact ⟨minD, maxD, a, b, kmv, d, h1, h2, h3, h4, h5, rfl⟩
  · rintro ⟨minD, maxD, a, b, kmv, d, h1, h2, h3, h4, h5, rfl⟩
    exact ⟨(minD, maxD), h1, a, h2, b, h3, kmv, h4, d, h5, rfl⟩

theorem addThreatScore_eq_ok {m m1 : JSValue} :
    addThreatScore m = Except.ok m1 ↔
      ∃ s ps, threatScore m = Except.ok s ∧ m = obj ps ∧
        m1 = obj (setOwn ps "threat_score" (num s)) := by
  unfold addThreatScore
  simp only [bind_eq_ok]
  constructor
  · rintro ⟨s, h1, h2⟩
    obtain ⟨minD, maxD, a, b, kmv, d, hd, -⟩ := threatScore_eq_ok.mp h1
    obtain ⟨ps, rfl⟩ := isObj_of_diameterFields hd
    simp only [setProp, Except.ok.injEq] at h2
    exact ⟨s, ps, h1, rfl, h2.symm⟩
  · rintro ⟨s, ps, h1, rfl, rfl⟩
    exact ⟨s, h1, rfl⟩

/-- The stored score can be read back from the scored item. -/
theorem scoreOf_addThreatScore {m m1 : JSValue} (h : addThreatScore m = Except.ok m1) :
    threatScore m = Except.ok (scoreOf m1) ∧
      getProp m1 "threat_score" = Except.ok (num (scoreOf m1)) := by
  obtain ⟨s, ps, h1, rfl, rfl⟩ := addThreatScore_eq_ok.mp h
  simp [scoreOf, getOwn_setOwn_self, h1, getProp, isNullish]

theorem missDistance_addThreatScore {m m1 : JSValue} (h : addThreatScore m = Except.ok m1) :
    missDistance m1 = missDistance m := by
  obtain ⟨s, ps, -, rfl, rfl⟩ := addThreatScore_eq_ok.mp h
  exact missDistance_setOwn ps _

theorem sortKey_addThreatScore {m m1 : JSValue} (h : addThreatScore m = Except.ok m1) :
    sortKey m1 = sortKey m := by
  simp [sortKey, missDistance_addThreatScore h]

theorem missKm_addThreatScore {m m1 : JSValue} (h : addThreatScore m = Except.ok m1) :
    missKm m1 = missKm m := by
  simp [missKm, missDistance_addThreatScore h]

/-- An item that was scored has a comparator operand: the conversion that
the comparator performs either was performed by the scoring or is that of
`Infinity`. -/
theorem sortKey_ok_of_threatScore {m : JSValue} {s : JSNum} (h : threatScore m = Except.ok s) :
    sortKey m = Except.ok (rankKey m) := by
  obtain ⟨minD, maxD, a, b, kmv, d, -, -, -, h4, h5, -⟩ := threatScore_eq_ok.mp h
  have : ∃ k, sortKey m = Except.ok k := by
    unfold sortKey
    rw [h4]
    simp only [ok_bind]
    unfold orElse at h5 ⊢
    cases ht : kmv.truthy
    · exact ⟨JSNum.posInf, by simp [toNumber, ht]⟩
    · rw [ht] at h5
      exact ⟨d, by simpa using h5⟩
  obtain ⟨k, hk⟩ := this
  simp [rankKey, hk]

theorem sortKey_ok_of_scored {m m1 : JSValue} (h : addThreatScore m = Except.ok m1) :
    sortKey m1 = Except.ok (rankKey m1) := by
  obtain ⟨s, ps, h1, rfl, rfl⟩ := addThreatScore_eq_ok.mp h
  have h2 := sortKey_ok_of_threatScore h1
  have h3 : sortKey (obj (setOwn ps "threat_score" (num s))) = sortKey (obj ps) :=
    sortKey_addThreatScore h
  unfold rankKey
  rw [h3, h2]

theorem forall₂_mem_left {α β : Type} {R : α → β → Prop} {l : List α} {r : List β}
    (h : List.Forall₂ R l r) {a : α} (ha : a ∈ l) : ∃ b ∈ r, R a b := by
  induction h with
  | nil => simp at ha
  | cons hab _ ih =>
    rcases List.mem_cons.mp ha with rfl | ha1
    · exact ⟨_, List.mem_cons_self _ _, hab⟩
    · obtain ⟨b, hb, hr⟩ := ih ha1
      exact ⟨b, List.mem_cons_of_mem _ hb, hr⟩

theorem forall₂_mem_right {α β : Type} {R : α → β → Prop} {l : List α} {r : List β}
    (h : List.Forall₂ R l r) {b : β} (hb : b ∈ r) : ∃ a ∈ l, R a b := by
  induction h with
  | nil => simp at hb
  | cons hab _ ih =>
    rcases List.mem_cons.mp hb with rfl | hb1
    · exact ⟨_, List.mem_cons_self _ _, hab⟩
    · obtain ⟨a, ha, hr⟩ := ih hb1
      exact ⟨a, List.mem_cons_of_mem _ ha, hr⟩

theorem scoreAll_eq_ok {l r : List JSValue} :
    scoreAll l = Except.ok r ↔ List.Forall₂ (fun m m1 => addThreatScore m = Except.ok m1) l r := by
  induction l generalizing r with
  | nil =>
    cases r <;> simp [scoreAll]
  | cons m ms ih =>
    unfold scoreAll
    simp only [bind_eq_ok, pure_eq_ok, Except.ok.injEq]
    constructor
    · rintro ⟨m1, h1, rest, h2, rfl⟩
      exact List.Forall₂.cons h1 (ih.mp h2)
    · intro h
      cases h with
      | cons h1 h2 => exact ⟨_, h1, _, ih.mpr h2, rfl⟩

theorem scoreAll_ok_of_forall {l : List JSValue}
    (h : ∀ m ∈ l, ∃ m1, addThreatScore m = Except.ok m1) : ∃ r, scoreAll l = Except.ok r := by
  induction l with
  | nil => exact ⟨[], rfl⟩
  | cons m ms ih =>
    obtain ⟨m1, h1⟩ := h m (List.mem_cons_self _ _)
    obtain ⟨r, hr⟩ := ih (fun x hx => h x (List.mem_cons_of_mem _ hx))
    exact ⟨m1 :: r, by simp [scoreAll, h1, hr]⟩

theorem scoreAll_error_of_mem {l : List JSValue} {m : JSValue} (hm : m ∈ l)
    (h : ∀ m1, addThreatScore m ≠ Except.ok m1) : scoreAll l = Except.error JSError.typeError := by
  cases hr : scoreAll l with
  | error e => rw [error_eq e]
  | ok r =>
    obtain ⟨m1, -, h1⟩ := forall₂_mem_left (scoreAll_eq_ok.mp hr) hm
    exact absurd h1 (h m1)

/-! ## Rounding -/

namespace JSNum

theorem bitLen_zero (fuel : Nat) : bitLen fuel 0 = 0 := by
  cases fuel <;> simp [bitLen]

theorem bitLen_spec (fuel n : Nat) (h : n < 2 ^ fuel) :
    n < 2 ^ bitLen fuel n ∧ (n ≠ 0 → 2 ^ (bitLen fuel n - 1) ≤ n) := by
  induction fuel generalizing n with
  | zero =>
    have h0 : n = 0 := by simpa using h
    subst h0
    simp [bitLen]
  | succ fuel ih =>
    by_cases h0 : n = 0
    · subst h0
      simp [bitLen]
    · have hhalf : n / 2 < 2 ^ fuel := by
        rw [Nat.pow_succ] at h
        omega
      obtain ⟨k1, k2⟩ := ih (n / 2) hhalf
      simp only [bitLen, h0, if_false, Nat.add_sub_cancel]
      constructor
      · rw [Nat.pow_succ]
        omega
      · intro _
        by_cases h2 : n / 2 = 0
        · rw [h2, bitLen_zero]
          simp
          omega
        · have hb : bitLen fuel (n / 2) ≠ 0 := by
            intro hb
            rw [hb] at k1
            simp at k1
            exact h2 k1
          have := k2 h2
          obtain ⟨b, hb1⟩ : ∃ b, bitLen fuel (n / 2) = b + 1 := ⟨_, (Nat.succ_pred hb).symm⟩
          rw [hb1] at this ⊢
          simp only [Nat.add_sub_cancel] at this
          rw [Nat.pow_succ]
          omega

theorem log2_spec {n : Nat} (h : n ≠ 0) : 2 ^ log2 n ≤ n ∧ n < 2 ^ (log2 n + 1) := by
  obtain ⟨k1, k2⟩ := bitLen_spec n n (Nat.lt_two_pow n)
  have hb : bitLen n n ≠ 0 := by
    intro hb
    rw [hb] at k1
    simp at k1
    exact h k1
  unfold log2
  obtain ⟨b, hb1⟩ : ∃ b, bitLen n n = b + 1 := ⟨_, (Nat.succ_pred hb).symm⟩
  rw [hb1] at k1 k2 ⊢
  simp only [Nat.add_sub_cancel] at k2 ⊢
  exact ⟨k2 h, k1⟩

theorem log2_unique {n k : Nat} (h1 : 2 ^ k ≤ n) (h2 : n < 2 ^ (k + 1)) : log2 n = k := by
  have hn : n ≠ 0 := by
    have : 0 < 2 ^ k := Nat.two_pow_pos k
    omega
  obtain ⟨j1, j2⟩ := log2_spec hn
  have a1 : log2 n < k + 1 := (Nat.pow_lt_pow_iff_right (by decide : 1 < 2)).mp (lt_of_le_of_lt j1 h2)
  have a2 : k < log2 n + 1 := (Nat.pow_lt_pow_iff_right (by decide : 1 < 2)).mp (lt_of_le_of_lt h1 j2)
  omega

theorem roundMag_exact {n : Nat} (D : Nat) (hD : 0 < D) (h : Representable n) :
    roundMag (n * D) D = n := by
  have hf : n * D / D = n := Nat.mul_div_cancel n hD
  unfold roundMag
  simp only [hf]
  by_cases hs : n < 2 ^ 53
  · simp only [hs, if_true, pow_zero, mul_one, hf, Nat.mul_mod_left]
    simp [hD]
  · rcases h with h | ⟨m, e, hn, hm1, hm2⟩
    · exact absurd h hs
    · have hl : log2 n = 52 + e := by
        apply log2_unique
        · rw [hn, Nat.pow_add]
          exact Nat.mul_le_mul_right _ hm1
        · rw [hn, show 52 + e + 1 = 53 + e by omega, Nat.pow_add]
          exact Nat.mul_lt_mul_of_lt_of_le hm2 (le_refl _) (Nat.two_pow_pos e)
      have he : log2 n - 52 = e := by omega
      simp only [hs, if_false, he]
      have hu : 0 < D * 2 ^ e := Nat.mul_pos hD (Nat.two_pow_pos e)
      have hN : n * D = m * (D * 2 ^ e) := by rw [hn]; ring
      rw [hN, Nat.mul_div_cancel m hu, Nat.mul_mod_left]
      simp [hu, hn]

theorem roundMag_one_self {n : Nat} (h : Representable n) : roundMag n 1 = n := by
  simpa using roundMag_exact 1 (by decide) h

theorem roundMag_representable (N D : Nat) : Representable (roundMag N D) := by
  unfold roundMag
  by_cases hs : N / D < 2 ^ 53
  · simp only [hs, if_true, pow_zero, mul_one]
    have hm : N / D + 1 ≤ 2 ^ 53 := hs
    by_cases hlt : N / D + 1 < 2 ^ 53
    · left
      split_ifs <;> omega
    · have heq : N / D + 1 = 2 ^ 53 := by omega
      split_ifs
      · left; omega
      · right
        exact ⟨2 ^ 52, 1, by rw [heq]; norm_num, le_refl _, by norm_num⟩
      · left; omega
      · right
        exact ⟨2 ^ 52, 1, by rw [heq]; norm_num, le_refl _, by norm_num⟩
  · simp only [hs, if_false]
    have hf0 : N / D ≠ 0 := by
      intro h0
      rw [h0] at hs
      exact hs (by norm_num)
    obtain ⟨l1, l2⟩ := log2_spec hf0
    have hL : 53 ≤ log2 (N / D) := by
      by_contra hc
      have : log2 (N / D) + 1 ≤ 53 := by omega
      have := Nat.pow_le_pow_right (by decide : 0 < 2) this
      omega
    obtain ⟨e, he⟩ : ∃ e, log2 (N / D) = 52 + e := ⟨log2 (N / D) - 52, by omega⟩
    have he' : log2 (N / D) - 52 = e := by omega
    rw [he'] at *
    rw [he] at l1 l2
    have hdiv : N / (D * 2 ^ e) = N / D / 2 ^ e := (Nat.div_div_eq_div_mul N D (2 ^ e)).symm
    have hpe : 0 < 2 ^ e := Nat.two_pow_pos e
    have m1 : 2 ^ 52 ≤ N / (D * 2 ^ e) := by
      rw [hdiv, Nat.le_div_iff_mul_le hpe, ← Nat.pow_add]
      exact l1
    have m2 : N / (D * 2 ^ e) < 2 ^ 53 := by
      rw [hdiv, Nat.div_lt_iff_lt_mul hpe, ← Nat.pow_add, show 53 + e = 52 + e + 1 by omega]
      exact l2
    right
    by_cases hlt : N / (D * 2 ^ e) + 1 < 2 ^ 53
    · split_ifs
      · exact ⟨_, e, rfl, m1, m2⟩
      · exact ⟨_, e, rfl, by omega, hlt⟩
      · exact ⟨_, e, rfl, m1, m2⟩
      · exact ⟨_, e, rfl, by omega, hlt⟩
    · have heq : N / (D * 2 ^ e) + 1 = 2 ^ 53 := by omega
      have hup : (N / (D * 2 ^ e) + 1) * 2 ^ e = 2 ^ 52 * 2 ^ (e + 1) := by
        rw [heq, Nat.pow_succ]; ring
      split_ifs
      · exact ⟨_, e, rfl, m1, m2⟩
      · exact ⟨2 ^ 52, e + 1, hup, le_refl _, by norm_num⟩
      · exact ⟨_, e, rfl, m1, m2⟩
      · exact ⟨2 ^ 52, e + 1, hup, le_refl _, by norm_num⟩

theorem roundMag_zero (D : Nat) : roundMag 0 D = 0 := by
  unfold roundMag
  simp

theorem roundMag_pos {k : Nat} (h : 0 < k) : 0 < roundMag k 1 := by
  unfold roundMag
  simp only [Nat.div_one, one_mul]
  have hpe : ∀ e, 0 < 2 ^ e := Nat.two_pow_pos
  by_cases hs : k < 2 ^ 53
  · simp only [hs, if_true, pow_zero, mul_one, Nat.div_one]
    split_ifs <;> omega
  · simp only [hs, if_false]
    have hk : k ≠ 0 := by omega
    obtain ⟨l1, _⟩ := log2_spec hk
    have hle : 2 ^ (log2 k - 52) ≤ k :=
      le_trans (Nat.pow_le_pow_right (by decide) (Nat.sub_le _ _)) l1
    have hm : 0 < k / 2 ^ (log2 k - 52) := Nat.div_pos hle (hpe _)
    apply Nat.mul_pos _ (hpe _)
    split_ifs <;> omega

end JSNum

/-! ## The order of numbers -/

namespace JSNum

theorem two_pow_pos_js (k : Nat) : 0 < 2 ^ k := Nat.two_pow_pos k

theorem limit_pos : 0 < limit := by
  delta limit
  exact two_pow_pos_js _

theorem scale_pos : 0 < scale := by
  delta scale
  exact two_pow_pos_js _

theorem lt_fin (s1 : Bool) (n1 : Nat) (s2 : Bool) (n2 : Nat) :
    lt (fin s1 n1) (fin s2 n2) = decide (signed s1 n1 < signed s2 n2) := rfl

theorem le_trans_js {a b c : JSNum} (hab : le a b = true) (hbc : le b c = true) :
    le a c = true := by
  cases a <;> cases b <;> cases c <;> simp [le, lt] at *
  omega

theorem le_of_lt {a b : JSNum} (h : lt a b = true) : le a b = true := by
  cases a <;> cases b <;> simp [le, lt] at *
  omega

theorem le_of_not_lt {a b : JSNum} (ha : a ≠ nan) (hb : b ≠ nan) (h : lt b a = false) :
    le a b = true := by
  simp [le, ha, hb, h]

theorem lt_false_of_le {a b : JSNum} (h : le a b = true) : lt b a = false := by
  cases a <;> cases b <;> simp [le, lt] at *
  omega

theorem lt_irrefl_js (a : JSNum) : lt a a = false := by
  cases a <;> simp [lt]

theorem lt_asymm_js {a b : JSNum} (h : lt a b = true) : lt b a = false := by
  cases a <;> cases b <;> simp [lt] at *
  omega

theorem lt_trans_js {a b c : JSNum} (hab : lt a b = true) (hbc : lt b c = true) :
    lt a c = true := by
  cases a <;> cases b <;> cases c <;> simp [lt] at *
  omega

/-- Numbers that are not `NaN` and not ordered either way stay so along a
chain. -/
theorem lt_negtrans_js {a b c : JSNum} (ha : a ≠ nan) (hb : b ≠ nan) (hc : c ≠ nan)
    (hab : lt a b = false) (hbc : lt b c = false) : lt a c = false := by
  cases a <;> cases b <;> cases c <;> simp [lt] at *
  omega

theorem round_cases (s : Bool) (N D : Nat) :
    (round s N D = fin s (roundMag N D) ∧ roundMag N D < limit) ∨
      (round s N D = inf s ∧ limit ≤ roundMag N D) := by
  unfold round
  by_cases h : roundMag N D < limit
  · exact Or.inl ⟨by simp [h], h⟩
  · exact Or.inr ⟨by simp [h], by omega⟩

theorem gt_round (s : Bool) (N : Nat) :
    gt (round s N 1) (fin false 0) = (!s && decide (0 < N)) := by
  rcases round_cases s N 1 with ⟨h, _⟩ | ⟨h, hl⟩
  · rw [h]
    by_cases hN : 0 < N
    · have := roundMag_pos hN
      cases s <;> simp [gt, lt, signed, hN]
      omega
    · have h0 : N = 0 := by omega
      subst h0
      rw [roundMag_zero]
      cases s <;> simp [gt, lt, signed]
  · rw [h]
    have hN : 0 < N := by
      rcases Nat.eq_zero_or_pos N with h0 | h0
      · subst h0
        rw [roundMag_zero] at hl
        have := limit_pos
        omega
      · exact h0
    cases s <;> simp [gt, lt, inf, hN]

theorem lt_round (s : Bool) (N : Nat) :
    lt (round s N 1) (fin false 0) = (s && decide (0 < N)) := by
  rcases round_cases s N 1 with ⟨h, _⟩ | ⟨h, hl⟩
  · rw [h]
    by_cases hN : 0 < N
    · have := roundMag_pos hN
      cases s <;> simp [lt, signed, hN]
      omega
    · have h0 : N = 0 := by omega
      subst h0
      rw [roundMag_zero]
      cases s <;> simp [lt, signed]
  · rw [h]
    have hN : 0 < N := by
      rcases Nat.eq_zero_or_pos N with h0 | h0
      · subst h0
        rw [roundMag_zero] at hl
        have := limit_pos
        omega
      · exact h0
    cases s <;> simp [lt, inf, hN]

theorem sub_fin (s1 : Bool) (n1 : Nat) (s2 : Bool) (n2 : Nat) :
    sub (fin s1 n1) (fin s2 n2) =
      if s1 = !s2 then round s1 (n1 + n2) 1
      else if n2 < n1 then round s1 (n1 - n2) 1
      else if n1 < n2 then round (!s2) (n2 - n1) 1
      else fin false 0 := rfl

/-- The comparator result `a - b` is positive exactly when `b < a`: the
rounding of the difference keeps its sign. -/
theorem placesAfter_sub {a b : JSNum} (ha : a ≠ nan) (hb : b ≠ nan) :
    placesAfter (sub a b) = lt b a := by
  cases a with
  | nan => exact absurd rfl ha
  | posInf => cases b <;> simp [placesAfter, sub, neg, add, gt, lt] at *
  | negInf => cases b <;> simp [placesAfter, sub, neg, add, gt, lt] at *
  | fin s1 n1 =>
    cases b with
    | nan => exact absurd rfl hb
    | posInf => simp [placesAfter, sub, neg, add, gt, lt]
    | negInf => simp [placesAfter, sub, neg, add, gt, lt]
    | fin s2 n2 =>
      rw [sub_fin, placesAfter, lt_fin]
      split_ifs with h1 h2 h3
      · rw [gt_round]
        cases s1 <;> cases s2 <;> simp [signed] at * <;>
          (first | omega | (rw [Bool.eq_iff_iff]; simp; omega))
      · rw [gt_round]
        cases s1 <;> cases s2 <;> simp [signed] at *
        omega
      · rw [gt_round]
        cases s1 <;> cases s2 <;> simp [signed] at *
        omega
      · cases s1 <;> cases s2 <;> simp [gt, lt, signed] at *
        all_goals omega

/-- The comparator result `a - b` is negative exactly when `a < b`. -/
theorem lt_sub_zero {a b : JSNum} (ha : a ≠ nan) (hb : b ≠ nan) :
    lt (sub a b) (fin false 0) = lt a b := by
  cases a with
  | nan => exact absurd rfl ha
  | posInf => cases b <;> simp [sub, neg, add, lt] at *
  | negInf => cases b <;> simp [sub, neg, add, lt] at *
  | fin s1 n1 =>
    cases b with
    | nan => exact absurd rfl hb
    | posInf => simp [sub, neg, add, lt]
    | negInf => simp [sub, neg, add, lt]
    | fin s2 n2 =>
      rw [sub_fin, lt_fin]
      split_ifs with h1 h2 h3
      · rw [lt_round]
        cases s1 <;> cases s2 <;> simp [signed] at * <;>
          (first | omega | (rw [Bool.eq_iff_iff]; simp; omega))
      · rw [lt_round]
        cases s1 <;> cases s2 <;> simp [signed] at *
        omega
      · rw [lt_round]
        cases s1 <;> cases s2 <;> simp [signed] at *
        omega
      · cases s1 <;> cases s2 <;> simp [lt, signed] at *
        all_goals omega

end JSNum

/-! ## The stable sort -/

theorem insertByKey_perm (key : JSValue → JSNum) (a : JSValue) (l : List JSValue) :
    (insertByKey key a l).Perm (a :: l) := by
  induction l with
  | nil => exact List.Perm.refl _
  | cons b rest ih =>
    unfold insertByKey
    split_ifs
    · exact (List.Perm.cons b ih).trans (List.Perm.swap a b rest)
    · exact List.Perm.refl _

theorem sortByKey_perm (key : JSValue → JSNum) (l : List JSValue) :
    (sortByKey key l).Perm l := by
  induction l with
  | nil => exact List.Perm.refl _
  | cons a rest ih =>
    exact (insertByKey_perm key a _).trans (List.Perm.cons a ih)

theorem compareMiss_eq {a b : JSValue} (ha : sortKey a = Except.ok (rankKey a))
    (hb : sortKey b = Except.ok (rankKey b)) :
    compareMiss a b = Except.ok ((rankKey a).sub (rankKey b)) := by
  simp [compareMiss, ha, hb]

theorem insertSorted_eq {a : JSValue} {l : List JSValue}
    (ha : sortKey a = Except.ok (rankKey a))
    (hl : ∀ x ∈ l, sortKey x = Except.ok (rankKey x)) :
    insertSorted compareMiss a l = Except.ok (insertByKey rankKey a l) := by
  induction l with
  | nil => rfl
  | cons b rest ih =>
    have hb := hl b (List.mem_cons_self _ _)
    have hrest := ih (fun x hx => hl x (List.mem_cons_of_mem _ hx))
    unfold insertSorted insertByKey
    rw [compareMiss_eq ha hb]
    simp only [ok_bind]
    split_ifs
    · rw [hrest]; rfl
    · rfl

/-- When every comparator operand evaluates, the insertion returns the stable
arrangement by that operand. -/
theorem insertionSort_eq {l : List JSValue} (hl : ∀ x ∈ l, sortKey x = Except.ok (rankKey x)) :
    insertionSort compareMiss l = Except.ok (sortByKey rankKey l) := by
  induction l with
  | nil => rfl
  | cons a rest ih =>
    have ha := hl a (List.mem_cons_self _ _)
    have hrest := ih (fun x hx => hl x (List.mem_cons_of_mem _ hx))
    unfold insertionSort sortByKey
    rw [hrest]
    simp only [ok_bind]
    exact insertSorted_eq ha
      (fun x hx => hl x (List.mem_cons_of_mem _ ((sortByKey_perm rankKey rest).mem_iff.mp hx)))

theorem insertSorted_perm (cmp : JSValue → JSValue → Except JSError JSNum) (a : JSValue)
    {l r : List JSValue} (h : insertSorted cmp a l = Except.ok r) : r.Perm (a :: l) := by
  induction l generalizing r with
  | nil =>
    simp only [insertSorted, pure_eq_ok, Except.ok.injEq] at h
    rw [← h]
  | cons b rest ih =>
    unfold insertSorted at h
    obtain ⟨v, -, h1⟩ := bind_eq_ok.mp h
    split_ifs at h1
    · obtain ⟨tail, h2, h3⟩ := bind_eq_ok.mp h1
      simp only [pure_eq_ok, Except.ok.injEq] at h3
      rw [← h3]
      exact (List.Perm.cons b (ih h2)).trans (List.Perm.swap a b rest)
    · simp only [pure_eq_ok, Except.ok.injEq] at h1
      rw [← h1]

theorem insertionSort_perm (cmp : JSValue → JSValue → Except JSError JSNum)
    {l r : List JSValue} (h : insertionSort cmp l = Except.ok r) : r.Perm l := by
  induction l generalizing r with
  | nil =>
    simp only [insertionSort, pure_eq_ok, Except.ok.injEq] at h
    rw [← h]
  | cons a rest ih =>
    unfold insertionSort at h
    obtain ⟨sorted, h1, h2⟩ := bind_eq_ok.mp h
    exact (insertSorted_perm cmp a h2).trans (List.Perm.cons a (ih h1))

/-- Whatever the comparator and the engine, the sort returns the elements it
was given. -/
theorem sortWith_perm (E : Engine) (cmp : JSValue → JSValue → Except JSError JSNum)
    {l r : List JSValue} (h : sortWith E cmp l = Except.ok r) : r.Perm l := by
  unfold sortWith at h
  obtain ⟨sorted, h1, h2⟩ := bind_eq_ok.mp h
  split_ifs at h2
  · simp only [pure_eq_ok, Except.ok.injEq] at h2
    rw [← h2]
    exact insertionSort_perm cmp h1
  · simp only [pure_eq_ok, Except.ok.injEq] at h2
    rw [← h2]
    exact E.perm l

/-- On a list for which the comparator is consistent the engine has no say. -/
theorem sortWith_of_consistent (E : Engine) (cmp : JSValue → JSValue → Except JSError JSNum)
    {l : List JSValue} (h : consistentOn cmp l = true) :
    sortWith E cmp l = insertionSort cmp l := by
  unfold sortWith
  cases insertionSort cmp l with
  | error e => rfl
  | ok r => simp [h]

/-- The sort returns when the insertion does. -/
theorem sortWith_ok (E : Engine) (cmp : JSValue → JSValue → Except JSError JSNum)
    {l r : List JSValue} (h : insertionSort cmp l = Except.ok r) :
    ∃ r1, sortWith E cmp l = Except.ok r1 := by
  unfold sortWith
  rw [h]
  simp only [ok_bind]
  split_ifs
  · exact ⟨_, rfl⟩
  · exact ⟨_, rfl⟩

/-- The sign of the comparison of two items whose operands are no `NaN`. -/
theorem signOf_compareMiss {a b : JSValue} (ha : sortKey a = Except.ok (rankKey a))
    (hb : sortKey b = Except.ok (rankKey b)) (na : rankKey a ≠ JSNum.nan)
    (nb : rankKey b ≠ JSNum.nan) :
    signOf compareMiss a b =
      some (if JSNum.lt (rankKey a) (rankKey b) then -1
        else if JSNum.lt (rankKey b) (rankKey a) then 1 else 0) := by
  unfold signOf
  rw [compareMiss_eq ha hb]
  simp only [compareSign, JSNum.lt_sub_zero na nb]
  have h := JSNum.placesAfter_sub na nb
  unfold placesAfter at h
  rw [h]

/-- On items whose operands are no `NaN` the comparator of `getMeteors` is a
consistent comparator. -/
theorem consistentOn_compareMiss {l : List JSValue}
    (hl : ∀ x ∈ l, sortKey x = Except.ok (rankKey x))
    (hn : ∀ x ∈ l, rankKey x ≠ JSNum.nan) : consistentOn compareMiss l = true := by
  unfold consistentOn
  simp only [List.all_eq_true]
  intro a ha b hb c hc
  have na := hn a ha
  have nb := hn b hb
  have nc := hn c hc
  rw [signOf_compareMiss (hl a ha) (hl a ha) na na, signOf_compareMiss (hl a ha) (hl b hb) na nb,
    signOf_compareMiss (hl b hb) (hl a ha) nb na, signOf_compareMiss (hl b hb) (hl c hc) nb nc,
    signOf_compareMiss (hl a ha) (hl c hc) na nc]
  have iaa := JSNum.lt_irrefl_js (rankKey a)
  have f1 : JSNum.lt (rankKey a) (rankKey b) = true → JSNum.lt (rankKey b) (rankKey a) = false :=
    JSNum.lt_asymm_js
  have f2 : JSNum.lt (rankKey b) (rankKey c) = true → JSNum.lt (rankKey c) (rankKey b) = false :=
    JSNum.lt_asymm_js
  have f3 : JSNum.lt (rankKey a) (rankKey c) = true → JSNum.lt (rankKey c) (rankKey a) = false :=
    JSNum.lt_asymm_js
  have t1 : JSNum.lt (rankKey a) (rankKey b) = true → JSNum.lt (rankKey b) (rankKey c) = true →
      JSNum.lt (rankKey a) (rankKey c) = true := JSNum.lt_trans_js
  have t2 : JSNum.lt (rankKey c) (rankKey b) = true → JSNum.lt (rankKey b) (rankKey a) = true →
      JSNum.lt (rankKey c) (rankKey a) = true := JSNum.lt_trans_js
  have n1 : JSNum.lt (rankKey a) (rankKey b) = false → JSNum.lt (rankKey b) (rankKey c) = false →
      JSNum.lt (rankKey a) (rankKey c) = false := JSNum.lt_negtrans_js na nb nc
  have n2 : JSNum.lt (rankKey c) (rankKey b) = false → JSNum.lt (rankKey b) (rankKey a) = false →
      JSNum.lt (rankKey c) (rankKey a) = false := JSNum.lt_negtrans_js nc nb na
  cases hab : JSNum.lt (rankKey a) (rankKey b) <;>
    cases hba : JSNum.lt (rankKey b) (rankKey a) <;>
    cases hbc : JSNum.lt (rankKey b) (rankKey c) <;>
    cases hcb : JSNum.lt (rankKey c) (rankKey b) <;>
    cases hac : JSNum.lt (rankKey a) (rankKey c) <;>
    cases hca : JSNum.lt (rankKey c) (rankKey a) <;>
    simp_all

/-- When every comparator operand evaluates and none is `NaN`, the sort
returns the stable arrangement by that operand, whatever the engine. -/
theorem sortWith_eq (E : Engine) {l : List JSValue}
    (hl : ∀ x ∈ l, sortKey x = Except.ok (rankKey x))
    (hn : ∀ x ∈ l, rankKey x ≠ JSNum.nan) :
    sortWith E compareMiss l = Except.ok (sortByKey rankKey l) := by
  rw [sortWith_of_consistent E compareMiss (consistentOn_compareMiss hl hn), insertionSort_eq hl]

theorem insertByKey_pairwise (key : JSValue → JSNum) {a : JSValue} {l : List JSValue}
    (ha : key a ≠ JSNum.nan) (hl : ∀ x ∈ l, key x ≠ JSNum.nan)
    (hs : l.Pairwise (fun x y => JSNum.le (key x) (key y) = true)) :
    (insertByKey key a l).Pairwise (fun x y => JSNum.le (key x) (key y) = true) := by
  induction l with
  | nil => simp [insertByKey]
  | cons b rest ih =>
    have hb := hl b (List.mem_cons_self _ _)
    obtain ⟨hb1, hrest⟩ := List.pairwise_cons.mp hs
    unfold insertByKey
    rw [JSNum.placesAfter_sub ha hb]
    cases hlt : JSNum.lt (key b) (key a)
    · simp only [Bool.false_eq_true, if_false]
      have hab : JSNum.le (key a) (key b) = true := JSNum.le_of_not_lt ha hb hlt
      refine List.pairwise_cons.mpr ⟨?_, hs⟩
      intro x hx
      rcases List.mem_cons.mp hx with rfl | hx1
      · exact hab
      · exact JSNum.le_trans_js hab (hb1 x hx1)
    · simp only [if_true]
      refine List.pairwise_cons.mpr ⟨?_, ih (fun x hx => hl x (List.mem_cons_of_mem _ hx)) hrest⟩
      intro x hx
      rcases List.mem_cons.mp ((insertByKey_perm key a rest).mem_iff.mp hx) with rfl | hx1
      · exact JSNum.le_of_lt hlt
      · exact hb1 x hx1

/-- The stable arrangement is in non-decreasing order of the key when no key
is `NaN`. -/
theorem sortByKey_pairwise (key : JSValue → JSNum) {l : List JSValue}
    (hl : ∀ x ∈ l, key x ≠ JSNum.nan) :
    (sortByKey key l).Pairwise (fun x y => JSNum.le (key x) (key y) = true) := by
  induction l with
  | nil => simp [sortByKey]
  | cons a rest ih =>
    have hrest : ∀ x ∈ rest, key x ≠ JSNum.nan := fun x hx => hl x (List.mem_cons_of_mem _ hx)
    exact insertByKey_pairwise key (hl a (List.mem_cons_self _ _))
      (fun x hx => hrest x ((sortByKey_perm key rest).mem_iff.mp hx)) (ih hrest)

theorem insertByKey_filter (key : JSValue → JSNum) (k : JSNum) {a : JSValue} {l : List JSValue}
    (ha : key a ≠ JSNum.nan) (hl : ∀ x ∈ l, key x ≠ JSNum.nan) :
    (insertByKey key a l).filter (fun x => JSNum.eq (key x) k) =
      (a :: l).filter (fun x => JSNum.eq (key x) k) := by
  induction l with
  | nil => rfl
  | cons b rest ih =>
    have hb := hl b (List.mem_cons_self _ _)
    unfold insertByKey
    rw [JSNum.placesAfter_sub ha hb]
    cases hlt : JSNum.lt (key b) (key a)
    · simp
    · simp only [if_true]
      have hrest := ih (fun x hx => hl x (List.mem_cons_of_mem _ hx))
      rw [List.filter_cons, hrest]
      cases hbk : JSNum.eq (key b) k
      · simp [List.filter_cons, hbk]
      · have hak : JSNum.eq (key a) k = false := by
          cases hak : JSNum.eq (key a) k
          · rfl
          · exfalso
            simp only [JSNum.eq, Bool.and_eq_true] at hbk hak
            have hle : JSNum.le (key a) (key b) = true := JSNum.le_trans_js hak.1 hbk.2
            rw [JSNum.lt_false_of_le hle] at hlt
            exact Bool.noConfusion hlt
        simp [List.filter_cons, hbk, hak]

/-- Stability: the items whose key equals a given number keep their relative
order. -/
theorem sortByKey_filter (key : JSValue → JSNum) (k : JSNum) {l : List JSValue}
    (hl : ∀ x ∈ l, key x ≠ JSNum.nan) :
    (sortByKey key l).filter (fun x => JSNum.eq (key x) k) =
      l.filter (fun x => JSNum.eq (key x) k) := by
  induction l with
  | nil => rfl
  | cons a rest ih =>
    have hrest : ∀ x ∈ rest, key x ≠ JSNum.nan := fun x hx => hl x (List.mem_cons_of_mem _ hx)
    unfold sortByKey
    rw [insertByKey_filter key k (hl a (List.mem_cons_self _ _))
      (fun x hx => hrest x ((sortByKey_perm key rest).mem_iff.mp hx))]
    simp only [List.filter_cons, ih hrest]

theorem eq_self_of_ne_nan {a : JSNum} (h : a ≠ JSNum.nan) : JSNum.eq a a = true := by
  cases a <;> simp [JSNum.eq, JSNum.le, JSNum.lt] at h ⊢

/-- Two arrangements of the same items that are both in non-decreasing order
of the key and keep the items of each key in the same relative order are
equal. -/
theorem stable_arrangement_unique (key : JSValue → JSNum) {r1 r2 : List JSValue}
    (hkey : ∀ x ∈ r1, key x ≠ JSNum.nan) (hperm : r1.Perm r2)
    (hs1 : r1.Pairwise (fun x y => JSNum.le (key x) (key y) = true))
    (hs2 : r2.Pairwise (fun x y => JSNum.le (key x) (key y) = true))
    (hf : ∀ k, r1.filter (fun x => JSNum.eq (key x) k) =
      r2.filter (fun x => JSNum.eq (key x) k)) : r1 = r2 := by
  induction r1 generalizing r2 with
  | nil => exact (List.Perm.nil_eq hperm)
  | cons x t1 ih =>
    cases r2 with
    | nil => exact absurd (List.Perm.nil_eq hperm.symm).symm (List.cons_ne_nil x t1)
    | cons y t2 =>
      have hx : key x ≠ JSNum.nan := hkey x (List.mem_cons_self _ _)
      obtain ⟨hx1, ht1⟩ := List.pairwise_cons.mp hs1
      obtain ⟨hy2, ht2⟩ := List.pairwise_cons.mp hs2
      have hxy : JSNum.le (key x) (key y) = true := by
        rcases List.mem_cons.mp (hperm.symm.mem_iff.mp (List.mem_cons_self y t2)) with h | h
        · rw [h]
          have := eq_self_of_ne_nan hx
          simp only [JSNum.eq, Bool.and_self] at this
          exact this
        · exact hx1 y h
      have hyx : JSNum.le (key y) (key x) = true := by
        rcases List.mem_cons.mp (hperm.mem_iff.mp (List.mem_cons_self x t1)) with h | h
        · rw [← h]
          have := eq_self_of_ne_nan hx
          simp only [JSNum.eq, Bool.and_self] at this
          exact this
        · exact hy2 x h
      have hex : JSNum.eq (key x) (key x) = true := eq_self_of_ne_nan hx
      have hey : JSNum.eq (key y) (key x) = true := by
        simp only [JSNum.eq, hxy, hyx, Bool.and_self]
      have hhead := hf (key x)
      simp only [List.filter_cons, hex, hey, if_true] at hhead
      obtain ⟨rfl, -⟩ := List.cons.inj hhead
      have htail : t1 = t2 := by
        refine ih (fun z hz => hkey z (List.mem_cons_of_mem _ hz)) (List.Perm.cons_inv hperm)
          ht1 ht2 ?_
        intro k
        have hk := hf k
        simp only [List.filter_cons] at hk
        cases hc : JSNum.eq (key x) k
        · simpa [hc] using hk
        · rw [hc] at hk
          exact (List.cons.inj hk).2
      rw [htail]

/-- The stable arrangement is the only one: every sort that returns the items
in non-decreasing order of the key and is stable returns `sortByKey`. -/
theorem sortByKey_unique (key : JSValue → JSNum) {l r : List JSValue}
    (hl : ∀ x ∈ l, key x ≠ JSNum.nan) (hperm : r.Perm l)
    (hs : r.Pairwise (fun x y => JSNum.le (key x) (key y) = true))
    (hf : ∀ k, r.filter (fun x => JSNum.eq (key x) k) =
      l.filter (fun x => JSNum.eq (key x) k)) : r = sortByKey key l :=
  stable_arrangement_unique key (fun x hx => hl x (hperm.mem_iff.mp hx))
    (hperm.trans (sortByKey_perm key l).symm) hs (sortByKey_pairwise key hl)
    (fun k => (hf k).trans (sortByKey_filter key k hl).symm)

/-! ## The pipeline -/

theorem mem_concatApply {P : JSValue → Prop} {l : List JSValue}
    (h : ∀ v ∈ l, ∃ items, v = arr items ∧ ∀ m ∈ items, P m) :
    ∀ m ∈ concatApply l, P m := by
  induction l with
  | nil => intro m hm; simp [concatApply] at hm
  | cons v rest ih =>
    obtain ⟨items, rfl, hitems⟩ := h v (List.mem_cons_self _ _)
    intro m hm
    simp only [concatApply, List.mem_append] at hm
    rcases hm with hm | hm
    · exact hitems m hm
    · exact ih (fun w hw => h w (List.mem_cons_of_mem _ hw)) m hm

theorem lookup_mem_of_key {ps : List (String × JSValue)} {k : String}
    (hk : k ∈ ps.map Prod.fst) : ∃ v, ps.lookup k = some v ∧ (k, v) ∈ ps := by
  induction ps with
  | nil => simp at hk
  | cons p ps ih =>
    obtain ⟨k0, v0⟩ := p
    by_cases h0 : k = k0
    · subst h0
      exact ⟨v0, by simp [List.lookup], List.mem_cons_self _ _⟩
    · have hk1 : k ∈ ps.map Prod.fst := by
        simp only [List.map_cons, List.mem_cons] at hk
        rcases hk with hk | hk
        · exact absurd hk h0
        · exact hk
      obtain ⟨v, hv, hmem⟩ := ih hk1
      have h1 : (k == k0) = false := by simpa using h0
      exact ⟨v, by simp [List.lookup, h1, hv], List.mem_cons_of_mem _ hmem⟩

/-- The flattened list of a mapping holds only members of its groups. -/
theorem flattenMeteors_obj {data : JSValue} {groups : List (String × JSValue)}
    (hneo : getProp data "near_earth_objects" = Except.ok (obj groups)) {P : JSValue → Prop}
    (hgroups : ∀ g ∈ groups, ∃ items, g.2 = arr items ∧ ∀ m ∈ items, P m) :
    ∃ flat, flattenMeteors data = Except.ok flat ∧ ∀ m ∈ flat, P m := by
  refine ⟨_, ?_, mem_concatApply (l := (groups.map Prod.fst).map (fun d => getOwn (obj groups) d)) ?_⟩
  · simp [flattenMeteors, hneo, orElse, truthy, keys]
  · intro v hv
    obtain ⟨k, hk, rfl⟩ := List.mem_map.mp hv
    obtain ⟨w, hw, hmem⟩ := lookup_mem_of_key hk
    have := hgroups (k, w) hmem
    simpa [getOwn, hw] using this

theorem getMeteorsScored_eq {data : JSValue} {flat scored : List JSValue}
    (hflat : flattenMeteors data = Except.ok flat) (hscored : scoreAll flat = Except.ok scored) :
    getMeteorsScored data = Except.ok scored := by
  simp [getMeteorsScored, hflat, hscored]

theorem sortKey_ok_of_scoreAll {flat scored : List JSValue}
    (hscored : scoreAll flat = Except.ok scored) :
    ∀ x ∈ scored, sortKey x = Except.ok (rankKey x) := by
  intro x hx
  obtain ⟨m, -, hm⟩ := forall₂_mem_right (scoreAll_eq_ok.mp hscored) hx
  exact sortKey_ok_of_scored hm

/-- When every item is scored, the sort does not raise and returns the scored
items in some order, of which the first five are stored; when no comparator
operand is `NaN` the order is the stable arrangement. -/
theorem getMeteorsSorted_ok (E : Engine) {data : JSValue} {flat scored : List JSValue}
    (hflat : flattenMeteors data = Except.ok flat) (hscored : scoreAll flat = Except.ok scored) :
    ∃ sorted, getMeteorsSorted E data = Except.ok sorted ∧ sorted.Perm scored ∧
      getMeteorsBody E data = Except.ok (sorted.take 5) ∧
      ((∀ x ∈ scored, rankKey x ≠ JSNum.nan) → sorted = sortByKey rankKey scored) := by
  obtain ⟨sorted, hs⟩ := sortWith_ok E compareMiss
    (insertionSort_eq (sortKey_ok_of_scoreAll hscored))
  have h1 : getMeteorsSorted E data = Except.ok sorted := by
    simp [getMeteorsSorted, getMeteorsScored_eq hflat hscored, hs]
  refine ⟨sorted, h1, sortWith_perm E compareMiss hs, by simp [getMeteorsBody, h1], ?_⟩
  intro hn
  rw [sortWith_eq E (sortKey_ok_of_scoreAll hscored) hn] at hs
  cases hs
  rfl

/-- When every item is scored and no comparator operand is `NaN`, the
pipeline returns the first five items of the stable arrangement. -/
theorem getMeteorsSorted_eq (E : Engine) {data : JSValue} {flat scored : List JSValue}
    (hflat : flattenMeteors data = Except.ok flat) (hscored : scoreAll flat = Except.ok scored)
    (hn : ∀ x ∈ scored, rankKey x ≠ JSNum.nan) :
    getMeteorsSorted E data = Except.ok (sortByKey rankKey scored) ∧
      getMeteorsBody E data = Except.ok ((sortByKey rankKey scored).take 5) := by
  obtain ⟨sorted, h1, -, h2, h3⟩ := getMeteorsSorted_ok E hflat hscored
  rw [h3 hn] at h1 h2
  exact ⟨h1, h2⟩

/-- On a catalog whose sort order the standard fixes, the engine has no say. -/
theorem getMeteorsSorted_of_orderFixed (E : Engine) {data : JSValue}
    (h : orderFixed data = true) :
    getMeteorsSorted E data = getMeteorsSorted Engine.keep data := by
  unfold orderFixed at h
  unfold getMeteorsSorted
  cases hs : getMeteorsScored data with
  | error e => rfl
  | ok scored =>
    rw [hs] at h
    simp only [ok_bind]
    rw [sortWith_of_consistent E compareMiss h, sortWith_of_consistent Engine.keep compareMiss h]

theorem getMeteorsBody_of_orderFixed (E : Engine) {data : JSValue}
    (h : orderFixed data = true) :
    getMeteorsBody E data = getMeteorsBody Engine.keep data := by
  unfold getMeteorsBody
  rw [getMeteorsSorted_of_orderFixed E h]

theorem getMeteors_of_orderFixed (E : Engine) {data : JSValue} (s : State)
    (h : orderFixed data = true) :
    getMeteors E data s = getMeteors Engine.keep data s := by
  unfold getMeteors
  rw [getMeteorsBody_of_orderFixed E h]

/-- On a catalog whose items are scored and whose sort order the standard
does not fix, the sorted list is what the engine makes of the scored list. -/
theorem getMeteorsSorted_of_not_orderFixed (E : Engine) {data : JSValue}
    (h : orderFixed data = false) :
    getMeteorsSorted E data = Except.map E.order (getMeteorsScored data) := by
  unfold orderFixed at h
  unfold getMeteorsSorted
  cases hs : getMeteorsScored data with
  | error e =>
    rw [hs] at h
    exact Bool.noConfusion h
  | ok scored =>
    rw [hs] at h
    obtain ⟨flat, -, hscored⟩ := bind_eq_ok.mp (show (flattenMeteors data >>= scoreAll) =
      Except.ok scored from hs)
    have h1 : consistentOn compareMiss scored = false := h
    simp only [ok_bind, sortWith, insertionSort_eq (sortKey_ok_of_scoreAll hscored), h1]
    rfl

theorem forall_scored_of_isOk {flat : List JSValue} (h : (scoreAll flat).isOk = true) :
    ∀ m ∈ flat, ∃ m1, addThreatScore m = Except.ok m1 := by
  cases hs : scoreAll flat with
  | error e =>
    rw [hs] at h
    exact Bool.noConfusion h
  | ok scored =>
    intro m hm
    obtain ⟨m1, -, h1⟩ := forall₂_mem_left (scoreAll_eq_ok.mp hs) hm
    exact ⟨m1, h1⟩

theorem rankKey_addThreatScore {m m1 : JSValue} (h : addThreatScore m = Except.ok m1) :
    rankKey m1 = rankKey m := by
  simp [rankKey, sortKey_addThreatScore h]

/-- A well-formed item is scored, and its comparator operand is its miss
distance. -/
theorem addThreatScore_wellFormed {m : JSValue} (hd : NumericDiameters m) (hp : ParsableMiss m) :
    ∃ m1, addThreatScore m = Except.ok m1 ∧ rankKey m1 = missKm m1 ∧ rankKey m1 ≠ JSNum.nan := by
  obtain ⟨a, b, hab, -, -⟩ := hd
  obtain ⟨v, d, hv, ht, hn, hnum⟩ := hp
  obtain ⟨ps, rfl⟩ := isObj_of_diameterFields hab
  have hts : threatScore (obj ps) = Except.ok
      ((((a.add b).div (JSNum.ofNat 2)).div d).mul (JSNum.ofNat 1000000000)) :=
    threatScore_eq_ok.mpr ⟨_, _, a, b, _, _, hab, rfl, rfl, hv, by simp [orElse, ht, hn], rfl⟩
  have hadd : addThreatScore (obj ps) = Except.ok (obj (setOwn ps "threat_score" (num _))) :=
    addThreatScore_eq_ok.mpr ⟨_, ps, hts, rfl, rfl⟩
  refine ⟨_, hadd, ?_, ?_⟩
  · rw [rankKey_addThreatScore hadd, missKm_addThreatScore hadd]
    simp [rankKey, missKm, sortKey, hv, orElse, ht, hn]
  · rw [rankKey_addThreatScore hadd]
    simpa [rankKey, sortKey, hv, orElse, ht, hn] using hnum

/-- C1 (as amended). For every date-grouped catalog in which every item has
numeric diameters and a miss distance that is present (not falsy) and reads as
a number, the pipeline of `getMeteors` (flatten, score, sort, slice) returns a
list in non-decreasing order of miss distance in kilometres, whatever the
engine; for the catalog with `A` at "1000" km and `B` at "500" km the result is
`[B, A]`, of length 2. -/
theorem getMeteors_sorted_by_miss_distance (E : Engine) (data : JSValue)
    (groups : List (String × JSValue))
    (hneo : getProp data "near_earth_objects" = Except.ok (obj groups))
    (hgroups : ∀ g ∈ groups, ∃ items, g.2 = arr items ∧
      ∀ m ∈ items, NumericDiameters m ∧ ParsableMiss m) :
    (∃ ms, getMeteorsBody E data = Except.ok ms ∧
      ms.Pairwise (fun x y => JSNum.le (missKm x) (missKm y) = true)) ∧
    getMeteorsBody E exampleCatalog = Except.ok
      [scoredItem "B" (num (JSNum.ofDec false 1 (-1))) (num (JSNum.ofDec false 3 (-1))) (str "500")
        (JSNum.ofNat 400000),
       scoredItem "A" (num (JSNum.ofDec false 1 (-1))) (num (JSNum.ofDec false 3 (-1))) (str "1000")
        (JSNum.ofNat 200000)] ∧
    ((getMeteors E exampleCatalog initialState).meteors.map (fun m => getOwn m "name") =
      [str "B", str "A"]) ∧
    (getMeteors E exampleCatalog initialState).meteors.length = 2 := by
  have hfix : orderFixed exampleCatalog = true := by decide!
  refine ⟨?_, (getMeteorsBody_of_orderFixed E hfix).trans (by decide!), ?_, ?_⟩
  · obtain ⟨flat, hflat, hwf⟩ := flattenMeteors_obj hneo hgroups
    obtain ⟨scored, hscored⟩ := scoreAll_ok_of_forall (l := flat) (fun m hm => by
      obtain ⟨m1, h1, -⟩ := addThreatScore_wellFormed (hwf m hm).1 (hwf m hm).2
      exact ⟨m1, h1⟩)
    have hkey : ∀ x ∈ scored, rankKey x = missKm x ∧ rankKey x ≠ JSNum.nan := by
      intro x hx
      obtain ⟨m, hm, hmx⟩ := forall₂_mem_right (scoreAll_eq_ok.mp hscored) hx
      obtain ⟨m1, h1, h2, h3⟩ := addThreatScore_wellFormed (hwf m hm).1 (hwf m hm).2
      rw [hmx] at h1
      cases h1
      exact ⟨h2, h3⟩
    refine ⟨_, (getMeteorsSorted_eq E hflat hscored (fun x hx => (hkey x hx).2)).2, ?_⟩
    have hsorted := sortByKey_pairwise rankKey (fun x hx => (hkey x hx).2)
    have hmiss : (sortByKey rankKey scored).Pairwise
        (fun x y => JSNum.le (missKm x) (missKm y) = true) := by
      refine List.Pairwise.imp_of_mem ?_ hsorted
      intro x y hx hy hle
      rw [← (hkey x ((sortByKey_perm rankKey scored).mem_iff.mp hx)).1,
        ← (hkey y ((sortByKey_perm rankKey scored).mem_iff.mp hy)).1]
      exact hle
    exact hmiss.sublist (List.take_sublist 5 _)
  · rw [getMeteors_of_orderFixed E _ hfix]
    decide!
  · rw [getMeteors_of_orderFixed E _ hfix]
    decide!

/-- C1 (counterexample). In the catalog `[A, B]` where the miss distance of
`A` is the number 0 and that of `B` is "500", both items have numeric diameters
and a miss distance that reads as a number, and the result is `[B, A]`,
whatever the engine: the item at 0 km comes after the item at 500 km. -/
theorem zero_miss_sorted_last :
    flattenMeteors zeroFirstCatalog = Except.ok
      [item "A" (num (JSNum.ofDec false 1 (-1))) (num (JSNum.ofDec false 3 (-1)))
        (num (JSNum.fin false 0)),
       item "B" (num (JSNum.ofDec false 1 (-1))) (num (JSNum.ofDec false 3 (-1))) (str "500")] ∧
    (NumericDiameters (item "A" (num (JSNum.ofDec false 1 (-1)))
        (num (JSNum.ofDec false 3 (-1))) (num (JSNum.fin false 0))) ∧
      NumberMiss (item "A" (num (JSNum.ofDec false 1 (-1)))
        (num (JSNum.ofDec false 3 (-1))) (num (JSNum.fin false 0)))) ∧
    (NumericDiameters (item "B" (num (JSNum.ofDec false 1 (-1)))
        (num (JSNum.ofDec false 3 (-1))) (str "500")) ∧
      NumberMiss (item "B" (num (JSNum.ofDec false 1 (-1)))
        (num (JSNum.ofDec false 3 (-1))) (str "500"))) ∧
    (∀ E : Engine, (getMeteors E zeroFirstCatalog initialState).meteors.map
        (fun m => (getOwn m "name", missKm m)) =
      [(str "B", JSNum.ofNat 500), (str "A", JSNum.fin false 0)]) ∧
    JSNum.le (JSNum.ofNat 500) (JSNum.fin false 0) = false :=
  ⟨by decide!,
    ⟨⟨_, _, rfl, by decide!, by decide!⟩, ⟨_, _, rfl, rfl, by decide!⟩⟩,
    ⟨⟨_, _, rfl, by decide!, by decide!⟩, ⟨_, JSNum.ofNat 500, rfl, by decide!, by decide!⟩⟩,
    fun E => (congrArg (fun s => s.meteors.map (fun m => (getOwn m "name", missKm m)))
      (getMeteors_of_orderFixed E initialState (by decide!))).trans (by decide!),
    by decide!⟩

/-- C2 (as amended). For every catalog whose items are all scored and in which no
miss distance is present without being a number, the sorted list of
`getMeteors` is, whatever the engine, an arrangement of the scored items in
which no item whose miss distance is absent or empty comes before an item with
a finite miss distance, and in which the items of equal miss distance, and
those lacking one, keep the relative order of the flattened input. -/
theorem getMeteors_sort_stable (E : Engine) (data : JSValue) (flat : List JSValue)
    (hflat : flattenMeteors data = Except.ok flat)
    (hscore : ∀ m ∈ flat, ∃ m1, addThreatScore m = Except.ok m1)
    (hnum : ∀ m ∈ flat, rankKey m ≠ JSNum.nan) :
    ∃ scored sorted, getMeteorsScored data = Except.ok scored ∧
      List.Forall₂ (fun m m1 => addThreatScore m = Except.ok m1 ∧
        missDistance m1 = missDistance m) flat scored ∧
      getMeteorsSorted E data = Except.ok sorted ∧ sorted.Perm scored ∧
      sorted.Pairwise (fun x y => ¬ (LacksMiss x ∧ HasFiniteMiss y)) ∧
      sorted.Pairwise (fun x y => JSNum.le (rankKey x) (rankKey y) = true) ∧
      (∀ k, sorted.filter (fun x => JSNum.eq (rankKey x) k) =
        scored.filter (fun x => JSNum.eq (rankKey x) k)) ∧
      (∀ x ∈ scored, LacksMiss x → JSNum.eq (rankKey x) JSNum.posInf = true) := by
  obtain ⟨scored, hscored⟩ := scoreAll_ok_of_forall hscore
  have hrel := scoreAll_eq_ok.mp hscored
  have hkey : ∀ x ∈ scored, rankKey x ≠ JSNum.nan := by
    intro x hx
    obtain ⟨m, hm, hmx⟩ := forall₂_mem_right hrel hx
    rw [rankKey_addThreatScore hmx]
    exact hnum m hm
  have hlack : ∀ x, LacksMiss x → rankKey x = JSNum.posInf := by
    rintro x ⟨v, hv, ht⟩
    simp [rankKey, sortKey, hv, orElse, ht, toNumber]
  have hfin : ∀ x, HasFiniteMiss x → rankKey x = missKm x ∧ (missKm x).isFinite = true := by
    rintro x ⟨v, hv, ht, hf⟩
    refine ⟨?_, hf⟩
    simp [rankKey, missKm, sortKey, hv, orElse, ht]
  refine ⟨scored, sortByKey rankKey scored, getMeteorsScored_eq hflat hscored,
    hrel.imp (fun m m1 h => ⟨h, missDistance_addThreatScore h⟩),
    (getMeteorsSorted_eq E hflat hscored hkey).1, sortByKey_perm _ _, ?_,
    sortByKey_pairwise rankKey hkey,
    fun k => sortByKey_filter rankKey k hkey, ?_⟩
  · refine List.Pairwise.imp ?_ (sortByKey_pairwise rankKey hkey)
    rintro x y hle ⟨hx, hy⟩
    obtain ⟨hy1, hy2⟩ := hfin y hy
    rw [hlack x hx, hy1] at hle
    cases hk : missKm y <;> simp [hk, JSNum.le, JSNum.lt, JSNum.isFinite] at hle hy2
  · intro x _ hx
    rw [hlack x hx]
    rfl

/-- C2 (counterexample). In the catalog `[X, Y]` where the miss distance of `X`
is the string "abc" and that of `Y` is "500", the sorted list is `[X, Y]`,
whatever the engine: the item without a parsable miss distance comes before
the item that has one. In the catalog `[P, Q, X, R]` with the miss distances
"300", "200", "abc" and "100" the comparator is not consistent, and the sorted
list is what the engine makes of the scored list. -/
theorem unparsable_miss_not_last :
    (∀ E : Engine, getMeteorsSorted E unparsableFirst = Except.ok
      [scoredItem "X" (num (JSNum.ofDec false 1 (-1))) (num (JSNum.ofDec false 3 (-1))) (str "abc")
        JSNum.nan,
       scoredItem "Y" (num (JSNum.ofDec false 1 (-1))) (num (JSNum.ofDec false 3 (-1))) (str "500")
        (JSNum.ofNat 400000)]) ∧
    missKm (scoredItem "X" (num (JSNum.ofDec false 1 (-1))) (num (JSNum.ofDec false 3 (-1)))
      (str "abc") JSNum.nan) = JSNum.nan ∧
    missKm (scoredItem "Y" (num (JSNum.ofDec false 1 (-1))) (num (JSNum.ofDec false 3 (-1)))
      (str "500") (JSNum.ofNat 400000)) = JSNum.ofNat 500 ∧
    orderFixed unparsableThird = false ∧
    (∀ E : Engine, getMeteorsSorted E unparsableThird =
      Except.map E.order (getMeteorsScored unparsableThird)) :=
  ⟨fun E => (getMeteorsSorted_of_orderFixed E (by decide!)).trans (by decide!),
    by decide!, by decide!, by decide!,
    fun E => getMeteorsSorted_of_not_orderFixed E (by decide!)⟩

theorem scoreAll_of_getMeteorsBody {E : Engine} {data : JSValue} {flat stored : List JSValue}
    (hflat : flattenMeteors data = Except.ok flat)
    (hbody : getMeteorsBody E data = Except.ok stored) :
    ∃ scored, scoreAll flat = Except.ok scored := by
  simp only [getMeteorsBody, getMeteorsSorted, getMeteorsScored, hflat, bind_eq_ok, ok_bind] at hbody
  obtain ⟨sorted, ⟨scored, hscored, -⟩, -⟩ := hbody
  exact ⟨scored, hscored⟩

/-- C3. For every catalog whose flattened list has `n` items, the list that
`getMeteors` stores has length exactly `min n 5`, so at most 5, and is the
first `min n 5` elements of the fully sorted list: the list that the sort
returns, which holds the scored items, all `n` of them, and which, when no
comparator operand is `NaN`, is in non-decreasing order of the operand with the
items of equal operand in their input order. The list is stored whenever every
item is scored. -/
theorem getMeteors_keeps_first_five (E : Engine) (data : JSValue) (flat : List JSValue)
    (s : State) (hflat : flattenMeteors data = Except.ok flat) :
    (∀ stored, getMeteorsBody E data = Except.ok stored →
      (getMeteors E data s).meteors = stored ∧
      stored.length = min flat.length 5 ∧ stored.length ≤ 5 ∧
      ∃ scored sorted, getMeteorsScored data = Except.ok scored ∧
        getMeteorsSorted E data = Except.ok sorted ∧ sorted.length = flat.length ∧
        stored = sorted.take (min flat.length 5) ∧ sorted.Perm scored ∧
        ((∀ x ∈ scored, rankKey x ≠ JSNum.nan) →
          sorted.Pairwise (fun x y => JSNum.le (rankKey x) (rankKey y) = true) ∧
          ∀ k, sorted.filter (fun x => JSNum.eq (rankKey x) k) =
            scored.filter (fun x => JSNum.eq (rankKey x) k))) ∧
    ((∀ m ∈ flat, ∃ m1, addThreatScore m = Except.ok m1) →
      ∃ stored, getMeteorsBody E data = Except.ok stored) := by
  constructor
  · intro stored hbody
    obtain ⟨scored, hscored⟩ := scoreAll_of_getMeteorsBody hflat hbody
    obtain ⟨sorted, h1, hperm, h2, h3⟩ := getMeteorsSorted_ok E hflat hscored
    have hlen : sorted.length = flat.length := by
      rw [hperm.length_eq, (scoreAll_eq_ok.mp hscored).length_eq]
    have hstored : stored = sorted.take 5 := by
      rw [h2] at hbody
      cases hbody
      rfl
    have htake : sorted.take (min flat.length 5) = sorted.take 5 := by
      rw [← hlen, List.take_eq_take]
      omega
    refine ⟨by simp [getMeteors, hbody], ?_, ?_, scored, sorted,
      getMeteorsScored_eq hflat hscored, h1, hlen, by rw [hstored, htake], hperm, ?_⟩
    · rw [hstored, List.length_take, hlen, Nat.min_comm]
    · rw [hstored, List.length_take]
      omega
    · intro hn
      rw [h3 hn]
      exact ⟨sortByKey_pairwise rankKey hn, fun k => sortByKey_filter rankKey k hn⟩
  · intro hscore
    obtain ⟨scored, hscored⟩ := scoreAll_ok_of_forall hscore
    obtain ⟨sorted, -, -, h2, -⟩ := getMeteorsSorted_ok E hflat hscored
    exact ⟨_, h2⟩

/-! ## Arithmetic -/

namespace JSNum

theorem ofNat_one : ofNat 1 = fin false scale := by decide!

theorem ofNat_two : ofNat 2 = fin false (2 * scale) := by decide!

theorem ofNat_scaling : ofNat 1000000000 = fin false (1000000000 * scale) := by decide!

theorem canonical_inf (s : Bool) : Canonical (inf s) := by
  cases s <;> exact trivial

theorem canonical_round (s : Bool) (N D : Nat) : Canonical (round s N D) := by
  rcases round_cases s N D with ⟨h, hl⟩ | ⟨h, -⟩
  · rw [h]
    exact And.intro (roundMag_representable N D) hl
  · rw [h]
    exact canonical_inf s

theorem canonical_zero (s : Bool) : Canonical (zero s) := by
  show Representable 0 ∧ 0 < limit
  exact ⟨Or.inl (two_pow_pos_js 53), limit_pos⟩

/-- Every quotient is a binary64 value. -/
theorem canonical_div (a b : JSNum) : Canonical (div a b) := by
  cases a with
  | nan => cases b <;> exact trivial
  | posInf =>
    cases b with
    | fin s2 n2 => exact canonical_inf _
    | nan => exact trivial
    | posInf => exact trivial
    | negInf => exact trivial
  | negInf =>
    cases b with
    | fin s2 n2 => exact canonical_inf _
    | nan => exact trivial
    | posInf => exact trivial
    | negInf => exact trivial
  | fin s1 n1 =>
    cases b with
    | nan => exact trivial
    | posInf => exact canonical_zero _
    | negInf => exact canonical_zero _
    | fin s2 n2 =>
      show Canonical (if n2 = 0 then (if n1 = 0 then nan else inf (xor s1 s2))
        else round (xor s1 s2) (n1 * scale) n2)
      split_ifs
      · exact trivial
      · exact canonical_inf _
      · exact canonical_round _ _ _

/-- The division by 1 returns a binary64 value as it is. -/
theorem div_one {x : JSNum} (hx : Canonical x) : div x (ofNat 1) = x := by
  rw [ofNat_one]
  cases x with
  | nan => rfl
  | posInf => rfl
  | negInf => rfl
  | fin s n =>
    have hr : Representable n := And.left hx
    have hl : n < limit := And.right hx
    have hs : scale ≠ 0 := Nat.pos_iff_ne_zero.mp scale_pos
    show (if scale = 0 then (if n = 0 then nan else inf (xor s false))
      else round (xor s false) (n * scale) scale) = fin s n
    rw [if_neg hs]
    rcases round_cases (xor s false) (n * scale) scale with ⟨h, -⟩ | ⟨-, h⟩
    · rw [h, roundMag_exact scale scale_pos hr]
      simp
    · rw [roundMag_exact scale scale_pos hr] at h
      omega

theorem ge_zero_fin {s : Bool} {n : Nat} (h : s = false ∨ n = 0) :
    ge (fin s n) (fin false 0) = true := by
  rcases h with h | h
  · subst h
    simp [ge, le, lt, signed]
  · subst h
    cases s <;> simp [ge, le, lt, signed]

theorem ge_zero_round {s : Bool} {N : Nat} (D : Nat) (h : s = false ∨ N = 0) :
    ge (round s N D) (fin false 0) = true := by
  rcases round_cases s N D with ⟨hr, -⟩ | ⟨hr, hl⟩
  · rw [hr]
    rcases h with h | h
    · exact ge_zero_fin (Or.inl h)
    · subst h
      rw [roundMag_zero]
      exact ge_zero_fin (Or.inr rfl)
  · rw [hr]
    rcases h with h | h
    · subst h
      rfl
    · subst h
      rw [roundMag_zero] at hl
      have := limit_pos
      omega

theorem ge_zero_cases {x : JSNum} (h : ge x (fin false 0) = true) :
    x = posInf ∨ ∃ s n, x = fin s n ∧ (s = false ∨ n = 0) := by
  cases x with
  | nan => simp [ge, le] at h
  | posInf => exact Or.inl rfl
  | negInf => simp [ge, le, lt] at h
  | fin s n =>
    refine Or.inr ⟨s, n, rfl, ?_⟩
    cases s
    · exact Or.inl rfl
    · right
      simp [ge, le, lt, signed] at h
      omega

theorem gt_zero_finite {d : JSNum} (hf : d.isFinite = true) (h : gt d (fin false 0) = true) :
    ∃ n, d = fin false n ∧ 0 < n := by
  cases d with
  | nan => simp [isFinite] at hf
  | posInf => simp [isFinite] at hf
  | negInf => simp [isFinite] at hf
  | fin s n =>
    cases s
    · refine ⟨n, rfl, ?_⟩
      simp [gt, lt, signed] at h
      exact h
    · simp [gt, lt, signed] at h
      omega

/-- The sum of two numbers that are not negative is not negative. -/
theorem add_nonneg_js {a b : JSNum} (ha : ge a (fin false 0) = true)
    (hb : ge b (fin false 0) = true) : ge (add a b) (fin false 0) = true := by
  rcases ge_zero_cases ha with rfl | ⟨s1, n1, rfl, h1⟩ <;>
    rcases ge_zero_cases hb with rfl | ⟨s2, n2, rfl, h2⟩
  · rfl
  · rfl
  · rfl
  · show ge (if s1 = s2 then round s1 (n1 + n2) 1
      else if n2 < n1 then round s1 (n1 - n2) 1
      else if n1 < n2 then round s2 (n2 - n1) 1
      else fin false 0) (fin false 0) = true
    split_ifs with e1 e2 e3
    · refine ge_zero_round 1 ?_
      rcases h1 with h1 | h1
      · exact Or.inl h1
      · rcases h2 with h2 | h2
        · exact Or.inl (e1.trans h2)
        · exact Or.inr (by omega)
    · refine ge_zero_round 1 ?_
      rcases h1 with h1 | h1
      · exact Or.inl h1
      · omega
    · refine ge_zero_round 1 ?_
      rcases h2 with h2 | h2
      · exact Or.inl h2
      · omega
    · rfl

/-- The quotient of a number that is not negative by a finite positive number
is not negative. -/
theorem div_nonneg_js {x : JSNum} {n : Nat} (hx : ge x (fin false 0) = true) (hn : 0 < n) :
    ge (div x (fin false n)) (fin false 0) = true := by
  rcases ge_zero_cases hx with rfl | ⟨s1, n1, rfl, h1⟩
  · rfl
  · have hn0 : n ≠ 0 := by omega
    show ge (if n = 0 then (if n1 = 0 then nan else inf (xor s1 false))
      else round (xor s1 false) (n1 * scale) n) (fin false 0) = true
    rw [if_neg hn0]
    refine ge_zero_round n ?_
    rcases h1 with h1 | h1
    · exact Or.inl (by simp [h1])
    · exact Or.inr (by simp [h1])

/-- The product of a number that is not negative with a finite positive
number is not negative. -/
theorem mul_nonneg_js {x : JSNum} {n : Nat} (hx : ge x (fin false 0) = true) (hn : 0 < n) :
    ge (mul x (fin false n)) (fin false 0) = true := by
  rcases ge_zero_cases hx with rfl | ⟨s1, n1, rfl, h1⟩
  · have hn0 : n ≠ 0 := by omega
    simp [mul, isZero, hn0, isNeg, inf, ge, le, lt]
  · show ge (round (xor s1 false) (n1 * n) scale) (fin false 0) = true
    refine ge_zero_round scale ?_
    rcases h1 with h1 | h1
    · exact Or.inl (by simp [h1])
    · exact Or.inr (by simp [h1])

end JSNum

/-- The item with its score stored: what `addThreatScore` returns when the
score is computed. -/
theorem addThreatScore_of_threatScore {m : JSValue} {s : JSNum}
    (hts : threatScore m = Except.ok s) :
    ∃ m1, addThreatScore m = Except.ok m1 ∧ getProp m1 "threat_score" = Except.ok (num s) := by
  obtain ⟨minD, maxD, a, b, kmv, d, hd, -⟩ := threatScore_eq_ok.mp hts
  obtain ⟨ps, rfl⟩ := isObj_of_diameterFields hd
  exact ⟨_, addThreatScore_eq_ok.mpr ⟨_, ps, hts, rfl, rfl⟩,
    by simp [getProp, isNullish, getOwn_setOwn_self]⟩

/-- C4 (as amended). For every item with numeric minimum and maximum diameters
and a present (not falsy) miss distance whose number is `d`, the threat score
computed by `getMeteors` is `((min + max) / 2) / d × 1,000,000,000` evaluated
in binary64 arithmetic, each operation rounded, also when `0 < d < 1`: the
divisor is `d` itself, not `max(d, 1)`. -/
theorem threatScore_present_miss (m : JSValue) (a b d : JSNum) (kmv : JSValue)
    (hd : diameterFields m = Except.ok (num a, num b))
    (hm : missDistance m = Except.ok kmv) (ht : kmv.truthy = true)
    (hn : toNumber kmv = Except.ok d) :
    ∃ s m1, threatScore m = Except.ok s ∧
      s = (((a.add b).div (JSNum.ofNat 2)).div d).mul (JSNum.ofNat 1000000000) ∧
      missDivisor m = Except.ok d ∧
      addThreatScore m = Except.ok m1 ∧ getProp m1 "threat_score" = Except.ok (num s) := by
  have hts : threatScore m = Except.ok
      ((((a.add b).div (JSNum.ofNat 2)).div d).mul (JSNum.ofNat 1000000000)) :=
    threatScore_eq_ok.mpr ⟨_, _, a, b, kmv, d, hd, rfl, rfl, hm, by simpa [orElse, ht] using hn, rfl⟩
  obtain ⟨m1, h1, h2⟩ := addThreatScore_of_threatScore hts
  exact ⟨_, m1, hts, rfl, by simp [missDivisor, hm, orElse, ht, hn], h1, h2⟩

/-- C4 (counterexample). For the item with diameters 0.1 and 0.3 and the miss
distance "0.5" the score is 400,000,000 = 0.2 / 0.5 × 1,000,000,000, while
the formula with `max(d, 1)`, which is 1 here, gives 200,000,000, in binary64
as in exact arithmetic. -/
theorem threatScore_not_clamped :
    diameterFields nearItem =
      Except.ok (num (JSNum.ofDec false 1 (-1)), num (JSNum.ofDec false 3 (-1))) ∧
    missKm nearItem = JSNum.ofDec false 5 (-1) ∧
    JSNum.lt (JSNum.ofDec false 5 (-1)) (JSNum.ofNat 1) = true ∧
    threatScore nearItem = Except.ok (JSNum.ofNat 400000000) ∧
    ((((JSNum.ofDec false 1 (-1)).add (JSNum.ofDec false 3 (-1))).div (JSNum.ofNat 2)).div
      (JSNum.ofNat 1)).mul (JSNum.ofNat 1000000000) = JSNum.ofNat 200000000 ∧
    ((1 / 10 + 3 / 10 : ℚ) / 2) / max (1 / 2) 1 * 1000000000 = 200000000 ∧
    JSNum.ofNat 400000000 ≠ JSNum.ofNat 200000000 :=
  ⟨by decide!, by decide!, by decide!, by decide!, by decide!, by norm_num, by decide!⟩

/-- C5. For every item with numeric minimum and maximum diameters whose miss
distance is absent, the divisor is the fallback 1 and the threat score
computed by `getMeteors` equals `((min + max) / 2) × 1,000,000,000`, in the
arithmetic of the code (binary64): the division by 1 changes nothing. -/
theorem threatScore_absent_miss (m : JSValue) (a b : JSNum)
    (hd : diameterFields m = Except.ok (num a, num b))
    (hm : missDistance m = Except.ok undefined) :
    ∃ s m1, threatScore m = Except.ok s ∧
      s = ((a.add b).div (JSNum.ofNat 2)).mul (JSNum.ofNat 1000000000) ∧
      missDivisor m = Except.ok (JSNum.ofNat 1) ∧
      addThreatScore m = Except.ok m1 ∧ getProp m1 "threat_score" = Except.ok (num s) := by
  have hts : threatScore m = Except.ok
      ((((a.add b).div (JSNum.ofNat 2)).div (JSNum.ofNat 1)).mul (JSNum.ofNat 1000000000)) :=
    threatScore_eq_ok.mpr ⟨_, _, a, b, undefined, _, hd, rfl, rfl, hm, rfl, rfl⟩
  rw [JSNum.div_one (JSNum.canonical_div _ _)] at hts
  obtain ⟨m1, h1, h2⟩ := addThreatScore_of_threatScore hts
  exact ⟨_, m1, hts, rfl, by simp [missDivisor, hm, orElse, truthy, toNumber], h1, h2⟩

/-- C6 (as amended). For every item whose minimum and maximum diameters are
numbers greater than or equal to 0 and whose divisor (the miss distance, or 1
when it is absent or empty) is a finite number greater than 0, the threat
score computed by `getMeteors` is greater than or equal to 0. -/
theorem threatScore_nonneg (m : JSValue) (a b d : JSNum) (kmv : JSValue)
    (hd : diameterFields m = Except.ok (num a, num b))
    (ha0 : JSNum.ge a (JSNum.fin false 0) = true) (hb0 : JSNum.ge b (JSNum.fin false 0) = true)
    (hm : missDistance m = Except.ok kmv)
    (hn : toNumber (kmv.orElse (num (JSNum.ofNat 1))) = Except.ok d)
    (hf : d.isFinite = true) (hpos : JSNum.gt d (JSNum.fin false 0) = true) :
    ∃ s m1, threatScore m = Except.ok s ∧ JSNum.ge s (JSNum.fin false 0) = true ∧
      addThreatScore m = Except.ok m1 ∧ getProp m1 "threat_score" = Except.ok (num s) := by
  have hts : threatScore m = Except.ok
      ((((a.add b).div (JSNum.ofNat 2)).div d).mul (JSNum.ofNat 1000000000)) :=
    threatScore_eq_ok.mpr ⟨_, _, a, b, kmv, d, hd, rfl, rfl, hm, hn, rfl⟩
  obtain ⟨m1, h1, h2⟩ := addThreatScore_of_threatScore hts
  refine ⟨_, m1, hts, ?_, h1, h2⟩
  obtain ⟨n, rfl, hn0⟩ := JSNum.gt_zero_finite hf hpos
  rw [JSNum.ofNat_two, JSNum.ofNat_scaling]
  have hs := JSNum.scale_pos
  exact JSNum.mul_nonneg_js
    (JSNum.div_nonneg_js (JSNum.div_nonneg_js (JSNum.add_nonneg_js ha0 hb0) (by omega)) hn0)
    (by omega)

/-- C6 (counterexample). An item whose `kilometers` object has no diameter
fields gets the score `NaN`, an item with the miss distance "-1000" the score
-200,000, and an item with diameters of 1e308 km and the miss distance
"Infinity" the score `NaN`: none is greater than or equal to 0. -/
theorem threatScore_can_be_negative_or_nan :
    threatScore noDiameterItem = Except.ok JSNum.nan ∧
    JSNum.ge JSNum.nan (JSNum.fin false 0) = false ∧
    threatScore negativeMissItem = Except.ok (JSNum.neg (JSNum.ofNat 200000)) ∧
    JSNum.ge (JSNum.neg (JSNum.ofNat 200000)) (JSNum.fin false 0) = false ∧
    missDivisor hugeItem = Except.ok JSNum.posInf ∧
    threatScore hugeItem = Except.ok JSNum.nan :=
  ⟨by decide!, by decide!, by decide!, by decide!, by decide!, by decide!⟩

/-! ## Malformed input -/

theorem threatScore_nan_of_diameter {m : JSValue} {minD maxD : JSValue} {s : JSNum}
    (hd : diameterFields m = Except.ok (minD, maxD))
    (hnan : toNumber minD = Except.ok JSNum.nan ∨ toNumber maxD = Except.ok JSNum.nan)
    (hs : threatScore m = Except.ok s) : s = JSNum.nan := by
  obtain ⟨minD1, maxD1, a, b, kmv, d, h1, h2, h3, -, -, rfl⟩ := threatScore_eq_ok.mp hs
  rw [hd] at h1
  cases h1
  have hab : a.add b = JSNum.nan := by
    rcases hnan with h | h
    · rw [h2] at h
      cases h
      cases b <;> rfl
    · rw [h3] at h
      cases h
      cases a <;> rfl
  rw [hab]
  simp [JSNum.div, JSNum.mul]

theorem getMeteorsBody_error_of_scoreAll (E : Engine) {data : JSValue} {flat : List JSValue}
    (hflat : flattenMeteors data = Except.ok flat)
    (hscore : scoreAll flat = Except.error JSError.typeError) :
    getMeteorsBody E data = Except.error JSError.typeError := by
  simp [getMeteorsBody, getMeteorsSorted, getMeteorsScored, hflat, hscore]

/-- C7 (as amended). The pipeline of `getMeteors` drops no item. When every
item is scored, each item is kept, an item whose minimum or maximum diameter
is missing or not numeric with the threat score `NaN`; the list that is stored
is the first five of all the items in sorted order, and the loading ends. -/
theorem malformed_item_not_dropped (E : Engine) (data : JSValue) (flat : List JSValue)
    (s : State) (hflat : flattenMeteors data = Except.ok flat)
    (hscore : ∀ m ∈ flat, ∃ m1, addThreatScore m = Except.ok m1) :
    ∃ scored sorted, getMeteorsScored data = Except.ok scored ∧
      List.Forall₂ (fun m m1 => addThreatScore m = Except.ok m1 ∧
        ∀ minD maxD, diameterFields m = Except.ok (minD, maxD) →
          toNumber minD = Except.ok JSNum.nan ∨ toNumber maxD = Except.ok JSNum.nan →
          getProp m1 "threat_score" = Except.ok (num JSNum.nan)) flat scored ∧
      getMeteorsSorted E data = Except.ok sorted ∧ sorted.Perm scored ∧
      sorted.length = flat.length ∧
      getMeteorsBody E data = Except.ok (sorted.take 5) ∧
      (getMeteors E data s).meteors = sorted.take 5 ∧
      (getMeteors E data s).loading = false := by
  obtain ⟨scored, hscored⟩ := scoreAll_ok_of_forall hscore
  obtain ⟨sorted, h1, hperm, h2, -⟩ := getMeteorsSorted_ok E hflat hscored
  refine ⟨scored, sorted, getMeteorsScored_eq hflat hscored, ?_, h1, hperm, ?_, h2,
    by simp [getMeteors, h2], by simp [getMeteors, h2]⟩
  · refine (scoreAll_eq_ok.mp hscored).imp ?_
    intro m m1 hm
    refine ⟨hm, ?_⟩
    intro minD maxD hd hnan
    obtain ⟨hs, hget⟩ := scoreOf_addThreatScore hm
    rw [hget, threatScore_nan_of_diameter hd hnan hs]
  · rw [hperm.length_eq, (scoreAll_eq_ok.mp hscored).length_eq]

/-- C7 (counterexample). In the catalog `[B, E]` where `E` has no diameter
fields, `E` is not dropped: the result holds `B` and `E`, and the threat score
of `E` is `NaN`. In the catalog `[B, F]` where `F` has no
`estimated_diameter`, the batch fails: no list is stored, and the loading
ends. -/
theorem malformed_item_is_kept_or_fails_batch :
    (∀ E : Engine, (getMeteors E missingDiameterCatalog initialState).meteors.map
        (fun m => (getOwn m "name", getOwn m "threat_score")) =
      [(str "B", num (JSNum.ofNat 400000)), (str "E", num JSNum.nan)]) ∧
    (∀ E : Engine, getMeteorsBody E missingEstimateCatalog = Except.error JSError.typeError) ∧
    (∀ E : Engine, (getMeteors E missingEstimateCatalog initialState).meteors = []) ∧
    (∀ E : Engine, (getMeteors E missingEstimateCatalog initialState).loading = false) :=
  have hfix : orderFixed missingEstimateCatalog = true := by decide!
  ⟨fun E => (congrArg (fun s => s.meteors.map (fun m => (getOwn m "name", getOwn m "threat_score")))
      (getMeteors_of_orderFixed E initialState (by decide!))).trans (by decide!),
    fun E => (getMeteorsBody_of_orderFixed E hfix).trans (by decide!),
    fun E => (congrArg State.meteors (getMeteors_of_orderFixed E initialState hfix)).trans
      (by decide!),
    fun E => (congrArg State.loading (getMeteors_of_orderFixed E initialState hfix)).trans
      (by decide!)⟩

theorem concatApply_of_not_arr {l : List JSValue} (h : ∀ v ∈ l, ∀ xs, v ≠ arr xs) :
    concatApply l = l := by
  induction l with
  | nil => rfl
  | cons v rest ih =>
    have hv := h v (List.mem_cons_self _ _)
    have hrest := ih (fun w hw => h w (List.mem_cons_of_mem _ hw))
    cases v with
    | arr xs => exact absurd rfl (hv xs)
    | undefined => simp [concatApply, hrest]
    | null => simp [concatApply, hrest]
    | bool b => simp [concatApply, hrest]
    | num n => simp [concatApply, hrest]
    | str s => simp [concatApply, hrest]
    | obj ps => simp [concatApply, hrest]

theorem getOwn_str_cases (s k : String) :
    getOwn (str s) k = undefined ∨ (∃ n, getOwn (str s) k = num n) ∨
      ∃ t, getOwn (str s) k = str t := by
  cases h1 : arrayIndex k with
  | some i =>
    cases h2 : s.data[i]? with
    | some c => exact Or.inr (Or.inr ⟨String.singleton c, by simp [getOwn, h1, h2]⟩)
    | none => exact Or.inl (by simp [getOwn, h1, h2])
  | none =>
    by_cases h3 : k = "length"
    · refine Or.inr (Or.inl ⟨JSNum.ofNat s.length, ?_⟩)
      simp only [getOwn, h1]
      simp [h3]
    · refine Or.inl ?_
      simp only [getOwn, h1]
      simp [h3]

/-- The flattened list of a non-empty string is not empty and holds no
object. -/
theorem flattenMeteors_str {data : JSValue} {s : String}
    (hneo : getProp data "near_earth_objects" = Except.ok (str s))
    (ht : (str s).truthy = true) :
    ∃ flat, flattenMeteors data = Except.ok flat ∧ flat ≠ [] ∧
      ∀ m ∈ flat, ∀ ps, m ≠ obj ps := by
  have hnot : ∀ v ∈ ((List.range s.length).map indexKey).map (fun d => getOwn (str s) d),
      (∀ xs, v ≠ arr xs) ∧ ∀ ps, v ≠ obj ps := by
    intro v hv
    obtain ⟨k, -, rfl⟩ := List.mem_map.mp hv
    rcases getOwn_str_cases s k with h | ⟨n, h⟩ | ⟨t, h⟩ <;> rw [h] <;>
      exact ⟨fun _ hc => JSValue.noConfusion hc, fun _ hc => JSValue.noConfusion hc⟩
  refine ⟨((List.range s.length).map indexKey).map (fun d => getOwn (str s) d), ?_, ?_,
    fun m hm => (hnot m hm).2⟩
  · simp only [flattenMeteors, hneo, ok_bind, orElse, ht, if_true, keys, pure_eq_ok]
    rw [concatApply_of_not_arr (fun v hv => (hnot v hv).1)]
  · have hlen : 0 < s.length := by
      simp only [truthy, Bool.not_eq_true', List.isEmpty_eq_false] at ht
      exact List.length_pos.mpr ht
    intro hnil
    have := congrArg List.length hnil
    simp at this
    omega

/-- C8 (as amended). For every response whose `near_earth_objects` is absent,
`null`, a boolean, a number or a string, `getMeteors` leaves the empty list
in the state and ends the loading, without raising: for a value other than a
non-empty string the pipeline returns the empty list; for a non-empty string
it raises a TypeError, which `getMeteors` catches. -/
theorem getMeteors_not_a_mapping (E : Engine) (data : JSValue)
    (hneo : ∀ neo, getProp data "near_earth_objects" = Except.ok neo →
      (∀ xs, neo ≠ arr xs) ∧ (∀ ps, neo ≠ obj ps)) :
    (getMeteors E data initialState).meteors = [] ∧
    (getMeteors E data initialState).loading = false ∧
    (∀ neo, getProp data "near_earth_objects" = Except.ok neo →
      (∀ s, neo = str s → (str s).truthy = false) → getMeteorsBody E data = Except.ok []) := by
  have hstate : ∀ r, getMeteorsBody E data = r →
      (r = Except.ok [] ∨ r = Except.error JSError.typeError) →
      (getMeteors E data initialState).meteors = [] ∧
      (getMeteors E data initialState).loading = false := by
    rintro r hr (rfl | rfl) <;> simp [getMeteors, hr, initialState]
  have hempty : ∀ neo, getProp data "near_earth_objects" = Except.ok neo →
      (∀ s, neo = str s → (str s).truthy = false) → getMeteorsBody E data = Except.ok [] := by
    intro neo h hs
    obtain ⟨harr, hobj⟩ := hneo neo h
    have hflat : flattenMeteors data = Except.ok [] := by
      cases neo with
      | arr xs => exact absurd rfl (harr xs)
      | obj ps => exact absurd rfl (hobj ps)
      | str s =>
        have := hs s rfl
        simp [flattenMeteors, h, orElse, this, keys, concatApply]
      | undefined => simp [flattenMeteors, h, orElse, truthy, keys, concatApply]
      | null => simp [flattenMeteors, h, orElse, truthy, keys, concatApply]
      | bool b => cases b <;> simp [flattenMeteors, h, orElse, truthy, keys, concatApply]
      | num n =>
        cases ht : (num n).truthy <;>
          simp [flattenMeteors, h, orElse, ht, keys, concatApply]
    have hscored : scoreAll [] = Except.ok [] := rfl
    exact (getMeteorsSorted_eq E hflat hscored (fun x hx => by simp at hx)).2
  refine ⟨?_, ?_, hempty⟩
  all_goals
    cases h : getProp data "near_earth_objects" with
    | error e =>
      have hbody : getMeteorsBody E data = Except.error JSError.typeError := by
        simp [getMeteorsBody, getMeteorsSorted, getMeteorsScored, flattenMeteors, h, error_eq e]
      first
        | exact (hstate _ hbody (Or.inr rfl)).1
        | exact (hstate _ hbody (Or.inr rfl)).2
    | ok neo =>
      by_cases hs : ∀ s, neo = str s → (str s).truthy = false
      · first
          | exact (hstate _ (hempty neo h hs) (Or.inl rfl)).1
          | exact (hstate _ (hempty neo h hs) (Or.inl rfl)).2
      · push_neg at hs
        obtain ⟨s, rfl, ht⟩ := hs
        have ht1 : (str s).truthy = true := by simpa using ht
        obtain ⟨flat, hflat, hne, hno⟩ := flattenMeteors_str h ht1
        obtain ⟨m, hm⟩ := List.exists_mem_of_ne_nil flat hne
        have herr : scoreAll flat = Except.error JSError.typeError := by
          refine scoreAll_error_of_mem hm ?_
          intro m1 h1
          obtain ⟨sc, ps, -, hps, -⟩ := addThreatScore_eq_ok.mp h1
          exact hno m hm ps hps
        have hbody := getMeteorsBody_error_of_scoreAll E hflat herr
        first
          | exact (hstate _ hbody (Or.inr rfl)).1
          | exact (hstate _ hbody (Or.inr rfl)).2

/-- C8 (counterexample). When `near_earth_objects` is an array holding the
item `A`, the pipeline does not yield the empty list: it stores `A`, scored. -/
theorem getMeteors_array_not_empty :
    getProp arrayResponse "near_earth_objects" = Except.ok
      (arr [item "A" (num (JSNum.ofDec false 1 (-1))) (num (JSNum.ofDec false 3 (-1)))
        (str "1000")]) ∧
    (∀ E : Engine, (getMeteors E arrayResponse initialState).meteors =
      [scoredItem "A" (num (JSNum.ofDec false 1 (-1))) (num (JSNum.ofDec false 3 (-1)))
        (str "1000") (JSNum.ofNat 200000)]) :=
  ⟨by decide!,
    fun E => (congrArg State.meteors (getMeteors_of_orderFixed E initialState (by decide!))).trans
      (by decide!)⟩

/-! ## The carousel -/

theorem startSlide_animating {c : Screen} (h : c.state.animating = true) (dir t : Int) :
    startSlide dir t c = c := by
  simp [startSlide, h]

theorem press_animating {c : Screen} (h : c.state.animating = true) (p : Press) :
    press p c = c := by
  cases p
  · simp only [press, prev]
    split_ifs
    · rfl
    · exact startSlide_animating h _ _
  · simp only [press, next]
    split_ifs
    · rfl
    · exact startSlide_animating h _ _

theorem pressAll_animating {c : Screen} (h : c.state.animating = true) (ps : List Press) :
    pressAll ps c = c := by
  induction ps with
  | nil => rfl
  | cons p ps ih => rw [pressAll, press_animating h p, ih]

theorem press_idle {c : Screen} (hr : c.running = []) (p : Press) :
    press p c = c ∨ ((press p c).state.animating = true ∧ (press p c).running.length = 1) := by
  by_cases ha : c.state.animating = true
  · exact Or.inl (press_animating ha p)
  · cases p
    · simp only [press, prev]
      split_ifs
      · exact Or.inl rfl
      · exact Or.inr (by simp [startSlide, ha, hr])
    · simp only [press, next]
      split_ifs
      · exact Or.inl rfl
      · exact Or.inr (by simp [startSlide, ha, hr])

theorem pressAll_idle {c : Screen} (hr : c.running = []) (ps : List Press) :
    (pressAll ps c).running.length ≤ 1 := by
  induction ps generalizing c with
  | nil => simp [pressAll, hr]
  | cons p ps ih =>
    rw [pressAll]
    rcases press_idle hr p with h | ⟨h1, h2⟩
    · rw [h]
      exact ih hr
    · rw [pressAll_animating h1]
      omega

/-- C9. The handler `prev` at index 0 returns the screen unchanged (index,
animating and nextIndex all as before), and `next` at index `length - 1`
returns the screen unchanged. -/
theorem prev_next_at_boundary (c d : Screen) (hc : c.state.index = 0)
    (hd : d.state.index = (d.state.meteors.length : Int) - 1) :
    prev c = c ∧ next d = d := by
  simp [prev, next, hc, hd]

theorem batched_startSlide_animating {b : Batched} (h : b.screen.state.animating = true)
    (dir t : Int) : Batched.startSlide dir t b = b := by
  simp [Batched.startSlide, h]

theorem batched_press_animating {b : Batched} (h : b.screen.state.animating = true)
    (p : Press) : Batched.press p b = b := by
  cases p
  · simp only [Batched.press, Batched.prev]
    split_ifs
    · rfl
    · exact batched_startSlide_animating h _ _
  · simp only [Batched.press, Batched.next]
    split_ifs
    · rfl
    · exact batched_startSlide_animating h _ _

theorem batched_pressAll_animating {b : Batched} (h : b.screen.state.animating = true)
    (ps : List Press) : Batched.pressAll ps b = b := by
  induction ps with
  | nil => rfl
  | cons p ps ih => rw [Batched.pressAll, batched_press_animating h p, ih]

/-- The handler `startSlide` on a screen is the call in a batch of its own. -/
theorem startSlide_eq_flush (dir t : Int) (c : Screen) :
    startSlide dir t c = Batched.flush (Batched.startSlide dir t { screen := c, pending := [] }) := by
  unfold startSlide Batched.startSlide
  by_cases h : c.state.animating = true
  · simp [h, Batched.flush]
  · simp [h, Batched.flush]

/-- A press handled as an event of its own is a batch of one call. -/
theorem press_eq_pressBatch (p : Press) (c : Screen) : press p c = pressBatch [p] c := by
  cases p
  · simp only [press, prev, pressBatch, Batched.pressAll, Batched.press, Batched.prev]
    split_ifs
    · rfl
    · exact startSlide_eq_flush _ _ c
  · simp only [press, next, pressBatch, Batched.pressAll, Batched.press, Batched.next]
    split_ifs
    · rfl
    · exact startSlide_eq_flush _ _ c

theorem pressAll_eq_pressBatches (ps : List Press) (c : Screen) :
    pressAll ps c = pressBatches (ps.map (fun p => [p])) c := by
  induction ps generalizing c with
  | nil => rfl
  | cons p ps ih =>
    simp only [pressAll, List.map_cons, pressBatches]
    rw [press_eq_pressBatch, ih]

/-- C10 (as amended). While an animation runs (the committed state has
`animating = true`), `prev` and `next` leave the screen unchanged (index,
animating and nextIndex), whatever the index, and so does every sequence of
calls, also inside one batch, where nothing is queued either; consequently,
when every call is handled as an event of its own, from a screen with at most
one transition in flight, none when it is idle, no sequence of calls brings
more than one transition in flight. -/
theorem presses_ignored_while_animating (c c0 : Screen) (ps : List Press) (pending : List Int)
    (h : c.state.animating = true)
    (h0 : c0.running.length ≤ 1) (h1 : c0.state.animating = false → c0.running = []) :
    prev c = c ∧ next c = c ∧ pressAll ps c = c ∧
    Batched.pressAll ps { screen := c, pending := pending } = { screen := c, pending := pending } ∧
    pressBatch ps c = c ∧
    pressAll ps c0 = pressBatches (ps.map (fun p => [p])) c0 ∧
    (pressBatches (ps.map (fun p => [p])) c0).running.length ≤ 1 := by
  refine ⟨press_animating h Press.prev, press_animating h Press.next,
    pressAll_animating h ps, batched_pressAll_animating h ps, ?_,
    pressAll_eq_pressBatches ps c0, ?_⟩
  · unfold pressBatch
    rw [batched_pressAll_animating (b := { screen := c, pending := [] }) h ps]
    rfl
  · rw [← pressAll_eq_pressBatches]
    cases ha : c0.state.animating
    · exact pressAll_idle (h1 ha) ps
    · rw [pressAll_animating ha]
      exact h0

/-- C10 (counterexample). From the first card of the example, idle and with
no transition in flight, two calls of `next` inside one batch both pass the
guard, which reads the committed state, and start two transitions to index
1. -/
theorem two_calls_in_one_batch_start_two :
    firstCard.state.animating = false ∧ firstCard.running = [] ∧
    (Batched.pressAll [Press.next, Press.next] { screen := firstCard, pending := [] }).pending =
      [1, 1] ∧
    (pressBatch [Press.next, Press.next] firstCard).running = [1, 1] ∧
    (pressBatch [Press.next, Press.next] firstCard).running.length = 2 ∧
    (pressBatch [Press.next, Press.next] firstCard).state.animating = true :=
  ⟨by decide!, by decide!, by decide!, by decide!, by decide!, by decide!⟩

/-! ## Instances on concrete input -/

/-- C1 (witness). The catalog of the example is date-grouped and its items are
well-formed; its result is in non-decreasing order of miss distance. -/
theorem getMeteors_sorted_by_miss_distance_witness :
    ∃ ms, getMeteorsBody Engine.keep exampleCatalog = Except.ok ms ∧
      ms.Pairwise (fun x y => JSNum.le (missKm x) (missKm y) = true) :=
  (getMeteors_sorted_by_miss_distance Engine.keep exampleCatalog
    [("2025-01-01",
      arr [item "A" (num (JSNum.ofDec false 1 (-1))) (num (JSNum.ofDec false 3 (-1))) (str "1000"),
        item "B" (num (JSNum.ofDec false 1 (-1))) (num (JSNum.ofDec false 3 (-1))) (str "500")])]
    rfl
    (by
      intro g hg
      rw [List.mem_singleton] at hg
      subst hg
      refine ⟨_, rfl, ?_⟩
      intro m hm
      simp only [List.mem_cons, List.mem_singleton, List.not_mem_nil, or_false] at hm
      rcases hm with rfl | rfl
      · exact ⟨⟨_, _, rfl, by decide!, by decide!⟩,
          ⟨str "1000", JSNum.ofNat 1000, rfl, rfl, by decide!, by decide!⟩⟩
      · exact ⟨⟨_, _, rfl, by decide!, by decide!⟩,
          ⟨str "500", JSNum.ofNat 500, rfl, rfl, by decide!, by decide!⟩⟩)).1

/-- C2 (witness). In the catalog `[D, B]` where `D` has no miss distance and
`B` is at "500" km, both items are scored and no comparator operand is
`NaN`. In the catalog `[S, T]` the two miss distances are written differently
and are the same number: the items keep their order. In the catalog `[D, P]`
the miss distance "1e400" of `P` is `Infinity`, equal to the fallback of `D`:
the items keep their order. -/
theorem getMeteors_sort_stable_witness :
    (∃ scored sorted, getMeteorsScored mixedCatalog = Except.ok scored ∧
      List.Forall₂ (fun m m1 => addThreatScore m = Except.ok m1 ∧
        missDistance m1 = missDistance m)
        [bareItem (num (JSNum.ofDec false 1 (-1))) (num (JSNum.ofDec false 3 (-1))),
          item "B" (num (JSNum.ofDec false 1 (-1))) (num (JSNum.ofDec false 3 (-1)))
            (str "500")] scored ∧
      getMeteorsSorted Engine.keep mixedCatalog = Except.ok sorted ∧ sorted.Perm scored ∧
      sorted.Pairwise (fun x y => ¬ (LacksMiss x ∧ HasFiniteMiss y)) ∧
      sorted.Pairwise (fun x y => JSNum.le (rankKey x) (rankKey y) = true) ∧
      (∀ k, sorted.filter (fun x => JSNum.eq (rankKey x) k) =
        scored.filter (fun x => JSNum.eq (rankKey x) k)) ∧
      (∀ x ∈ scored, LacksMiss x → JSNum.eq (rankKey x) JSNum.posInf = true)) ∧
    (getMeteors Engine.keep mixedCatalog initialState).meteors.map (fun m => getOwn m "name") =
      [str "B", str "D"] ∧
    stringToNumber "64503632.622439080" = stringToNumber "64503632.622439079" ∧
    (getMeteors Engine.keep tieCatalog initialState).meteors.map (fun m => getOwn m "name") =
      [str "S", str "T"] ∧
    stringToNumber "1e400" = JSNum.posInf ∧
    (getMeteors Engine.keep hugeMissCatalog initialState).meteors.map
        (fun m => getOwn m "name") =
      [str "D", str "P"] :=
  ⟨getMeteors_sort_stable Engine.keep mixedCatalog
    [bareItem (num (JSNum.ofDec false 1 (-1))) (num (JSNum.ofDec false 3 (-1))),
      item "B" (num (JSNum.ofDec false 1 (-1))) (num (JSNum.ofDec false 3 (-1))) (str "500")] rfl
    (forall_scored_of_isOk (by decide!))
    (by
      intro m hm
      simp only [List.mem_cons, List.mem_singleton, List.not_mem_nil, or_false] at hm
      rcases hm with rfl | rfl
      · decide!
      · decide!),
    by decide!, by decide!, by decide!, by decide!, by decide!⟩

/-- C3 (witness). The catalog of seven items in two date groups: the stored
list has length 5 and holds the five nearest items, the two at "300" km in
their input order. -/
theorem getMeteors_keeps_first_five_witness :
    sevenItems.length = 7 ∧
    (getMeteors Engine.keep sevenCatalog initialState).meteors.length = min sevenItems.length 5 ∧
    (getMeteors Engine.keep sevenCatalog initialState).meteors.map (fun m => getOwn m "name") =
      [str "M5", str "M7", str "M2", str "M6", str "M4"] :=
  have h := getMeteors_keeps_first_five Engine.keep sevenCatalog sevenItems initialState
    (by decide!)
  ⟨rfl,
    match h.2 (forall_scored_of_isOk (by decide!)) with
    | ⟨stored, hs⟩ => (h.1 stored hs).1.symm ▸ (h.1 stored hs).2.1,
    by decide!⟩

/-- C4 (witness). The item with diameters 0.1 and 0.2 at "3" km: its score
is the binary64 value 50000000.00000001, not 50,000,000. -/
theorem threatScore_present_miss_witness :
    (∃ s m1, threatScore thirdItem = Except.ok s ∧
      s = ((((JSNum.ofDec false 1 (-1)).add (JSNum.ofDec false 2 (-1))).div (JSNum.ofNat 2)).div
        (JSNum.ofNat 3)).mul (JSNum.ofNat 1000000000) ∧
      missDivisor thirdItem = Except.ok (JSNum.ofNat 3) ∧
      addThreatScore thirdItem = Except.ok m1 ∧
      getProp m1 "threat_score" = Except.ok (num s)) ∧
    threatScore thirdItem = Except.ok (stringToNumber "50000000.00000001") ∧
    stringToNumber "50000000.00000001" ≠ JSNum.ofNat 50000000 :=
  ⟨threatScore_present_miss thirdItem (JSNum.ofDec false 1 (-1)) (JSNum.ofDec false 2 (-1))
    (JSNum.ofNat 3) (str "3") rfl rfl rfl (by decide!), by decide!, by decide!⟩

/-- C5 (witness). Items with diameters 0.1 and 0.3 and no miss distance:
without `close_approach_data`, with an empty one, with an entry without
`miss_distance`, and with a `miss_distance` without `kilometers`. Each scores
0.2 × 1,000,000,000. The item with diameters 0.1 and 0.2 scores the binary64
value 150000000.00000003. -/
theorem threatScore_absent_miss_witness :
    (∃ s m1,
      threatScore (bareItem (num (JSNum.ofDec false 1 (-1))) (num (JSNum.ofDec false 3 (-1)))) =
        Except.ok s ∧
      s = (((JSNum.ofDec false 1 (-1)).add (JSNum.ofDec false 3 (-1))).div (JSNum.ofNat 2)).mul
        (JSNum.ofNat 1000000000) ∧
      missDivisor (bareItem (num (JSNum.ofDec false 1 (-1))) (num (JSNum.ofDec false 3 (-1)))) =
        Except.ok (JSNum.ofNat 1) ∧
      addThreatScore (bareItem (num (JSNum.ofDec false 1 (-1)))
        (num (JSNum.ofDec false 3 (-1)))) = Except.ok m1 ∧
      getProp m1 "threat_score" = Except.ok (num s)) ∧
    (∃ s m1, threatScore (itemWithApproach (arr [])) = Except.ok s ∧
      s = (((JSNum.ofDec false 1 (-1)).add (JSNum.ofDec false 3 (-1))).div (JSNum.ofNat 2)).mul
        (JSNum.ofNat 1000000000) ∧
      missDivisor (itemWithApproach (arr [])) = Except.ok (JSNum.ofNat 1) ∧
      addThreatScore (itemWithApproach (arr [])) = Except.ok m1 ∧
      getProp m1 "threat_score" = Except.ok (num s)) ∧
    (∃ s m1, threatScore (itemWithApproach (arr [obj []])) = Except.ok s ∧
      s = (((JSNum.ofDec false 1 (-1)).add (JSNum.ofDec false 3 (-1))).div (JSNum.ofNat 2)).mul
        (JSNum.ofNat 1000000000) ∧
      missDivisor (itemWithApproach (arr [obj []])) = Except.ok (JSNum.ofNat 1) ∧
      addThreatScore (itemWithApproach (arr [obj []])) = Except.ok m1 ∧
      getProp m1 "threat_score" = Except.ok (num s)) ∧
    (∃ s m1, threatScore (itemWithApproach (arr [obj [("miss_distance", obj [])]])) =
        Except.ok s ∧
      s = (((JSNum.ofDec false 1 (-1)).add (JSNum.ofDec false 3 (-1))).div (JSNum.ofNat 2)).mul
        (JSNum.ofNat 1000000000) ∧
      missDivisor (itemWithApproach (arr [obj [("miss_distance", obj [])]])) =
        Except.ok (JSNum.ofNat 1) ∧
      addThreatScore (itemWithApproach (arr [obj [("miss_distance", obj [])]])) =
        Except.ok m1 ∧
      getProp m1 "threat_score" = Except.ok (num s)) ∧
    (((JSNum.ofDec false 1 (-1)).add (JSNum.ofDec false 3 (-1))).div (JSNum.ofNat 2)).mul
      (JSNum.ofNat 1000000000) = JSNum.ofNat 200000000 ∧
    threatScore (bareItem (num (JSNum.ofDec false 1 (-1))) (num (JSNum.ofDec false 2 (-1)))) =
      Except.ok (stringToNumber "150000000.00000003") :=
  ⟨threatScore_absent_miss _ (JSNum.ofDec false 1 (-1)) (JSNum.ofDec false 3 (-1)) rfl rfl,
    threatScore_absent_miss _ (JSNum.ofDec false 1 (-1)) (JSNum.ofDec false 3 (-1)) rfl rfl,
    threatScore_absent_miss _ (JSNum.ofDec false 1 (-1)) (JSNum.ofDec false 3 (-1)) rfl rfl,
    threatScore_absent_miss _ (JSNum.ofDec false 1 (-1)) (JSNum.ofDec false 3 (-1)) rfl rfl,
    by decide!, by decide!⟩

/-- C6 (witness). The item with diameters 0.1 and 0.3 at "0.5" km. -/
theorem threatScore_nonneg_witness :
    ∃ s m1, threatScore nearItem = Except.ok s ∧ JSNum.ge s (JSNum.fin false 0) = true ∧
      addThreatScore nearItem = Except.ok m1 ∧
      getProp m1 "threat_score" = Except.ok (num s) :=
  threatScore_nonneg nearItem (JSNum.ofDec false 1 (-1)) (JSNum.ofDec false 3 (-1))
    (JSNum.ofDec false 5 (-1)) (str "0.5") rfl (by decide!) (by decide!) rfl
    (by decide!) (by decide!) (by decide!)

/-- C7 (witness). The batch with an item without diameter fields is scored:
both items are kept and stored, and the loading ends. -/
theorem malformed_item_not_dropped_witness :
    ∃ scored sorted, getMeteorsScored missingDiameterCatalog = Except.ok scored ∧
      List.Forall₂ (fun m m1 => addThreatScore m = Except.ok m1 ∧
        ∀ minD maxD, diameterFields m = Except.ok (minD, maxD) →
          toNumber minD = Except.ok JSNum.nan ∨ toNumber maxD = Except.ok JSNum.nan →
          getProp m1 "threat_score" = Except.ok (num JSNum.nan))
        [item "B" (num (JSNum.ofDec false 1 (-1))) (num (JSNum.ofDec false 3 (-1))) (str "500"),
          noDiameterItem] scored ∧
      getMeteorsSorted Engine.keep missingDiameterCatalog = Except.ok sorted ∧
      sorted.Perm scored ∧
      sorted.length =
        [item "B" (num (JSNum.ofDec false 1 (-1))) (num (JSNum.ofDec false 3 (-1))) (str "500"),
          noDiameterItem].length ∧
      getMeteorsBody Engine.keep missingDiameterCatalog = Except.ok (sorted.take 5) ∧
      (getMeteors Engine.keep missingDiameterCatalog initialState).meteors = sorted.take 5 ∧
      (getMeteors Engine.keep missingDiameterCatalog initialState).loading = false :=
  malformed_item_not_dropped Engine.keep missingDiameterCatalog
    [item "B" (num (JSNum.ofDec false 1 (-1))) (num (JSNum.ofDec false 3 (-1))) (str "500"),
      noDiameterItem] initialState rfl (forall_scored_of_isOk (by decide!))

/-- C8 (witness). The response whose `near_earth_objects` is the string
"none". -/
theorem getMeteors_not_a_mapping_witness :
    (getMeteors Engine.keep stringResponse initialState).meteors = [] ∧
    (getMeteors Engine.keep stringResponse initialState).loading = false :=
  have h := getMeteors_not_a_mapping Engine.keep stringResponse (by
    intro neo hneo
    have h1 : getProp stringResponse "near_earth_objects" = Except.ok (str "none") := rfl
    rw [h1] at hneo
    cases hneo
    exact ⟨fun _ hc => JSValue.noConfusion hc, fun _ hc => JSValue.noConfusion hc⟩)
  ⟨h.1, h.2.1⟩

/-- C9 (witness). The first and the last card of the example. -/
theorem prev_next_at_boundary_witness :
    firstCard.state.meteors.length = 2 ∧ prev firstCard = firstCard ∧ next lastCard = lastCard :=
  ⟨by decide!, prev_next_at_boundary firstCard lastCard (by decide!) (by decide!)⟩

/-- C10 (witness). The screen in the middle of a slide ignores the calls,
also inside one batch, and from the first card two presses of `next`, each an
event of its own, start one transition. -/
theorem presses_ignored_while_animating_witness :
    slidingCard.state.animating = true ∧
    prev slidingCard = slidingCard ∧ next slidingCard = slidingCard ∧
    pressAll [Press.next, Press.next] slidingCard = slidingCard ∧
    Batched.pressAll [Press.next, Press.next] { screen := slidingCard, pending := [] } =
      { screen := slidingCard, pending := [] } ∧
    pressBatch [Press.next, Press.next] slidingCard = slidingCard ∧
    pressAll [Press.next, Press.next] firstCard =
      pressBatches ([Press.next, Press.next].map (fun p => [p])) firstCard ∧
    (pressBatches ([Press.next, Press.next].map (fun p => [p])) firstCard).running.length ≤ 1 :=
  ⟨by decide!,
    presses_ignored_while_animating slidingCard firstCard [Press.next, Press.next] []
      (by decide!) (by decide!) (fun _ => by decide!)⟩

/-! ## Transitions of the carousel -/

theorem startSlide_idle {c : Screen} (h : c.state.animating = false) (dir t : Int) :
    startSlide dir t c =
      { state := { c.state with animating := true, nextIndex := some t },
        running := c.running ++ [t] } := by
  simp [startSlide, h]

/-- C11. From an idle screen (`animating = false`), `prev` with `index > 0`
yields `animating = true`, `nextIndex = index - 1` and the same index, and
`next` with `index < length - 1` yields `animating = true`,
`nextIndex = index + 1` and the same index: the index does not change when a
transition starts. -/
theorem prev_next_start_transition (c d : Screen)
    (hc : c.state.animating = false) (hci : 0 < c.state.index)
    (hd : d.state.animating = false)
    (hdi : d.state.index < (d.state.meteors.length : Int) - 1) :
    ((prev c).state.animating = true ∧ (prev c).state.nextIndex = some (c.state.index - 1) ∧
      (prev c).state.index = c.state.index ∧ (prev c).state.meteors = c.state.meteors ∧
      (prev c).running = c.running ++ [c.state.index - 1]) ∧
    ((next d).state.animating = true ∧ (next d).state.nextIndex = some (d.state.index + 1) ∧
      (next d).state.index = d.state.index ∧ (next d).state.meteors = d.state.meteors ∧
      (next d).running = d.running ++ [d.state.index + 1]) := by
  have h1 : c.state.index ≠ 0 := by omega
  have h2 : d.state.index ≠ (d.state.meteors.length : Int) - 1 := by omega
  simp [prev, next, h1, h2, startSlide_idle hc, startSlide_idle hd]

theorem finishSlide_idem (t : Int) (s : State) :
    finishSlide t (finishSlide t s) = finishSlide t s := rfl

/-- C12. For the transition that `startSlide` starts with target `t`, the
completion callback yields `index = t`, `animating = false` and
`nextIndex = null`, and a second run of the same callback leaves that state
unchanged: the index is still `t`. When no other animation runs, the
completion step of the screen is that callback, and a second completion step
changes nothing. -/
theorem completion_idempotent (c : Screen) (dir t : Int) (h : c.state.animating = false) :
    (startSlide dir t c).running = c.running ++ [t] ∧
    (finishSlide t (startSlide dir t c).state).index = t ∧
    (finishSlide t (startSlide dir t c).state).animating = false ∧
    (finishSlide t (startSlide dir t c).state).nextIndex = none ∧
    finishSlide t (finishSlide t (startSlide dir t c).state) =
      finishSlide t (startSlide dir t c).state ∧
    (c.running = [] →
      (complete (startSlide dir t c)).state = finishSlide t (startSlide dir t c).state ∧
      complete (complete (startSlide dir t c)) = complete (startSlide dir t c)) := by
  rw [startSlide_idle h]
  refine ⟨rfl, rfl, rfl, rfl, rfl, ?_⟩
  intro hr
  simp [complete, hr]

/-- The invariant of the carousel over a list of `n` items: the index and the
pending index are positions of the list, the pending index is set exactly
while an animation runs, and the one running animation is the one to the
pending index. -/
theorem carouselStep_invariant {n : Nat} (e : CarouselStep) {c : Screen}
    (hlen : c.state.meteors.length = n)
    (hidx : 0 ≤ c.state.index ∧ c.state.index ≤ (n : Int) - 1)
    (hanim : c.state.animating = true → ∃ t, c.state.nextIndex = some t ∧ c.running = [t] ∧
      0 ≤ t ∧ t ≤ (n : Int) - 1)
    (hidle : c.state.animating = false → c.state.nextIndex = none ∧ c.running = []) :
    (carouselStep e c).state.meteors.length = n ∧
    (0 ≤ (carouselStep e c).state.index ∧ (carouselStep e c).state.index ≤ (n : Int) - 1) ∧
    ((carouselStep e c).state.animating = true →
      ∃ t, (carouselStep e c).state.nextIndex = some t ∧ (carouselStep e c).running = [t] ∧
        0 ≤ t ∧ t ≤ (n : Int) - 1) ∧
    ((carouselStep e c).state.animating = false →
      (carouselStep e c).state.nextIndex = none ∧ (carouselStep e c).running = []) := by
  cases ha : c.state.animating
  · obtain ⟨hn, hr⟩ := hidle ha
    cases e
    · simp only [carouselStep, prev]
      split_ifs with h0
      · exact ⟨hlen, hidx, hanim, hidle⟩
      · rw [startSlide_idle ha]
        refine ⟨hlen, hidx, fun _ => ⟨_, rfl, by simp [hr], by omega, by omega⟩, ?_⟩
        intro h
        simp at h
    · simp only [carouselStep, next]
      split_ifs with h0
      · exact ⟨hlen, hidx, hanim, hidle⟩
      · rw [startSlide_idle ha]
        rw [hlen] at h0
        refine ⟨hlen, hidx, fun _ => ⟨_, rfl, by simp [hr], by omega, by omega⟩, ?_⟩
        intro h
        simp at h
    · have hcomp : complete c = c := by simp [complete, hr]
      simp only [carouselStep, hcomp]
      exact ⟨hlen, hidx, hanim, hidle⟩
  · obtain ⟨t, hn, hr, ht0, ht1⟩ := hanim ha
    cases e
    · have : prev c = c := press_animating ha Press.prev
      simp only [carouselStep, this]
      exact ⟨hlen, hidx, hanim, hidle⟩
    · have : next c = c := press_animating ha Press.next
      simp only [carouselStep, this]
      exact ⟨hlen, hidx, hanim, hidle⟩
    · have hcomp : complete c = { state := finishSlide t c.state, running := [] } := by
        simp [complete, hr]
      simp only [carouselStep, hcomp]
      refine ⟨hlen, ⟨ht0, ht1⟩, ?_, fun _ => by simp [finishSlide]⟩
      intro h
      simp [finishSlide] at h

/-- C13. For every non-empty list of items and every finite sequence of
`prev`, `next` and completion steps from the initial state (index 0, not
animating, no pending index), the state reached satisfies
`0 ≤ index ≤ length - 1`, `nextIndex` is set exactly when `animating` is
true, and a set `nextIndex` satisfies `0 ≤ nextIndex ≤ length - 1`. -/
theorem carousel_invariant (c0 : Screen) (steps : List CarouselStep)
    (hne : c0.state.meteors ≠ []) (hidx : c0.state.index = 0)
    (hanim : c0.state.animating = false) (hnext : c0.state.nextIndex = none)
    (hrun : c0.running = []) :
    (carouselRun steps c0).state.meteors = c0.state.meteors ∧
    0 ≤ (carouselRun steps c0).state.index ∧
    (carouselRun steps c0).state.index ≤ (c0.state.meteors.length : Int) - 1 ∧
    ((carouselRun steps c0).state.nextIndex ≠ none ↔
      (carouselRun steps c0).state.animating = true) ∧
    (∀ t, (carouselRun steps c0).state.nextIndex = some t →
      0 ≤ t ∧ t ≤ (c0.state.meteors.length : Int) - 1) := by
  have hpos : 0 < c0.state.meteors.length := List.length_pos.mpr hne
  have key : ∀ (steps : List CarouselStep) (c : Screen),
      c.state.meteors = c0.state.meteors →
      (0 ≤ c.state.index ∧ c.state.index ≤ (c0.state.meteors.length : Int) - 1) →
      (c.state.animating = true → ∃ t, c.state.nextIndex = some t ∧ c.running = [t] ∧
        0 ≤ t ∧ t ≤ (c0.state.meteors.length : Int) - 1) →
      (c.state.animating = false → c.state.nextIndex = none ∧ c.running = []) →
      (carouselRun steps c).state.meteors = c0.state.meteors ∧
      (0 ≤ (carouselRun steps c).state.index ∧
        (carouselRun steps c).state.index ≤ (c0.state.meteors.length : Int) - 1) ∧
      ((carouselRun steps c).state.animating = true →
        ∃ t, (carouselRun steps c).state.nextIndex = some t ∧
          (carouselRun steps c).running = [t] ∧
          0 ≤ t ∧ t ≤ (c0.state.meteors.length : Int) - 1) ∧
      ((carouselRun steps c).state.animating = false →
        (carouselRun steps c).state.nextIndex = none ∧ (carouselRun steps c).running = []) := by
    intro steps
    induction steps with
    | nil => intro c h1 h2 h3 h4; exact ⟨h1, h2, h3, h4⟩
    | cons e es ih =>
      intro c h1 h2 h3 h4
      obtain ⟨k1, k2, k3, k4⟩ := carouselStep_invariant e (congrArg List.length h1) h2 h3 h4
      have hm : (carouselStep e c).state.meteors = c0.state.meteors := by
        rw [← h1]
        cases e
        · simp only [carouselStep, prev, startSlide]
          split_ifs <;> rfl
        · simp only [carouselStep, next, startSlide]
          split_ifs <;> rfl
        · simp only [carouselStep, complete]
          split <;> rfl
      exact ih _ hm k2 k3 k4
  obtain ⟨r1, r2, r3, r4⟩ := key steps c0 rfl ⟨by omega, by omega⟩
    (fun h => by rw [hanim] at h; exact Bool.noConfusion h) (fun _ => ⟨hnext, hrun⟩)
  refine ⟨r1, r2.1, r2.2, ?_, ?_⟩
  · constructor
    · intro h
      cases ha : (carouselRun steps c0).state.animating
      · exact absurd (r4 ha).1 h
      · rfl
    · intro h
      obtain ⟨t, ht, -⟩ := r3 h
      rw [ht]
      exact Option.some_ne_none t
  · intro t ht
    cases ha : (carouselRun steps c0).state.animating
    · rw [(r4 ha).1] at ht
      exact Option.noConfusion ht
    · obtain ⟨t1, ht1, -, h0, h1⟩ := r3 ha
      rw [ht1] at ht
      cases ht
      exact ⟨h0, h1⟩

/-! ## The position poller -/

theorem pollRun_append (scr : PollerScreen) (late : Bool) (es fs : List PollEvent) (p : Poller) :
    pollRun scr late (es ++ fs) p = pollRun scr late fs (pollRun scr late es p) := by
  induction es generalizing p with
  | nil => rfl
  | cons e es ih => exact ih _

/-- In `IssLocation.js` the id of the interval is kept while the screen is
mounted, and no interval is active before the mount or after the unmount. -/
theorem pollStep_interval (late : Bool) (e : PollEvent) {p : Poller}
    (h1 : p.phase = Phase.created → p.interval = false)
    (h2 : p.phase = Phase.mounted → p.storedId = true)
    (h3 : p.phase = Phase.unmounted → p.interval = false) :
    ((pollStep PollerScreen.issLocation late e p).phase = Phase.created →
      (pollStep PollerScreen.issLocation late e p).interval = false) ∧
    ((pollStep PollerScreen.issLocation late e p).phase = Phase.mounted →
      (pollStep PollerScreen.issLocation late e p).storedId = true) ∧
    ((pollStep PollerScreen.issLocation late e p).phase = Phase.unmounted →
      (pollStep PollerScreen.issLocation late e p).interval = false) := by
  cases e with
  | mount =>
    simp only [pollStep]
    split_ifs with h
    · simp [componentDidMount, getIssLocation]
    · exact ⟨h1, h2, h3⟩
  | tick =>
    simp only [pollStep]
    split_ifs with h
    · exact ⟨h1, h2, h3⟩
    · exact ⟨h1, h2, h3⟩
  | success data =>
    simp only [pollStep]
    split_ifs with h
    · exact ⟨h1, h2, h3⟩
    · exact ⟨h1, h2, h3⟩
  | failure =>
    simp only [pollStep]
    split_ifs with h
    · exact ⟨h1, h2, h3⟩
    · exact ⟨h1, h2, h3⟩
  | unmount =>
    simp only [pollStep]
    split_ifs with h
    · simp [componentWillUnmount, h2 h]
    · exact ⟨h1, h2, h3⟩

theorem pollRun_interval (late : Bool) (es : List PollEvent) :
    ((pollRun PollerScreen.issLocation late es newPoller).phase = Phase.mounted →
      (pollRun PollerScreen.issLocation late es newPoller).storedId = true) ∧
    ((pollRun PollerScreen.issLocation late es newPoller).phase = Phase.unmounted →
      (pollRun PollerScreen.issLocation late es newPoller).interval = false) := by
  have key : ∀ (es : List PollEvent) (p : Poller),
      (p.phase = Phase.created → p.interval = false) →
      (p.phase = Phase.mounted → p.storedId = true) →
      (p.phase = Phase.unmounted → p.interval = false) →
      ((pollRun PollerScreen.issLocation late es p).phase = Phase.mounted →
        (pollRun PollerScreen.issLocation late es p).storedId = true) ∧
      ((pollRun PollerScreen.issLocation late es p).phase = Phase.unmounted →
        (pollRun PollerScreen.issLocation late es p).interval = false) := by
    intro es
    induction es with
    | nil => intro p _ h2 h3; exact ⟨h2, h3⟩
    | cons e es ih =>
      intro p h1 h2 h3
      obtain ⟨k1, k2, k3⟩ := pollStep_interval late e h1 h2 h3
      exact ih _ k1 k2 k3
  exact key es newPoller (fun _ => rfl) (fun h => by simp [newPoller] at h)
    (fun h => by simp [newPoller] at h)

/-- One event on an unmounted poller without an active interval: no request
is issued, and only the response to a request in flight calls `setState`. -/
theorem pollStep_unmounted (scr : PollerScreen) (late : Bool) (e : PollEvent) {p : Poller}
    (hp : p.phase = Phase.unmounted) (hi : p.interval = false) :
    (pollStep scr late e p).phase = Phase.unmounted ∧
    (pollStep scr late e p).interval = false ∧
    (pollStep scr late e p).issued = p.issued ∧
    (pollStep scr late e p).inFlight ≤ p.inFlight ∧
    (pollStep scr late e p).published.length + (pollStep scr late e p).inFlight ≤
      p.published.length + p.inFlight ∧
    (late = false → (pollStep scr late e p).location = p.location) ∧
    (p.inFlight = 0 → (pollStep scr late e p).location = p.location ∧
      (pollStep scr late e p).published = p.published) := by
  cases e with
  | mount => simp [pollStep, hp, hi]
  | tick => simp [pollStep, hp, hi]
  | success data =>
    simp only [pollStep]
    split_ifs with h
    · simp only [onFetchSuccess, hp, hi, List.length_append, List.length_singleton]
      refine ⟨trivial, trivial, trivial, by omega, by omega, ?_, by omega⟩
      intro hl
      simp [hl]
    · simp [hp, hi]
  | failure =>
    simp only [pollStep]
    split_ifs with h
    · simp only [onFetchFailure, hp, hi]
      refine ⟨trivial, trivial, trivial, by omega, by omega, fun _ => trivial, by omega⟩
    · simp [hp, hi]
  | unmount => simp [pollStep, hp, hi]

theorem pollRun_unmounted (scr : PollerScreen) (late : Bool) (es : List PollEvent) {p : Poller}
    (hp : p.phase = Phase.unmounted) (hi : p.interval = false) :
    (pollRun scr late es p).issued = p.issued ∧
    (pollRun scr late es p).interval = false ∧
    (pollRun scr late es p).inFlight ≤ p.inFlight ∧
    (pollRun scr late es p).published.length + (pollRun scr late es p).inFlight ≤
      p.published.length + p.inFlight ∧
    (late = false → (pollRun scr late es p).location = p.location) ∧
    (p.inFlight = 0 → (pollRun scr late es p).location = p.location ∧
      (pollRun scr late es p).published = p.published) := by
  induction es generalizing p with
  | nil => simp [pollRun, hi]
  | cons e es ih =>
    obtain ⟨k1, k2, k3, k4, k5, k6, k7⟩ := pollStep_unmounted scr late e hp hi
    obtain ⟨j1, j2, j3, j4, j5, j6⟩ := ih k1 k2
    simp only [pollRun]
    refine ⟨by rw [j1, k3], j2, by omega, by omega, fun hl => by rw [j5 hl, k6 hl], ?_⟩
    intro h0
    have h1 : (pollStep scr late e p).inFlight = 0 := by omega
    obtain ⟨a1, a2⟩ := j6 h1
    obtain ⟨b1, b2⟩ := k7 h0
    exact ⟨by rw [a1, b1], by rw [a2, b2]⟩

/-- C14 (as amended). In `IssLocation.js`, once the screen has been unmounted
the periodic timer issues no further fetch, whatever events follow, and a
failed fetch changes nothing. A fetch that was in flight at the unmount is not
cancelled: its handler still calls `setState` with the response, so at most as
many responses are published after the unmount as fetches were in flight
then, and none when none was. The stored location stays as it was when React
drops the updates of an unmounted component (`late = false`). -/
theorem poller_after_unmount (late : Bool) (before later : List PollEvent) (p q : Poller)
    (hm : (pollRun PollerScreen.issLocation late before newPoller).phase = Phase.mounted)
    (hp : p = pollRun PollerScreen.issLocation late (before ++ [PollEvent.unmount]) newPoller)
    (hq : q = pollRun PollerScreen.issLocation late later p) :
    p.phase = Phase.unmounted ∧ q.issued = p.issued ∧ q.interval = false ∧
    q.published.length ≤ p.published.length + p.inFlight ∧
    (late = false → q.location = p.location) ∧
    (p.inFlight = 0 → q.location = p.location ∧ q.published = p.published) := by
  have hstored := (pollRun_interval late before).1 hm
  have hp1 : p = componentWillUnmount PollerScreen.issLocation
      (pollRun PollerScreen.issLocation late before newPoller) := by
    rw [hp, pollRun_append]
    simp [pollRun, pollStep, hm]
  have hphase : p.phase = Phase.unmounted := by
    rw [hp1]
    simp [componentWillUnmount, hstored]
  have hint : p.interval = false := by
    rw [hp1]
    simp [componentWillUnmount, hstored]
  obtain ⟨j1, j2, -, j4, j5, j6⟩ := pollRun_unmounted PollerScreen.issLocation late later hphase hint
  rw [hq]
  exact ⟨hphase, j1, j2, by omega, j5, j6⟩

/-- C14 (counterexample). In `IssInfo.js` the timer issues a fetch after the
unmount: the second call of `axios.get`. In `IssLocation.js` the response to
the fetch that was in flight at the unmount is published: the handler calls
`setState` with it, and the stored location changes if React applies the
call. -/
theorem poller_active_after_unmount :
    (pollRun PollerScreen.issInfo false [PollEvent.mount, PollEvent.unmount] newPoller).issued
      = 1 ∧
    (pollRun PollerScreen.issInfo false [PollEvent.mount, PollEvent.unmount, PollEvent.tick]
      newPoller).issued = 2 ∧
    (pollRun PollerScreen.issLocation false [PollEvent.mount, PollEvent.unmount]
      newPoller).published = [] ∧
    (pollRun PollerScreen.issLocation false
      [PollEvent.mount, PollEvent.unmount, PollEvent.success samplePosition]
      newPoller).published = [samplePosition] ∧
    (pollRun PollerScreen.issLocation true [PollEvent.mount, PollEvent.unmount]
      newPoller).location = obj [] ∧
    (pollRun PollerScreen.issLocation true
      [PollEvent.mount, PollEvent.unmount, PollEvent.success samplePosition]
      newPoller).location = samplePosition :=
  ⟨rfl, rfl, rfl, rfl, rfl, rfl⟩

/-- C15. On a mounted screen, for every stored location and every poll
result, a failed fetch leaves the stored location exactly as it was, and a
successful fetch sets the stored location to the response as a whole: the
result does not depend on the previous location. -/
theorem poll_result_replaces_location (scr : PollerScreen) (late : Bool) (p : Poller)
    (data : JSValue) (hm : p.phase = Phase.mounted) (hf : 0 < p.inFlight) :
    (pollStep scr late PollEvent.failure p).location = p.location ∧
    (pollStep scr late (PollEvent.success data) p).location = data ∧
    (onFetchFailure p).location = p.location ∧
    (onFetchSuccess late data p).location = data ∧
    (∀ previous, (onFetchSuccess late data { p with location := previous }).location = data) := by
  simp [pollStep, hf, onFetchFailure, onFetchSuccess, hm]

/-! ## The card visuals -/

theorem visualsFor_eq {meteor ts : JSValue} {n : JSNum} (idx : Nat)
    (h : getProp meteor "threat_score" = Except.ok ts) (hn : toNumber ts = Except.ok n) :
    visualsFor meteor (idx : Int) = Except.ok
      { bg_img := BG_IMAGES.get? (idx % 3),
        speed := "../assets/meteor_speed3.gif",
        size := if JSNum.le n (JSNum.ofNat 30) then 100
          else if JSNum.le n (JSNum.ofNat 75) then 150 else 200 } := by
  have hr : Int.tmod (idx : Int) ((BG_IMAGES.length : Nat) : Int) = ((idx % 3 : Nat) : Int) := by
    have h3 : ((BG_IMAGES.length : Nat) : Int) = ((3 : Nat) : Int) := rfl
    rw [h3, ← Int.ofNat_tmod]
  have h0 : (0 : Int) ≤ ((idx % 3 : Nat) : Int) := Int.ofNat_nonneg _
  unfold visualsFor
  rw [hr]
  simp only [if_pos h0, Int.toNat_ofNat, h, hn, ok_bind, pure_eq_ok]

/-- C16. For every item, with `threat_score` read as a number, and every
non-negative card index `idx`, `visualsFor` returns the background at
position `idx mod 3` of the three-entry palette, always a valid position, and
the size 100 when `threat_score ≤ 30`, 150 when `30 < threat_score ≤ 75`, and
200 otherwise; the size is non-decreasing in `threat_score`. -/
theorem visualsFor_spec (m1 m2 ts1 ts2 : JSValue) (n1 n2 : JSNum) (idx : Nat)
    (h1 : getProp m1 "threat_score" = Except.ok ts1) (hn1 : toNumber ts1 = Except.ok n1)
    (h2 : getProp m2 "threat_score" = Except.ok ts2) (hn2 : toNumber ts2 = Except.ok n2) :
    ∃ v1 v2 bg, visualsFor m1 (idx : Int) = Except.ok v1 ∧
      visualsFor m2 (idx : Int) = Except.ok v2 ∧
      BG_IMAGES.length = 3 ∧ idx % 3 < BG_IMAGES.length ∧
      BG_IMAGES.get? (idx % 3) = some bg ∧ v1.bg_img = some bg ∧
      (JSNum.le n1 (JSNum.ofNat 30) = true → v1.size = 100) ∧
      (JSNum.lt (JSNum.ofNat 30) n1 = true → JSNum.le n1 (JSNum.ofNat 75) = true →
        v1.size = 150) ∧
      (JSNum.le n1 (JSNum.ofNat 30) = false → JSNum.le n1 (JSNum.ofNat 75) = false →
        v1.size = 200) ∧
      (JSNum.le n1 n2 = true → v1.size ≤ v2.size) := by
  have hlt : idx % 3 < BG_IMAGES.length := Nat.mod_lt idx (by decide)
  refine ⟨_, _, BG_IMAGES.get ⟨idx % 3, hlt⟩, visualsFor_eq idx h1 hn1, visualsFor_eq idx h2 hn2, rfl,
    hlt, List.get?_eq_get hlt, List.get?_eq_get hlt, ?_, ?_, ?_, ?_⟩
  · intro h
    simp [h]
  · intro h30 h75
    have : JSNum.le n1 (JSNum.ofNat 30) = false := by
      cases hle : JSNum.le n1 (JSNum.ofNat 30)
      · rfl
      · rw [JSNum.lt_false_of_le hle] at h30
        exact Bool.noConfusion h30
    simp [this, h75]
  · intro h30 h75
    simp [h30, h75]
  · intro hle
    show (if JSNum.le n1 (JSNum.ofNat 30) = true then 100
        else if JSNum.le n1 (JSNum.ofNat 75) = true then 150 else 200) ≤
      (if JSNum.le n2 (JSNum.ofNat 30) = true then 100
        else if JSNum.le n2 (JSNum.ofNat 75) = true then 150 else 200)
    cases a30 : JSNum.le n2 (JSNum.ofNat 30)
    · cases a75 : JSNum.le n2 (JSNum.ofNat 75)
      · cases JSNum.le n1 (JSNum.ofNat 30) <;> cases JSNum.le n1 (JSNum.ofNat 75) <;> simp
      · have := JSNum.le_trans_js hle a75
        cases JSNum.le n1 (JSNum.ofNat 30) <;> simp [this]
    · have := JSNum.le_trans_js hle a30
      simp [this]

/-! ## The divisor -/

theorem threatScore_divides_by_missDivisor (m : JSValue) :
    threatScore m = (do
      let d ← diameterFields m
      let a ← toNumber d.1
      let b ← toNumber d.2
      let miss ← missDivisor m
      pure ((((a.add b).div (JSNum.ofNat 2)).div miss).mul (JSNum.ofNat 1000000000))) := by
  unfold threatScore missDivisor
  cases diameterFields m with
  | error e => rfl
  | ok d =>
    simp only [ok_bind]
    cases toNumber d.1 with
    | error e => rfl
    | ok a =>
      simp only [ok_bind]
      cases toNumber d.2 with
      | error e => rfl
      | ok b =>
        simp only [ok_bind]
        cases missDistance m with
        | error e => rfl
        | ok kmv => rfl

/-- C17 (the code at the failing input). For the item whose miss distance is
the string "0" the divisor of line 79 is `Number("0")`, zero, and the score
of the item with diameters 0.1 and 0.3 is `Infinity`; for an absent miss
distance and for the number 0 the divisor is the fallback 1. -/
theorem zero_string_divisor_is_zero :
    missDistance zeroMissItem = Except.ok (str "0") ∧
    (str "0").truthy = true ∧
    missDivisor zeroMissItem = Except.ok (JSNum.fin false 0) ∧
    threatScore zeroMissItem = Except.ok JSNum.posInf ∧
    missDivisor zeroNumberItem = Except.ok (JSNum.ofNat 1) ∧
    missDivisor (bareItem (num (JSNum.ofDec false 1 (-1))) (num (JSNum.ofDec false 3 (-1)))) =
      Except.ok (JSNum.ofNat 1) :=
  ⟨by decide!, by decide!, by decide!,
    by decide!, by decide!, by decide!⟩

/-! ## The empty list -/

theorem complete_idle {c : Screen} (hr : c.running = []) : complete c = c := by
  simp [complete, hr]

/-- C18 (as amended). When the item list is empty, `prev` and the completion
step leave the initial state unchanged, and `render` shows the loading or the
no-data view, which has no arrows: after any sequence of presses on the
rendered screen and completion steps the state is still index 0, not
animating, without pending index. -/
theorem empty_list_no_transition (c : Screen) (events : List ScreenEvent)
    (steps : List CarouselStep)
    (hm : c.state.meteors = []) (hi : c.state.index = 0) (hr : c.running = [])
    (hsteps : CarouselStep.next ∉ steps) :
    (render c.state = View.loading ∨ render c.state = View.noData) ∧
    screenRun events c = c ∧ prev c = c ∧ complete c = c ∧ carouselRun steps c = c := by
  have hrender : render c.state = View.loading ∨ render c.state = View.noData := by
    unfold render
    cases c.state.loading <;> simp [hm]
  have hprev : prev c = c := by simp [prev, hi]
  have hcomp : complete c = c := complete_idle hr
  refine ⟨hrender, ?_, hprev, hcomp, ?_⟩
  · induction events with
    | nil => rfl
    | cons e es ih =>
      have hstep : screenStep e c = c := by
        cases e with
        | tap p =>
          simp only [screenStep, tap]
          rcases hrender with h | h <;> rw [h]
        | complete => exact hcomp
      rw [screenRun, hstep, ih]
  · induction steps with
    | nil => rfl
    | cons e es ih =>
      have hne : e ≠ CarouselStep.next := fun h => hsteps (h ▸ List.mem_cons_self _ _)
      have hstep : carouselStep e c = c := by
        cases e with
        | prev => exact hprev
        | next => exact absurd rfl hne
        | complete => exact hcomp
      rw [carouselRun, hstep]
      exact ih (fun h => hsteps (List.mem_cons_of_mem _ h))

/-- C18 (counterexample). On the empty list, `next` called from the initial
state starts a transition to index 1, and its completion sets the index to 1,
past the end of the list. -/
theorem next_on_empty_list_starts_transition :
    emptyScreen.state.meteors.length = 0 ∧ emptyScreen.state.index = 0 ∧
    emptyScreen.state.animating = false ∧ emptyScreen.state.nextIndex = none ∧
    (next emptyScreen).state.animating = true ∧
    (next emptyScreen).state.nextIndex = some 1 ∧
    (carouselRun [CarouselStep.next, CarouselStep.complete] emptyScreen).state.index = 1 :=
  ⟨rfl, rfl, rfl, rfl, by decide, by decide, by decide⟩

/-! ## Further instances on concrete input -/

/-- C11 (witness). From the last of the two cards of the example `prev`
starts the slide to index 0, and from the first card `next` starts the slide
to index 1. -/
theorem prev_next_start_transition_witness :
    ((prev lastCard).state.animating = true ∧
      (prev lastCard).state.nextIndex = some (lastCard.state.index - 1) ∧
      (prev lastCard).state.index = lastCard.state.index ∧
      (prev lastCard).state.meteors = lastCard.state.meteors ∧
      (prev lastCard).running = lastCard.running ++ [lastCard.state.index - 1]) ∧
    ((next firstCard).state.animating = true ∧
      (next firstCard).state.nextIndex = some (firstCard.state.index + 1) ∧
      (next firstCard).state.index = firstCard.state.index ∧
      (next firstCard).state.meteors = firstCard.state.meteors ∧
      (next firstCard).running = firstCard.running ++ [firstCard.state.index + 1]) :=
  prev_next_start_transition lastCard firstCard (by decide!)
    (by decide!) (by decide!) (by decide!)

/-- C12 (witness). The slide from the first card of the example to index 1. -/
theorem completion_idempotent_witness :
    (finishSlide 1 (startSlide 1 1 firstCard).state).index = 1 ∧
    finishSlide 1 (finishSlide 1 (startSlide 1 1 firstCard).state) =
      finishSlide 1 (startSlide 1 1 firstCard).state ∧
    complete (complete (startSlide 1 1 firstCard)) = complete (startSlide 1 1 firstCard) :=
  have h := completion_idempotent firstCard 1 1 (by decide!)
  ⟨h.2.1, h.2.2.2.2.1, (h.2.2.2.2.2 rfl).2⟩

/-- C13 (witness). Six events on the two cards of the example. -/
theorem carousel_invariant_witness :
    0 ≤ (carouselRun [CarouselStep.next, CarouselStep.next, CarouselStep.complete,
      CarouselStep.next, CarouselStep.prev, CarouselStep.complete] firstCard).state.index ∧
    (carouselRun [CarouselStep.next, CarouselStep.next, CarouselStep.complete,
      CarouselStep.next, CarouselStep.prev, CarouselStep.complete] firstCard).state.index ≤
      (firstCard.state.meteors.length : Int) - 1 :=
  have h := carousel_invariant firstCard [CarouselStep.next, CarouselStep.next,
    CarouselStep.complete, CarouselStep.next, CarouselStep.prev, CarouselStep.complete]
    (List.ne_nil_of_length_pos (by decide!))
    (by decide!) (by decide!) (by decide!) rfl
  ⟨h.2.1, h.2.2.1⟩

/-- C14 (witness). The screen of `IssLocation.js` is mounted, polls once more
and is unmounted with one fetch in flight; a tick, a response, a failure and a
tick follow. -/
theorem poller_after_unmount_witness :
    (pollRun PollerScreen.issLocation false
      [PollEvent.mount, PollEvent.tick, PollEvent.success samplePosition] newPoller).phase =
      Phase.mounted ∧
    (pollRun PollerScreen.issLocation false
      [PollEvent.tick, PollEvent.success samplePosition, PollEvent.failure, PollEvent.tick]
      (pollRun PollerScreen.issLocation false
        ([PollEvent.mount, PollEvent.tick, PollEvent.success samplePosition] ++
          [PollEvent.unmount]) newPoller)).issued =
      (pollRun PollerScreen.issLocation false
        ([PollEvent.mount, PollEvent.tick, PollEvent.success samplePosition] ++
          [PollEvent.unmount]) newPoller).issued :=
  ⟨rfl, (poller_after_unmount false
    [PollEvent.mount, PollEvent.tick, PollEvent.success samplePosition]
    [PollEvent.tick, PollEvent.success samplePosition, PollEvent.failure, PollEvent.tick]
    _ _ rfl rfl rfl).2.1⟩

/-- C15 (witness). The mounted screen of `IssLocation.js` with its first fetch
in flight. -/
theorem poll_result_replaces_location_witness :
    (pollStep PollerScreen.issLocation false PollEvent.failure
      (pollRun PollerScreen.issLocation false [PollEvent.mount] newPoller)).location = obj [] ∧
    (pollStep PollerScreen.issLocation false (PollEvent.success samplePosition)
      (pollRun PollerScreen.issLocation false [PollEvent.mount] newPoller)).location =
      samplePosition :=
  have h := poll_result_replaces_location PollerScreen.issLocation false
    (pollRun PollerScreen.issLocation false [PollEvent.mount] newPoller) samplePosition rfl
    (by decide)
  ⟨h.1, h.2.1⟩

/-- C16 (witness). Two scored items of the example as the fifth card. -/
theorem visualsFor_spec_witness :
    ∃ v1 v2 bg,
      visualsFor (scoredItem "A" (num (JSNum.ofDec false 1 (-1))) (num (JSNum.ofDec false 3 (-1)))
        (str "1000") (JSNum.ofNat 20)) ((4 : Nat) : Int) = Except.ok v1 ∧
      visualsFor (scoredItem "B" (num (JSNum.ofDec false 1 (-1))) (num (JSNum.ofDec false 3 (-1)))
        (str "500") (JSNum.ofNat 400000)) ((4 : Nat) : Int) = Except.ok v2 ∧
      BG_IMAGES.length = 3 ∧ 4 % 3 < BG_IMAGES.length ∧
      BG_IMAGES.get? (4 % 3) = some bg ∧ v1.bg_img = some bg ∧
      (JSNum.le (JSNum.ofNat 20) (JSNum.ofNat 30) = true → v1.size = 100) ∧
      (JSNum.lt (JSNum.ofNat 30) (JSNum.ofNat 20) = true →
        JSNum.le (JSNum.ofNat 20) (JSNum.ofNat 75) = true → v1.size = 150) ∧
      (JSNum.le (JSNum.ofNat 20) (JSNum.ofNat 30) = false →
        JSNum.le (JSNum.ofNat 20) (JSNum.ofNat 75) = false → v1.size = 200) ∧
      (JSNum.le (JSNum.ofNat 20) (JSNum.ofNat 400000) = true → v1.size ≤ v2.size) :=
  visualsFor_spec _ _ (num (JSNum.ofNat 20)) (num (JSNum.ofNat 400000)) (JSNum.ofNat 20)
    (JSNum.ofNat 400000) 4 rfl rfl rfl rfl

/-- C18 (witness). The screen over the empty list: presses and completion
steps leave it as it is. -/
theorem empty_list_no_transition_witness :
    render emptyScreen.state = View.noData ∧
    screenRun [ScreenEvent.tap Press.next, ScreenEvent.tap Press.prev, ScreenEvent.complete]
      emptyScreen = emptyScreen ∧
    carouselRun [CarouselStep.prev, CarouselStep.complete] emptyScreen = emptyScreen :=
  have h := empty_list_no_transition emptyScreen
    [ScreenEvent.tap Press.next, ScreenEvent.tap Press.prev, ScreenEvent.complete]
    [CarouselStep.prev, CarouselStep.complete] rfl rfl rfl (by simp)
  ⟨rfl, h.2.1, h.2.2.2.2⟩

end Meteors
